import Mathlib

set_option linter.unusedVariables false

/-! # Kasumi blitting engine (`Kasumi/source/blt.cpp`)

A shallow embedding of the pixel-format conversion dispatcher: Direct Blit, the capability
probe, Fast Blit with its two-stage fallback, and the clipping rectangle blit.

Conventions of the embedding.

* Addresses (`void *`) and strides (`ptrdiff_t`) are integers; `NULL` is `0`.
* `vdpixpos`, `vdpixsize` and format ids are C `int`s.  Signed overflow is undefined behaviour
  in C++, so signed arithmetic is carried out in `Int` and describes the executions in which
  every intermediate value is representable.  The two places where the source relies on
  modular behaviour, the `(unsigned)` casts of the format ids and the `--h` test of the
  `do ... while` row loop, are modelled modulo `2 ^ 32`.  Where a build's two's complement
  wrap-around decides a property, the wrapped value is modelled as well (`wrapInt32`): the
  byte width `qsize * qw` of the same-format copy, and the clipping statements of the
  rectangle blit in `clipRect32`, next to their exact form `clipRect`.
* Functions with side effects return the list of effects they perform, in program order
  (`Event`): reads of the blitter table, raw rectangle copies, and invocations of table cells
  under one of the three calling conventions.  `run` interprets such a list over a byte memory.
* The headers `pixmap.h`, `pixmaputils.h` and `memory.h` are not part of the sources.  What
  `blt.cpp` uses from them (the format enumerators, `VDPixmapGetInfo`, the blitter table,
  `VDPixmapOffset`) is a parameter of the embedding, see `PixFormats` and `Env`.
-/

namespace Kasumi

/-- Pixel buffer descriptor `VDPixmap`.  The field order is the one of the aggregate
initialisers in `VDPixmapBltDirectPalettedConversion`:
`{ data, palette, w, h, pitch, format }`, followed by the two auxiliary planes. -/
structure VDPixmap where
  data : Int
  palette : Int
  w : Int
  h : Int
  pitch : Int
  format : Int
  data2 : Int
  pitch2 : Int
  data3 : Int
  pitch3 : Int
deriving DecidableEq, Repr

/-- Format descriptor `VDPixmapFormatInfo`, restricted to the fields `blt.cpp` reads.
The four `...bits` fields are shift counts. -/
structure VDPixmapFormatInfo where
  qh : Int
  qwbits : Nat
  qhbits : Nat
  qsize : Int
  auxbufs : Int
  auxwbits : Nat
  auxhbits : Nat
deriving DecidableEq, Repr

/-- The enumerators of `nsVDPixmap::VDPixmapFormat` that `blt.cpp` names.  The enumeration is
declared in a header outside the sources, so the values are parameters; they come with the
facts every such enumeration provides: the named formats are pairwise different, they are
valid ids, and the id count fits a C `int`. -/
structure PixFormats where
  kPixFormat_Pal1 : Int
  kPixFormat_Pal2 : Int
  kPixFormat_Pal4 : Int
  kPixFormat_Pal8 : Int
  kPixFormat_XRGB8888 : Int
  kPixFormat_YUV444_XVYU : Int
  kPixFormat_Max_Standard : Int
  distinct : [kPixFormat_Pal1, kPixFormat_Pal2, kPixFormat_Pal4, kPixFormat_Pal8,
    kPixFormat_XRGB8888, kPixFormat_YUV444_XVYU].Nodup
  inRange : ∀ f ∈ [kPixFormat_Pal1, kPixFormat_Pal2, kPixFormat_Pal4, kPixFormat_Pal8,
    kPixFormat_XRGB8888, kPixFormat_YUV444_XVYU], 0 ≤ f ∧ f < kPixFormat_Max_Standard
  maxFits : kPixFormat_Max_Standard < 2 ^ 31

/-- Everything `blt.cpp` takes from its surroundings.

* `VDPixmapGetInfo` is the format registry.
* `VDPixmapGetBlitterTable s d` is the cell `table[s][d]`: `none` is the null pointer, `some c`
  a routine handle `c`.
* `VDPixmapOffset` is the view-offsetting helper used by the rectangle blit.
* `palbytes` is the address of the local array of `VDPixmapBltDirectPalettedConversion`, an
  array of `palbytesSize` bytes; `tempBuf` is the address `&tempBuf[0]` of the scratch row of
  `VDPixmapBltFast`. -/
structure Env where
  fmt : PixFormats
  VDPixmapGetInfo : Int → VDPixmapFormatInfo
  VDPixmapGetBlitterTable : Int → Int → Option Nat
  VDPixmapOffset : VDPixmap → Int → Int → VDPixmap
  palbytes : Int
  tempBuf : Int

/-- The size in bytes of the local array `uint8 palbytes[256 * 3]` of
`VDPixmapBltDirectPalettedConversion`, which starts at the address `Env.palbytes`. -/
def palbytesSize : Int := 256 * 3

/-- Observable effects, in program order. -/
inductive Event where
  /-- The read of `table[srcFormat][dstFormat]`. -/
  | tableRead (srcFormat dstFormat : Int)
  /-- The call `VDMemcpyRect(dst, dstpitch, src, srcpitch, w, h)`. -/
  | memcpyRect (dst dstpitch src srcpitch w h : Int)
  /-- The call of a cell as `tpPlanarBlitter`: `p(dst, src)`. -/
  | planar (cell : Nat) (dst src : VDPixmap)
  /-- The call of a cell as `tpPalettedBlitter`: `p(dst, dstpitch, src, srcpitch, w, h, pal)`. -/
  | paletted (cell : Nat) (dst dstpitch src srcpitch w h pal : Int)
  /-- The call of a cell as `tpChunkyBlitter`: `p(dst, dstpitch, src, srcpitch, w, h)`. -/
  | chunky (cell : Nat) (dst dstpitch src srcpitch w h : Int)
deriving DecidableEq, Repr

/-- The test `(unsigned)format >= kPixFormat_Max_Standard`. -/
def formatOutOfRange (E : Env) (format : Int) : Bool :=
  decide (format % 2 ^ 32 ≥ E.fmt.kPixFormat_Max_Standard)

/-- The test `f == kPixFormat_Pal1 || f == kPixFormat_Pal2 || f == kPixFormat_Pal4 ||
f == kPixFormat_Pal8`. -/
def isPalFormat (E : Env) (f : Int) : Bool :=
  f == E.fmt.kPixFormat_Pal1 || f == E.fmt.kPixFormat_Pal2 || f == E.fmt.kPixFormat_Pal4
    || f == E.fmt.kPixFormat_Pal8

/-- The `switch` of `VDPixmapBltDirectPalettedConversion`.  The `default:` label is
`VDNEVERHERE`; it leaves `palsize` unset, rendered as `0`. -/
def palsizeOf (E : Env) (format : Int) : Int :=
  if format = E.fmt.kPixFormat_Pal1 then 2
  else if format = E.fmt.kPixFormat_Pal2 then 4
  else if format = E.fmt.kPixFormat_Pal4 then 16
  else if format = E.fmt.kPixFormat_Pal8 then 256
  else 0

/-- The value a 32-bit two's complement `int` holds after an operation whose exact result
is `x`. -/
def wrapInt32 (x : Int) : Int := (x + 2 ^ 31) % 2 ^ 32 - 2 ^ 31

/-- The expression `-(-w >> bits)` with `>>` the arithmetic shift. -/
def negShiftNeg (w : Int) (bits : Nat) : Int := -((-w) >>> bits)

/-- Recursion measure: a Direct Blit from a paletted source may enter the palette conversion,
whose nested Direct Blit has the (non-paletted) source format `kPixFormat_XRGB8888`. -/
def bltDepth (E : Env) (srcFormat : Int) : Nat := if isPalFormat E srcFormat then 2 else 0

mutual

/-- `VDPixmapBltDirectPalettedConversion`: converts the source palette to the destination
format by a nested Direct Blit into `palbytes` (whose result is discarded), then calls the
paletted cell with `palbytes`. -/
def VDPixmapBltDirectPalettedConversion (E : Env) (dst src : VDPixmap) (w h : Int)
    (pBlitter : Nat) : List Event :=
  let palsize := palsizeOf E src.format
  let srcpal : VDPixmap :=
    { data := src.palette, palette := 0, w := palsize, h := 1, pitch := 0,
      format := E.fmt.kPixFormat_XRGB8888, data2 := 0, pitch2 := 0, data3 := 0, pitch3 := 0 }
  let dstpal : VDPixmap :=
    { data := E.palbytes, palette := 0, w := palsize, h := 1, pitch := 0,
      format := dst.format, data2 := 0, pitch2 := 0, data3 := 0, pitch3 := 0 }
  (VDPixmapBltDirect E dstpal srcpal palsize 1).2 ++
    [Event.paletted pBlitter dst.data dst.pitch src.data src.pitch w h E.palbytes]
termination_by 1
decreasing_by
  have h := E.fmt.distinct
  simp only [List.nodup_cons, List.mem_cons, List.mem_singleton, not_or] at h
  obtain ⟨⟨-, -, -, h1, -⟩, ⟨-, -, h2, -⟩, ⟨-, h3, -⟩, ⟨h4, -⟩, -⟩ := h
  simp [bltDepth, isPalFormat, Ne.symm h1, Ne.symm h2, Ne.symm h3, Ne.symm h4]

/-- `VDPixmapBltDirect`: the returned flag and the effects performed.  `VDASSERT(false)` on an
invalid id does nothing in a release build; the `switch` on `auxbufs` falls through from
`case 2` to `case 0` and has no `default`.  The product `srcinfo.qsize * qw` is an `int`
product and wraps to 32 bits. -/
def VDPixmapBltDirect (E : Env) (dst src : VDPixmap) (w h : Int) : Bool × List Event :=
  if formatOutOfRange E src.format then (false, [])
  else if formatOutOfRange E dst.format then (false, [])
  else
    let srcinfo := E.VDPixmapGetInfo src.format
    if src.format = dst.format then
      let qw := negShiftNeg w srcinfo.qwbits
      let qh := negShiftNeg h srcinfo.qhbits
      let auxw := negShiftNeg w srcinfo.auxwbits
      let auxh := negShiftNeg h srcinfo.auxhbits
      let case0 :=
        [Event.memcpyRect dst.data dst.pitch src.data src.pitch
          (wrapInt32 (srcinfo.qsize * qw)) qh]
      let case1 := Event.memcpyRect dst.data2 dst.pitch2 src.data2 src.pitch2 auxw auxh :: case0
      let case2 := Event.memcpyRect dst.data3 dst.pitch3 src.data3 src.pitch3 auxw auxh :: case1
      (true,
        if srcinfo.auxbufs = 2 then case2
        else if srcinfo.auxbufs = 1 then case1
        else if srcinfo.auxbufs = 0 then case0
        else [])
    else
      let lookup := Event.tableRead src.format dst.format
      match E.VDPixmapGetBlitterTable src.format dst.format with
      | none => (false, [lookup])
      | some pBlitter =>
        if srcinfo.auxbufs > 0 ∨ (E.VDPixmapGetInfo dst.format).auxbufs > 0 then
          (true, [lookup, Event.planar pBlitter dst src])
        else if hpal : isPalFormat E src.format = true then
          if dst.format = E.fmt.kPixFormat_XRGB8888 then
            (true, [lookup,
              Event.paletted pBlitter dst.data dst.pitch src.data src.pitch w h src.palette])
          else
            (true, lookup :: VDPixmapBltDirectPalettedConversion E dst src w h pBlitter)
        else
          (true, [lookup, Event.chunky pBlitter dst.data dst.pitch src.data src.pitch w h])
termination_by bltDepth E src.format
decreasing_by
  simp [bltDepth, hpal]

end

/-- `VDPixmapIsBltPossible(dst_format, src_format)`.  It has no buffer argument. -/
def VDPixmapIsBltPossible (E : Env) (dst_format src_format : Int) : Bool :=
  if src_format = dst_format then true
  else
    let tab := E.VDPixmapGetBlitterTable
    (tab src_format dst_format).isSome
      || ((tab src_format E.fmt.kPixFormat_YUV444_XVYU).isSome
          && (tab E.fmt.kPixFormat_YUV444_XVYU dst_format).isSome)
      || ((tab src_format E.fmt.kPixFormat_XRGB8888).isSome
          && (tab E.fmt.kPixFormat_XRGB8888 dst_format).isSome)

/-- Number of times the body of `do { ... } while(--h);` runs for a 32-bit `h`: the body runs,
`h` is decremented modulo `2 ^ 32`, and the loop stops when the result is zero. -/
def doWhileCount (h : Int) : Nat := ((h - 1) % 2 ^ 32).toNat + 1

/-- The row loop of `VDPixmapBltFast`, `n` iterations starting at `srcp`, `dstp`: each
iteration converts one row into the scratch row and the scratch row into the destination,
then steps both pointers by their pitches. -/
def rowLoop (pb1 pb2 : Nat) (tempBuf w srcpitch dstpitch : Int) : Nat → Int → Int → List Event
  | 0, _, _ => []
  | n + 1, srcp, dstp =>
    Event.chunky pb1 tempBuf 0 srcp 0 w 1 :: Event.chunky pb2 dstp 0 tempBuf 0 w 1 ::
      rowLoop pb1 pb2 tempBuf w srcpitch dstpitch n (srcp + srcpitch) (dstp + dstpitch)

/-- `VDPixmapBltFast`: Direct Blit, then the two-stage fallback through `YUV444_XVYU` or
`XRGB8888`. -/
def VDPixmapBltFast (E : Env) (dst src : VDPixmap) (w h : Int) : Bool × List Event :=
  let direct := VDPixmapBltDirect E dst src w h
  if direct.1 then (true, direct.2)
  else
    let srcinfo := E.VDPixmapGetInfo src.format
    let dstinfo := E.VDPixmapGetInfo dst.format
    if srcinfo.auxbufs > 0 ∨ dstinfo.auxbufs > 0 then (false, direct.2)
    else if srcinfo.qh > 1 then (false, direct.2)
    else
      let tab := E.VDPixmapGetBlitterTable
      let yuv := E.fmt.kPixFormat_YUV444_XVYU
      let rgb := E.fmt.kPixFormat_XRGB8888
      let readsYuv := [Event.tableRead src.format yuv, Event.tableRead yuv dst.format]
      let readsRgb := [Event.tableRead src.format rgb, Event.tableRead rgb dst.format]
      let loop := fun (pb1 pb2 : Nat) =>
        rowLoop pb1 pb2 E.tempBuf w src.pitch dst.pitch (doWhileCount h) src.data dst.data
      match tab src.format yuv, tab yuv dst.format with
      | some pb1, some pb2 => (true, direct.2 ++ readsYuv ++ loop pb1 pb2)
      | _, _ =>
        match tab src.format rgb, tab rgb dst.format with
        | some pb1, some pb2 => (true, direct.2 ++ readsYuv ++ readsRgb ++ loop pb1 pb2)
        | _, _ => (false, direct.2 ++ readsYuv ++ readsRgb)

/-- The two-argument `VDPixmapBlt(dst, src)`. -/
def VDPixmapBlt (E : Env) (dst src : VDPixmap) : Bool × List Event :=
  let w := min src.w dst.w
  let h := min src.h dst.h
  if w = 0 ∨ h = 0 then (true, [])
  else VDPixmapBltFast E dst src w h

/-- The local variables of the eight-argument `VDPixmapBlt` at the test `w>=0 && h >= 0`. -/
structure ClippedRect where
  x1 : Int
  y1 : Int
  x2 : Int
  y2 : Int
  w : Int
  h : Int
deriving DecidableEq, Repr

/-- The clipping statements of the eight-argument `VDPixmapBlt`, in source order: the four
negative-origin adjustments, then the four caps against the buffer extents.  The arithmetic
is exact: this is the computation of every call in which no subtraction overflows
(`ClipNoOverflow`); `clipRect32` is the computation with 32-bit wrap-around. -/
def clipRect (dst : VDPixmap) (x1 y1 : Int) (src : VDPixmap) (x2 y2 w h : Int) : ClippedRect :=
  -- if (x1 < 0) { x2 -= x1; w -= x1; x1 = 0; }
  let x2a := if x1 < 0 then x2 - x1 else x2
  let wa := if x1 < 0 then w - x1 else w
  let x1a := if x1 < 0 then 0 else x1
  -- if (y1 < 0) { y2 -= y1; h -= y1; y1 = 0; }
  let y2a := if y1 < 0 then y2 - y1 else y2
  let ha := if y1 < 0 then h - y1 else h
  let y1a := if y1 < 0 then 0 else y1
  -- if (x2 < 0) { x1 -= x2; w -= x2; x2 = 0; }
  let x1b := if x2a < 0 then x1a - x2a else x1a
  let wb := if x2a < 0 then wa - x2a else wa
  let x2b := if x2a < 0 then 0 else x2a
  -- if (y2 < 0) { y1 -= y2; h -= y2; y2 = 0; }
  let y1b := if y2a < 0 then y1a - y2a else y1a
  let hb := if y2a < 0 then ha - y2a else ha
  let y2b := if y2a < 0 then 0 else y2a
  -- if (w > dst.w - x1) w = dst.w - x1;   if (h > dst.h - y1) h = dst.h - y1;
  let wc := if wb > dst.w - x1b then dst.w - x1b else wb
  let hc := if hb > dst.h - y1b then dst.h - y1b else hb
  -- if (w > src.w - x2) w = src.w - x2;   if (h > src.h - y2) h = src.h - y2;
  let wd := if wc > src.w - x2b then src.w - x2b else wc
  let hd := if hc > src.h - y2b then src.h - y2b else hc
  { x1 := x1b, y1 := y1b, x2 := x2b, y2 := y2b, w := wd, h := hd }

/-- The eight-argument `VDPixmapBlt(dst, x1, y1, src, x2, y2, w, h)`. -/
def VDPixmapBlt_rect (E : Env) (dst : VDPixmap) (x1 y1 : Int) (src : VDPixmap)
    (x2 y2 w h : Int) : Bool × List Event :=
  let c := clipRect dst x1 y1 src x2 y2 w h
  if c.w ≥ 0 ∧ c.h ≥ 0 then
    let dst2 := E.VDPixmapOffset dst c.x1 c.y1
    let src2 := E.VDPixmapOffset src c.x2 c.y2
    VDPixmapBltFast E dst2 src2 c.w c.h
  else (true, [])

/-! ## The rectangle blit in 32-bit arithmetic -/

/-- The value `x` is representable in a 32-bit `int`. -/
def InInt32 (x : Int) : Prop := -2 ^ 31 ≤ x ∧ x < 2 ^ 31

instance (x : Int) : Decidable (InInt32 x) := by
  unfold InInt32; infer_instance

/-- The clipping statements of the eight-argument `VDPixmapBlt` as a 32-bit build computes
them: every subtraction wraps to 32 bits. -/
def clipRect32 (dst : VDPixmap) (x1 y1 : Int) (src : VDPixmap) (x2 y2 w h : Int) : ClippedRect :=
  -- if (x1 < 0) { x2 -= x1; w -= x1; x1 = 0; }
  let x2a := if x1 < 0 then wrapInt32 (x2 - x1) else x2
  let wa := if x1 < 0 then wrapInt32 (w - x1) else w
  let x1a := if x1 < 0 then 0 else x1
  -- if (y1 < 0) { y2 -= y1; h -= y1; y1 = 0; }
  let y2a := if y1 < 0 then wrapInt32 (y2 - y1) else y2
  let ha := if y1 < 0 then wrapInt32 (h - y1) else h
  let y1a := if y1 < 0 then 0 else y1
  -- if (x2 < 0) { x1 -= x2; w -= x2; x2 = 0; }
  let x1b := if x2a < 0 then wrapInt32 (x1a - x2a) else x1a
  let wb := if x2a < 0 then wrapInt32 (wa - x2a) else wa
  let x2b := if x2a < 0 then 0 else x2a
  -- if (y2 < 0) { y1 -= y2; h -= y2; y2 = 0; }
  let y1b := if y2a < 0 then wrapInt32 (y1a - y2a) else y1a
  let hb := if y2a < 0 then wrapInt32 (ha - y2a) else ha
  let y2b := if y2a < 0 then 0 else y2a
  -- if (w > dst.w - x1) w = dst.w - x1;   if (h > dst.h - y1) h = dst.h - y1;
  let wc := if wb > wrapInt32 (dst.w - x1b) then wrapInt32 (dst.w - x1b) else wb
  let hc := if hb > wrapInt32 (dst.h - y1b) then wrapInt32 (dst.h - y1b) else hb
  -- if (w > src.w - x2) w = src.w - x2;   if (h > src.h - y2) h = src.h - y2;
  let wd := if wc > wrapInt32 (src.w - x2b) then wrapInt32 (src.w - x2b) else wc
  let hd := if hc > wrapInt32 (src.h - y2b) then wrapInt32 (src.h - y2b) else hc
  { x1 := x1b, y1 := y1b, x2 := x2b, y2 := y2b, w := wd, h := hd }

/-- The eight-argument `VDPixmapBlt` as a 32-bit build computes it. -/
def VDPixmapBlt_rect32 (E : Env) (dst : VDPixmap) (x1 y1 : Int) (src : VDPixmap)
    (x2 y2 w h : Int) : Bool × List Event :=
  let c := clipRect32 dst x1 y1 src x2 y2 w h
  if c.w ≥ 0 ∧ c.h ≥ 0 then
    let dst2 := E.VDPixmapOffset dst c.x1 c.y1
    let src2 := E.VDPixmapOffset src c.x2 c.y2
    VDPixmapBltFast E dst2 src2 c.w c.h
  else (true, [])

/-- No subtraction of the clipping statements overflows: the exact value of every difference
the statements compute is representable in a 32-bit `int`. -/
def ClipNoOverflow (dst : VDPixmap) (x1 y1 : Int) (src : VDPixmap) (x2 y2 w h : Int) : Prop :=
  let x2a := if x1 < 0 then x2 - x1 else x2
  let wa := if x1 < 0 then w - x1 else w
  let x1a := if x1 < 0 then 0 else x1
  let y2a := if y1 < 0 then y2 - y1 else y2
  let ha := if y1 < 0 then h - y1 else h
  let y1a := if y1 < 0 then 0 else y1
  let x1b := if x2a < 0 then x1a - x2a else x1a
  let x2b := if x2a < 0 then 0 else x2a
  let y1b := if y2a < 0 then y1a - y2a else y1a
  let y2b := if y2a < 0 then 0 else y2a
  (x1 < 0 → InInt32 (x2 - x1) ∧ InInt32 (w - x1)) ∧
  (y1 < 0 → InInt32 (y2 - y1) ∧ InInt32 (h - y1)) ∧
  (x2a < 0 → InInt32 (x1a - x2a) ∧ InInt32 (wa - x2a)) ∧
  (y2a < 0 → InInt32 (y1a - y2a) ∧ InInt32 (ha - y2a)) ∧
  InInt32 (dst.w - x1b) ∧ InInt32 (dst.h - y1b) ∧
  InInt32 (src.w - x2b) ∧ InInt32 (src.h - y2b)

instance (dst : VDPixmap) (x1 y1 : Int) (src : VDPixmap) (x2 y2 w h : Int) :
    Decidable (ClipNoOverflow dst x1 y1 src x2 y2 w h) := by
  unfold ClipNoOverflow; infer_instance

/-! ## Memory semantics of the effects -/

/-- Byte memory: the byte stored at each address. -/
abbrev Mem := Int → Nat

/-- One `memcpy(dst, src, n)` of a row. -/
structure RowCopy where
  dst : Int
  src : Int
  n : Nat
deriving DecidableEq, Repr

/-- Memory after `memcpy(dst, src, n)`: the `n` bytes from `dst` on hold what the `n` bytes from
`src` on held. -/
def RowCopy.apply (r : RowCopy) (m : Mem) : Mem :=
  fun a => if r.dst ≤ a ∧ a < r.dst + r.n then m (r.src + (a - r.dst)) else m a

/-- The row copies of a rectangle copy, first row first. -/
def rectRows (dst dstpitch src srcpitch w h : Int) : List RowCopy :=
  (List.range h.toNat).map fun (y : Nat) =>
    { dst := dst + (y : Int) * dstpitch, src := src + (y : Int) * srcpitch, n := w.toNat }

/-- Memory after a sequence of row copies. -/
def runRows (rows : List RowCopy) (m : Mem) : Mem := rows.foldl (fun m r => r.apply m) m

/-- Modelled from the spec: `VDMemcpyRect` (declared in `vd2/system/memory.h`, defined outside
the sources) copies `w` bytes per row for `h` rows, the rows of both sides being one pitch
apart; a rectangle without bytes or without rows copies nothing. -/
def VDMemcpyRect (dst dstpitch src srcpitch w h : Int) (m : Mem) : Mem :=
  runRows (rectRows dst dstpitch src srcpitch w h) m

/-- What the cells of the blitter table do to memory, per handle and calling convention.  The
conversion routines are outside the sources, so their behaviour is a parameter. -/
structure CellSem where
  planar : Nat → VDPixmap → VDPixmap → Mem → Mem
  paletted : Nat → Int → Int → Int → Int → Int → Int → Int → Mem → Mem
  chunky : Nat → Int → Int → Int → Int → Int → Int → Mem → Mem

/-- Memory after one effect.  Reading the table does not change memory. -/
def Event.exec (S : CellSem) : Event → Mem → Mem
  | .tableRead _ _ => id
  | .memcpyRect dst dstpitch src srcpitch w h => VDMemcpyRect dst dstpitch src srcpitch w h
  | .planar cell dst src => S.planar cell dst src
  | .paletted cell dst dstpitch src srcpitch w h pal =>
    S.paletted cell dst dstpitch src srcpitch w h pal
  | .chunky cell dst dstpitch src srcpitch w h => S.chunky cell dst dstpitch src srcpitch w h

/-- Memory after a list of effects, performed in order. -/
def run (S : CellSem) (events : List Event) (m : Mem) : Mem :=
  events.foldl (fun m e => e.exec S m) m

/-- An effect that can change memory: anything but a table read. -/
def Event.isWrite : Event → Bool
  | .tableRead _ _ => false
  | _ => true

/-- An effect that invokes a cell of the blitter table. -/
def Event.isCellCall : Event → Bool
  | .planar _ _ _ => true
  | .paletted _ _ _ _ _ _ _ _ => true
  | .chunky _ _ _ _ _ _ _ => true
  | _ => false

/-! ## The same-format copy in the words of the specification -/

/-- `ceil(w / 2^bits)` in integer arithmetic. -/
def ceilShift (w : Int) (bits : Nat) : Int := (w + 2 ^ bits - 1) / 2 ^ bits

/-- One plane of a same-format copy: where it lies in both buffers and its byte rectangle. -/
structure PlaneCopy where
  dst : Int
  dstpitch : Int
  src : Int
  srcpitch : Int
  bytes : Int
  rows : Int
deriving DecidableEq, Repr

/-- The planes of a `w` by `h` copy between two buffers of a format with descriptor `info`:
the primary plane over `qsize * ceil(w / 2^qwbits)` bytes by `ceil(h / 2^qhbits)` rows, and one
plane of `ceil(w / 2^auxwbits)` bytes by `ceil(h / 2^auxhbits)` rows per auxiliary buffer the
format has. -/
def planesOf (info : VDPixmapFormatInfo) (dst src : VDPixmap) (w h : Int) : List PlaneCopy :=
  [{ dst := dst.data, dstpitch := dst.pitch, src := src.data, srcpitch := src.pitch,
     bytes := info.qsize * ceilShift w info.qwbits, rows := ceilShift h info.qhbits }]
  ++ (if 1 ≤ info.auxbufs then
      [{ dst := dst.data2, dstpitch := dst.pitch2, src := src.data2, srcpitch := src.pitch2,
         bytes := ceilShift w info.auxwbits, rows := ceilShift h info.auxhbits }] else [])
  ++ (if 2 ≤ info.auxbufs then
      [{ dst := dst.data3, dstpitch := dst.pitch3, src := src.data3, srcpitch := src.pitch3,
         bytes := ceilShift w info.auxwbits, rows := ceilShift h info.auxhbits }] else [])

/-- The row copies of a plane. -/
def PlaneCopy.rowList (p : PlaneCopy) : List RowCopy :=
  rectRows p.dst p.dstpitch p.src p.srcpitch p.bytes p.rows

/-- The buffers describe separate memory: no destination byte of a plane is a source byte of
a plane, and different bytes of the destination planes have different addresses.  Bytes are
named by plane, row `y` and offset `x` in the row. -/
def Separate (planes : List PlaneCopy) : Prop :=
  ∀ p ∈ planes, ∀ q ∈ planes,
    ∀ y ∈ List.range p.rows.toNat, ∀ x ∈ List.range p.bytes.toNat,
    ∀ y' ∈ List.range q.rows.toNat, ∀ x' ∈ List.range q.bytes.toNat,
      p.dst + (y : Int) * p.dstpitch + (x : Int) ≠ q.src + (y' : Int) * q.srcpitch + (x' : Int) ∧
      (p.dst + (y : Int) * p.dstpitch + (x : Int) = q.dst + (y' : Int) * q.dstpitch + (x' : Int) →
        p = q ∧ y = y' ∧ x = x')

instance (planes : List PlaneCopy) : Decidable (Separate planes) := by
  unfold Separate; infer_instance

/-- Address `a` is a destination byte of one of the planes. -/
def InDst (planes : List PlaneCopy) (a : Int) : Prop :=
  ∃ p ∈ planes, ∃ y x : Int, 0 ≤ y ∧ y < p.rows ∧ 0 ≤ x ∧ x < p.bytes ∧
    a = p.dst + y * p.dstpitch + x

/-! ## Cell behaviours named by the specification -/

/-- Memory after a routine has written a rectangle of `rows` rows of `n` bytes, `dstpitch`
apart from `dst` on: the byte at offset `off` of row `y` becomes `val y off`, every other
byte keeps its value.  (If rows overlap, the first row containing an address decides.) -/
def writeRect (dst dstpitch : Int) (n rows : Nat) (val : Nat → Nat → Nat) (m : Mem) : Mem :=
  fun a =>
    match (List.range rows).find? fun (y : Nat) =>
        decide (dst + (y : Int) * dstpitch ≤ a ∧ a < dst + (y : Int) * dstpitch + (n : Int)) with
    | some y => val y (a - (dst + (y : Int) * dstpitch)).toNat
    | none => m a

/-- A chunky cell that converts each pixel independently, from four-byte `XRGB8888` pixels to
pixels of `k` bytes: byte `j` of a destination pixel is `conv b0 b1 b2 b3 j` for the four bytes
`b0 .. b3` of the source pixel at the same position. -/
def convertRect (conv : Nat → Nat → Nat → Nat → Nat → Nat) (k : Nat)
    (dst dstpitch src srcpitch w h : Int) (m : Mem) : Mem :=
  writeRect dst dstpitch (k * w.toNat) h.toNat
    (fun y off =>
      let px := src + (y : Int) * srcpitch + 4 * ((off / k : Nat) : Int)
      conv (m px) (m (px + 1)) (m (px + 2)) (m (px + 3)) (off % k)) m

/-- The palette index of pixel `x` in the row at `row`, for `bits` bits per pixel packed from
the most significant bit of each byte on. -/
def palIndex (bits : Nat) (m : Mem) (row : Int) (x : Nat) : Nat :=
  (m (row + ((x * bits / 8 : Nat) : Int)) / 2 ^ (8 - bits - x * bits % 8)) % 2 ^ bits

/-- A paletted cell that is an index lookup, for `bits`-bit indices and palette entries (and
destination pixels) of `k` bytes: the destination pixel is the palette entry of its index. -/
def lookupRect (bits k : Nat) (dst dstpitch src srcpitch w h pal : Int) (m : Mem) : Mem :=
  writeRect dst dstpitch (k * w.toNat) h.toNat
    (fun y off =>
      m (pal + (k : Int) * (palIndex bits m (src + (y : Int) * srcpitch) (off / k) : Int)
        + ((off % k : Nat) : Int))) m

/-- Bit depth of the paletted formats: `Pal1`, `Pal2`, `Pal4`, `Pal8` have 1, 2, 4, 8 bits per
pixel; other formats have no index depth. -/
def palBits (E : Env) (format : Int) : Option Nat :=
  if format = E.fmt.kPixFormat_Pal1 then some 1
  else if format = E.fmt.kPixFormat_Pal2 then some 2
  else if format = E.fmt.kPixFormat_Pal4 then some 4
  else if format = E.fmt.kPixFormat_Pal8 then some 8
  else none

/-- The two-step route of the specification: expand the paletted source into the `XRGB8888`
buffer `tmp` by a Direct Blit (through the native palette), then convert `tmp` to the
destination by a second Direct Blit. -/
def expandThenConvert (E : Env) (dst tmp src : VDPixmap) (w h : Int) : List Event :=
  (VDPixmapBltDirect E tmp src w h).2 ++ (VDPixmapBltDirect E dst tmp w h).2

/-! ## Further views of the source: probe reads, 32-bit arithmetic, call depth -/

/-- The cells `VDPixmapIsBltPossible` reads, in the evaluation order of its return
expression: `||` and `&&` evaluate their right operand only when the left one does not
decide. -/
def VDPixmapIsBltPossible_reads (E : Env) (dst_format src_format : Int) : List Event :=
  if src_format = dst_format then []
  else
    let tab := E.VDPixmapGetBlitterTable
    let yuv := E.fmt.kPixFormat_YUV444_XVYU
    let rgb := E.fmt.kPixFormat_XRGB8888
    Event.tableRead src_format dst_format ::
      (if (tab src_format dst_format).isSome then []
      else
        Event.tableRead src_format yuv ::
          ((if (tab src_format yuv).isSome then [Event.tableRead yuv dst_format] else []) ++
            (if (tab src_format yuv).isSome && (tab yuv dst_format).isSome then []
            else
              Event.tableRead src_format rgb ::
                (if (tab src_format rgb).isSome then [Event.tableRead rgb dst_format]
                else []))))

/-- The expression `-(-w >> bits)` on 32-bit `int`s: both negations wrap, `>>` is the
arithmetic shift. -/
def negShiftNeg32 (w : Int) (bits : Nat) : Int := wrapInt32 (-(wrapInt32 (-w) >>> bits))

/-- `VDPixmapBltDirect` with a bound on the depth of calls: `fuel` counts the activations of
`VDPixmapBltDirect` that may be open at once, the palette conversion helper being inlined at
its only call site.  The result is `none` when the bound is exceeded. -/
def VDPixmapBltDirect_fuel (E : Env) :
    Nat → VDPixmap → VDPixmap → Int → Int → Option (Bool × List Event)
  | 0, _, _, _, _ => none
  | fuel + 1, dst, src, w, h =>
    if formatOutOfRange E src.format then some (false, [])
    else if formatOutOfRange E dst.format then some (false, [])
    else
      let srcinfo := E.VDPixmapGetInfo src.format
      if src.format = dst.format then
        let qw := negShiftNeg w srcinfo.qwbits
        let qh := negShiftNeg h srcinfo.qhbits
        let auxw := negShiftNeg w srcinfo.auxwbits
        let auxh := negShiftNeg h srcinfo.auxhbits
        let case0 :=
          [Event.memcpyRect dst.data dst.pitch src.data src.pitch
          (wrapInt32 (srcinfo.qsize * qw)) qh]
        let case1 := Event.memcpyRect dst.data2 dst.pitch2 src.data2 src.pitch2 auxw auxh :: case0
        let case2 := Event.memcpyRect dst.data3 dst.pitch3 src.data3 src.pitch3 auxw auxh :: case1
        some (true,
          if srcinfo.auxbufs = 2 then case2
          else if srcinfo.auxbufs = 1 then case1
          else if srcinfo.auxbufs = 0 then case0
          else [])
      else
        let lookup := Event.tableRead src.format dst.format
        match E.VDPixmapGetBlitterTable src.format dst.format with
        | none => some (false, [lookup])
        | some pBlitter =>
          if srcinfo.auxbufs > 0 ∨ (E.VDPixmapGetInfo dst.format).auxbufs > 0 then
            some (true, [lookup, Event.planar pBlitter dst src])
          else if isPalFormat E src.format = true then
            if dst.format = E.fmt.kPixFormat_XRGB8888 then
              some (true, [lookup,
                Event.paletted pBlitter dst.data dst.pitch src.data src.pitch w h src.palette])
            else
              let palsize := palsizeOf E src.format
              let srcpal : VDPixmap :=
                { data := src.palette, palette := 0, w := palsize, h := 1, pitch := 0,
                  format := E.fmt.kPixFormat_XRGB8888, data2 := 0, pitch2 := 0, data3 := 0,
                  pitch3 := 0 }
              let dstpal : VDPixmap :=
                { data := E.palbytes, palette := 0, w := palsize, h := 1, pitch := 0,
                  format := dst.format, data2 := 0, pitch2 := 0, data3 := 0, pitch3 := 0 }
              match VDPixmapBltDirect_fuel E fuel dstpal srcpal palsize 1 with
              | none => none
              | some nested =>
                some (true, lookup :: (nested.2 ++
                  [Event.paletted pBlitter dst.data dst.pitch src.data src.pitch w h
                    E.palbytes]))
          else
            some (true, [lookup, Event.chunky pBlitter dst.data dst.pitch src.data src.pitch w h])

/-! ## A concrete environment for examples -/

/-- Example enumeration: `Pal1 = 1, Pal2 = 2, Pal4 = 3, Pal8 = 4, XRGB8888 = 8,
YUV444_XVYU = 12`, with `18` standard formats. -/
def exFormats : PixFormats where
  kPixFormat_Pal1 := 1
  kPixFormat_Pal2 := 2
  kPixFormat_Pal4 := 3
  kPixFormat_Pal8 := 4
  kPixFormat_XRGB8888 := 8
  kPixFormat_YUV444_XVYU := 12
  kPixFormat_Max_Standard := 18
  distinct := by decide
  inRange := by decide
  maxFits := by decide

/-- Example registry: formats `13 ..` are planar with two half-resolution auxiliary planes,
format `10` is a packed format with two pixels per four-byte unit, format `11` has the
auxiliary-plane count `1`, every other format is chunky with four bytes per pixel. -/
def exInfo (f : Int) : VDPixmapFormatInfo :=
  if 13 ≤ f then
    { qh := 1, qwbits := 0, qhbits := 0, qsize := 1, auxbufs := 2, auxwbits := 1, auxhbits := 1 }
  else if f = 11 then
    { qh := 1, qwbits := 0, qhbits := 0, qsize := 1, auxbufs := 1, auxwbits := 1, auxhbits := 0 }
  else if f = 10 then
    { qh := 1, qwbits := 1, qhbits := 0, qsize := 4, auxbufs := 0, auxwbits := 0, auxhbits := 0 }
  else
    { qh := 1, qwbits := 0, qhbits := 0, qsize := 4, auxbufs := 0, auxwbits := 0, auxhbits := 0 }

/-- Example view offset for four-byte chunky buffers. -/
def exOffset (p : VDPixmap) (x y : Int) : VDPixmap :=
  { p with data := p.data + y * p.pitch + 4 * x }

/-- Example environment over a given blitter table. -/
def exEnv (table : Int → Int → Option Nat) : Env where
  fmt := exFormats
  VDPixmapGetInfo := exInfo
  VDPixmapGetBlitterTable := table
  VDPixmapOffset := exOffset
  palbytes := 9000
  tempBuf := 8000

/-- Example table with a two-hop route only: `Pal8` (4) to `XRGB8888` (8) by cell 1 and
`XRGB8888` to the planar format 13 by cell 2; every other cell is empty. -/
def exTableTwoHop (s d : Int) : Option Nat :=
  if s = 4 ∧ d = 8 then some 1 else if s = 8 ∧ d = 13 then some 2 else none

/-- Example table of a chunky two-stage route: every cell from or to `XRGB8888` (8) is
populated with handle 5, every other cell is empty. -/
def exTableViaRgb (s d : Int) : Option Nat :=
  if s = 8 ∨ d = 8 then some 5 else none

/-- Example table around `Pal8` (4), `XRGB8888` (8) and the chunky format 7: cell 1 is
`Pal8 → 7`, cell 2 is `XRGB8888 → 7`, cell 3 is `Pal8 → XRGB8888`. -/
def exTablePal (s d : Int) : Option Nat :=
  if s = 4 ∧ d = 7 then some 1
  else if s = 8 ∧ d = 7 then some 2
  else if s = 4 ∧ d = 8 then some 3
  else none

/-- Example pixel conversion from `XRGB8888` to a three-byte format: the first three bytes. -/
def exConv (b0 b1 b2 _b3 j : Nat) : Nat := if j = 0 then b0 else if j = 1 then b1 else b2

/-- Example table with a paletted cell but no palette converter: `Pal8` (4) to the chunky
format 7 by cell 1; every other cell, `table[XRGB8888][7]` included, is empty. -/
def exTableNoPalConv (s d : Int) : Option Nat :=
  if s = 4 ∧ d = 7 then some 1 else none

/-- Example table with both intermediate pairs from format 5 to format 7: through
`YUV444_XVYU` (12) by cells 1 and 2, through `XRGB8888` (8) by cells 3 and 4. -/
def exTableBothPairs (s d : Int) : Option Nat :=
  if s = 5 ∧ d = 12 then some 1
  else if s = 12 ∧ d = 7 then some 2
  else if s = 5 ∧ d = 8 then some 3
  else if s = 8 ∧ d = 7 then some 4
  else none

/-- Example table in which `Pal8` (4) reaches the chunky format 7 through `XRGB8888` (8)
only: cell 3 is `Pal8 → XRGB8888`, cell 2 is `XRGB8888 → 7`, every other cell is empty. -/
def exTablePalViaRgb (s d : Int) : Option Nat :=
  if s = 4 ∧ d = 8 then some 3 else if s = 8 ∧ d = 7 then some 2 else none

/-- Example cell behaviour for `exTablePal`: cell 1 looks 8-bit indices up in three-byte
entries, the other paletted cells in four-byte entries, chunky cells convert by `exConv`. -/
def exSemPal : CellSem where
  planar := fun _ _ _ m => m
  paletted := fun cell => if cell = 1 then lookupRect 8 3 else lookupRect 8 4
  chunky := fun _ => convertRect exConv 3

/-- Example cell behaviour with four-byte entries: paletted cells look 8-bit indices up in
four-byte entries, chunky cells convert by `exConv` to four-byte pixels. -/
def exSemPal4 : CellSem where
  planar := fun _ _ _ m => m
  paletted := fun _ => lookupRect 8 4
  chunky := fun _ => convertRect exConv 4

/-- Example cell behaviour: no cell changes memory. -/
def exSem : CellSem where
  planar := fun _ _ _ m => m
  paletted := fun _ _ _ _ _ _ _ _ m => m
  chunky := fun _ _ _ _ _ _ _ m => m

/-- Example memory: every address holds its residue modulo 251. -/
def exMem : Mem := fun a => (a % 251).toNat

/-- Example buffer: a chunky plane at `data` and auxiliary planes `1000` and `2000` bytes
further on. -/
def exPixmap (data w h pitch format : Int) : VDPixmap :=
  { data := data, palette := 7000, w := w, h := h, pitch := pitch, format := format,
    data2 := data + 1000, pitch2 := pitch, data3 := data + 2000, pitch3 := pitch }

end Kasumi

namespace VirtualDub

/-! ## Image decoding (`VirtualDub-source/image.cpp`)

The loaders read a file image of `cbBuffer` bytes at `pBuffer`.  Pointers into that buffer and
into the row buffer are modelled as byte offsets, bytes as natural numbers.  `long`, `DWORD`
and `Pixel32` are 32 bits wide.  The size check of `DecodeBMPHeader` is modelled in wrapping
32-bit arithmetic (`Kasumi.wrapInt32` for `long`, `toUInt32` for `unsigned long`), which is
what the x86 code computes.  The headers `windows.h`, `VBitmap.h` and `Error.h` are not part
of the sources: the constants of `windows.h` are a parameter (`WinDefs`), a thrown `MyError`
is an outcome of its own in the result types, and of `BitBltAlpha` only the pixel expression
of the 1555 branch is embedded. -/

/-- The constants of `<windows.h>` that `DecodeBMPHeader` names. -/
structure WinDefs where
  /-- The value of `sizeof(BITMAPFILEHEADER)`. -/
  sizeofBITMAPFILEHEADER : Int
  /-- The value of `sizeof(DWORD)`. -/
  sizeofDWORD : Int
  /-- The value of `BI_RGB`. -/
  BI_RGB : Int
  /-- The value of the multi-character constant `'MB'`. -/
  charsMB : Int

/-- The fields of the `BITMAPFILEHEADER` at `pBuffer` and of the `BITMAPINFOHEADER` behind it
that `DecodeBMPHeader` reads: `bfType`, `biPlanes`, `biBitCount` are `WORD`, `bfSize`,
`bfOffBits`, `biSize`, `biCompression` are `DWORD`, `biWidth`, `biHeight` are `LONG`. -/
structure BmpHeader where
  bfType : Int
  bfSize : Int
  bfOffBits : Int
  biSize : Int
  biWidth : Int
  biHeight : Int
  biPlanes : Int
  biBitCount : Int
  biCompression : Int
deriving DecidableEq, Repr

/-- Every field is a value of its type. -/
def BmpHeader.InRange (hdr : BmpHeader) : Prop :=
  (0 ≤ hdr.bfType ∧ hdr.bfType < 2 ^ 16) ∧ (0 ≤ hdr.bfSize ∧ hdr.bfSize < 2 ^ 32) ∧
  (0 ≤ hdr.bfOffBits ∧ hdr.bfOffBits < 2 ^ 32) ∧ (0 ≤ hdr.biSize ∧ hdr.biSize < 2 ^ 32) ∧
  (-2 ^ 31 ≤ hdr.biWidth ∧ hdr.biWidth < 2 ^ 31) ∧
  (-2 ^ 31 ≤ hdr.biHeight ∧ hdr.biHeight < 2 ^ 31) ∧
  (0 ≤ hdr.biPlanes ∧ hdr.biPlanes < 2 ^ 16) ∧ (0 ≤ hdr.biBitCount ∧ hdr.biBitCount < 2 ^ 16) ∧
  (0 ≤ hdr.biCompression ∧ hdr.biCompression < 2 ^ 32)

instance (hdr : BmpHeader) : Decidable hdr.InRange := by
  unfold BmpHeader.InRange; infer_instance

/-- Outcome of `DecodeBMPHeader`. -/
inductive BmpHeaderResult where
  /-- The function returned false: the buffer is not a BMP file. -/
  | notBmp
  /-- The function threw `MyError("Image file is too short.")`. -/
  | tooShort
  /-- The function threw `MyError("Image file is in an unsupported format.")`. -/
  | unsupported
  /-- The function returned true, with the values stored to `w`, `h` and `bHasAlpha`. -/
  | accepted (w h : Int) (bHasAlpha : Bool)
deriving DecidableEq, Repr

/-- Conversion of a 32-bit value to `unsigned long`. -/
def toUInt32 (x : Int) : Int := x % 2 ^ 32

/-- `DecodeBMPHeader(pBuffer, cbBuffer, w, h, bHasAlpha)` on a buffer that starts with the
header `hdr`.  A comparison or sum of a `DWORD` or a `size_t` with a `long` is made in
`unsigned long`; a product or sum of `long` values wraps to 32 bits; `>>` on a `long` is the
arithmetic shift. -/
def DecodeBMPHeader (W : WinDefs) (cbBuffer : Int) (hdr : BmpHeader) : BmpHeaderResult :=
  if toUInt32 cbBuffer < toUInt32 (W.sizeofBITMAPFILEHEADER + W.sizeofDWORD)
      ∨ hdr.bfType ≠ W.charsMB then
    BmpHeaderResult.notBmp
  else if hdr.bfSize > toUInt32 cbBuffer ∨ hdr.bfOffBits > toUInt32 cbBuffer then
    BmpHeaderResult.tooShort
  else if toUInt32 (hdr.biSize + W.sizeofBITMAPFILEHEADER) > toUInt32 cbBuffer then
    BmpHeaderResult.tooShort
  else if hdr.biPlanes > 1 ∨ hdr.biCompression ≠ W.BI_RGB
      ∨ (hdr.biBitCount ≠ 16 ∧ hdr.biBitCount ≠ 24 ∧ hdr.biBitCount ≠ 32) then
    BmpHeaderResult.unsupported
  else
    -- ((pbih->biWidth*pbih->biBitCount+31)>>5)*4*pbih->biHeight
    let dwords := Kasumi.wrapInt32 (Kasumi.wrapInt32 (hdr.biWidth * hdr.biBitCount) + 31) >>> 5
    let bytes := Kasumi.wrapInt32 (Kasumi.wrapInt32 (dwords * 4) * hdr.biHeight)
    if toUInt32 (hdr.bfOffBits + toUInt32 bytes) > toUInt32 cbBuffer then
      BmpHeaderResult.tooShort
    else BmpHeaderResult.accepted hdr.biWidth hdr.biHeight false

/-- The end of the image in exact integer arithmetic, in the words of the specification:
`bfOffBits + 4 * ceil(w * biBitCount / 32) * h`. -/
def exactImageEnd (hdr : BmpHeader) (w h : Int) : Int :=
  hdr.bfOffBits + 4 * Kasumi.ceilShift (w * hdr.biBitCount) 5 * h

/-- The pixel expression of the 1555 branch of `BitBltAlpha` (source depth 16, destination
depth 32, `bSrcHasAlpha`): `px` is the `Pixel16` read from `psrc[x]`, the result is the
`Pixel32` stored to `pdst[x]`.  `Pixel32` arithmetic is modulo `2 ^ 32`. -/
def BitBltAlpha_pixel (px : Nat) : Nat :=
  -- Pixel32 px2 = ((px & 0x7c00) << 9) + ((px & 0x03e0) << 6) + ((px & 0x001f) << 3);
  let px2 := (((px &&& 0x7c00) <<< 9) + ((px &&& 0x03e0) <<< 6) + ((px &&& 0x001f) <<< 3)) % 2 ^ 32
  -- pdst[x] = px2 + ((px2 & 0xe0e0e0)>>5) + (px&0x8000?0xff000000:0);
  (px2 + ((px2 &&& 0xe0e0e0) >>> 5) + (if px &&& 0x8000 ≠ 0 then 0xff000000 else 0)) % 2 ^ 32

/-- Result of decoding one row in the RLE branch of `DecodeTGA`. -/
inductive RowResult where
  /-- The loop threw `MyError("TARGA RLE decoding error")`. -/
  | rleError
  /-- The iteration budget of the model ran out; this is not an outcome of the code. -/
  | outOfFuel
  /-- The `while` loop ended: the contents of `rowbuf[0 .. bpp*w)` and the new `src`. -/
  | ok (row : List Nat) (src : Nat)
deriving DecidableEq, Repr

/-- The statement `*dst++ = *src++` repeated `k` times, `src` pointing into the input buffer
`buf`; `dst` is the end of `row`. -/
def copyFromInput (buf : Nat → Nat) (row : List Nat) (src : Nat) : Nat → List Nat
  | 0 => row
  | k + 1 => copyFromInput buf (row ++ [buf src]) (src + 1) k

/-- The statement `*dst++ = *copysrc++` repeated `k` times, `copysrc` pointing into the row
buffer itself, at index `copysrc`; `dst` is the end of `row`, so a byte written by one step
can be read by a later one. -/
def copyWithinRow (row : List Nat) (copysrc : Nat) : Nat → List Nat
  | 0 => row
  | k + 1 => copyWithinRow (row ++ [row.getD copysrc 0]) (copysrc + 1) k

/-- The `while(dst < dstEnd)` loop of the RLE branch of `DecodeTGA`.  `src` and `srcLimit` are
offsets into the input buffer `buf`, `dst` is the length of `row`, `dstEnd` is `bpp*w`;
`bpp = (hdr.PixelSize+7) >> 3` is not negative.  `c` is `unsigned`, so `c *= bpp` and
`bpp * c` are taken modulo `2 ^ 32`.  The first argument bounds the number of iterations. -/
def tgaRowLoop (bpp : Nat) (buf : Nat → Nat) (srcLimit dstEnd : Nat) :
    Nat → Nat → List Nat → RowResult
  | 0, src, row => if row.length < dstEnd then RowResult.outOfFuel else RowResult.ok row src
  | fuel + 1, src, row =>
    if row.length < dstEnd then
      -- if (src >= srcLimit) throw MyError("TARGA RLE decoding error");
      if src ≥ srcLimit then RowResult.rleError
      else
        -- unsigned c = *src++;
        let c := buf src
        let src1 := src + 1
        -- dst[0] = src[0]; dst[1] = src[1]; src += 2; dst += 2;
        let row1 := row ++ [buf src1, buf (src1 + 1)]
        let src2 := src1 + 2
        -- for(int k=0; k<bpp-2; ++k) *dst++ = *src++;
        let row2 := copyFromInput buf row1 src2 (bpp - 2)
        let src3 := src2 + (bpp - 2)
        -- if (c &= 0x7f) { c *= bpp; ... }
        let n := c &&& 0x7f
        let cnt := n * bpp % 2 ^ 32
        if c &&& 0x80 ≠ 0 then
          -- run: copysrc = dst - bpp;
          if n ≠ 0 then
            -- if (dst + c > dstEnd) throw MyError("TARGA RLE decoding error");
            if row2.length + cnt > dstEnd then RowResult.rleError
            else
              -- do { *dst++ = *copysrc++; } while(--c);
              tgaRowLoop bpp buf srcLimit dstEnd fuel src3
                (copyWithinRow row2 (row2.length - bpp) (Kasumi.doWhileCount cnt))
          else tgaRowLoop bpp buf srcLimit dstEnd fuel src3 row2
        else
          -- lit: copysrc = src; src += bpp * c;
          let src4 := src3 + bpp * c % 2 ^ 32
          if n ≠ 0 then
            if row2.length + cnt > dstEnd then RowResult.rleError
            else
              tgaRowLoop bpp buf srcLimit dstEnd fuel src4
                (copyFromInput buf row2 src3 (Kasumi.doWhileCount cnt))
          else tgaRowLoop bpp buf srcLimit dstEnd fuel src4 row2
    else RowResult.ok row src

/-- One row of the RLE branch of `DecodeTGA`: `dst = rowbuf`, `dstEnd = rowbuf + bpp*w`, then
the `while` loop.  Every iteration appends at least two bytes, so `bpp*w` iterations are
enough for any input. -/
def DecodeTGA_row (bpp w : Nat) (buf : Nat → Nat) (srcLimit src : Nat) : RowResult :=
  tgaRowLoop bpp buf srcLimit (bpp * w) (bpp * w) src []

/-! ## RLE packets in the words of the specification -/

/-- An RLE packet: the header byte `c` and the pixel bytes that follow it in the input. -/
structure RlePacket where
  c : Nat
  pixels : List Nat
deriving DecidableEq, Repr

/-- The count field of the header: `n = c & 0x7f`. -/
def RlePacket.n (p : RlePacket) : Nat := p.c &&& 0x7f

/-- The packet is a run when `c & 0x80` is set. -/
def RlePacket.isRun (p : RlePacket) : Bool := p.c &&& 0x80 != 0

/-- A run packet is followed by one pixel, a literal packet by `n + 1` pixels; the header is a
byte. -/
def RlePacket.WellFormed (bpp : Nat) (p : RlePacket) : Prop :=
  p.c < 256 ∧ p.pixels.length = if p.isRun then bpp else (p.n + 1) * bpp

instance (bpp : Nat) (p : RlePacket) : Decidable (p.WellFormed bpp) := by
  unfold RlePacket.WellFormed; infer_instance

/-- The input bytes of a packet: `1 + bpp` of them for a run, `1 + (n+1)*bpp` for a
literal. -/
def RlePacket.bytes (p : RlePacket) : List Nat := p.c :: p.pixels

/-- The bytes of `k` copies of one pixel. -/
def repeatPixel : Nat → List Nat → List Nat
  | 0, _ => []
  | k + 1, px => px ++ repeatPixel k px

/-- Expansion of a packet: `n + 1` copies of the single following pixel for a run, the `n + 1`
following pixels verbatim for a literal. -/
def RlePacket.expand (p : RlePacket) : List Nat :=
  if p.isRun then repeatPixel (p.n + 1) p.pixels else p.pixels

/-- Number of pixels a list of packets expands to. -/
def rowPixels (ps : List RlePacket) : Nat := (ps.map fun p => p.n + 1).sum

/-- The input buffer holds the given bytes from offset `src` on. -/
def BufferHolds (buf : Nat → Nat) : Nat → List Nat → Prop
  | _, [] => True
  | src, b :: bs => buf src = b ∧ BufferHolds buf (src + 1) bs

instance (buf : Nat → Nat) (src : Nat) (bytes : List Nat) :
    Decidable (BufferHolds buf src bytes) := by
  induction bytes generalizing src with
  | nil => unfold BufferHolds; infer_instance
  | cons b bs ih => unfold BufferHolds; infer_instance

/-! ## Concrete inputs for examples -/

/-- The values of `<windows.h>` on Win32: the file header has 14 bytes, a `DWORD` 4 bytes,
`BI_RGB` is 0 and `'MB'` is `0x4D42`. -/
def win32Defs : WinDefs :=
  { sizeofBITMAPFILEHEADER := 14, sizeofDWORD := 4, BI_RGB := 0, charsMB := 0x4D42 }

/-- Example header of a 32-bit image of the given width and height, with a file size of 100
and the pixel data at offset 54. -/
def exBmpHeader (biWidth biHeight : Int) : BmpHeader :=
  { bfType := 0x4D42, bfSize := 100, bfOffBits := 54, biSize := 40, biWidth := biWidth,
    biHeight := biHeight, biPlanes := 1, biBitCount := 32, biCompression := 0 }

/-- Example RLE input of eight bytes: header `0x82` (run of 3) with the pixel `10 20`, then
header `0x01` (literal of 2) with the pixels `1 2` and `3 4`. -/
def exRleInput : Nat → Nat := fun i => [0x82, 10, 20, 0x01, 1, 2, 3, 4].getD i 0

end VirtualDub

namespace Kasumi

/-! ## Lemmas on the memory semantics -/

/-- The nested Direct Blit of the palette conversion has a non-paletted source. -/
theorem bltDepth_xrgb (E : Env) : bltDepth E E.fmt.kPixFormat_XRGB8888 = 0 := by
  have h := E.fmt.distinct
  simp only [List.nodup_cons, List.mem_cons, List.mem_singleton, not_or] at h
  obtain ⟨⟨-, -, -, h1, -⟩, ⟨-, -, h2, -⟩, ⟨-, h3, -⟩, ⟨h4, -⟩, -⟩ := h
  simp [bltDepth, isPalFormat, Ne.symm h1, Ne.symm h2, Ne.symm h3, Ne.symm h4]


theorem negShiftNeg_eq_ceilShift (w : Int) (bits : Nat) :
    negShiftNeg w bits = ceilShift w bits := by
  unfold negShiftNeg ceilShift
  rw [Int.shiftRight_eq_div_pow]
  push_cast
  have hd : (0 : Int) < 2 ^ bits := by positivity
  generalize (2 : Int) ^ bits = d at hd
  have h1 := Int.emod_add_ediv (-w) d
  have h2 := Int.emod_nonneg (-w) (ne_of_gt hd)
  have h3 := Int.emod_lt_of_pos (-w) hd
  have key := (Int.ediv_emod_unique hd (a := w + d - 1) (r := d - 1 - (-w) % d)
    (q := -((-w) / d))).2 ⟨by linarith [mul_neg d ((-w) / d)], by omega, by omega⟩
  exact key.1.symm

/-- The integer formula `ceilShift` is the ceiling of the exact quotient. -/
theorem ceilShift_eq_ceil (w : Int) (bits : Nat) :
    ceilShift w bits = ⌈(w : ℚ) / 2 ^ bits⌉ := by
  symm
  rw [Int.ceil_eq_iff]
  unfold ceilShift
  have hd : (0 : Int) < 2 ^ bits := by positivity
  have hdq : (0 : ℚ) < 2 ^ bits := by positivity
  have h1 := Int.emod_add_ediv (w + 2 ^ bits - 1) (2 ^ bits)
  have h2 := Int.emod_nonneg (w + 2 ^ bits - 1) (ne_of_gt hd)
  have h3 := Int.emod_lt_of_pos (w + 2 ^ bits - 1) hd
  set q := (w + 2 ^ bits - 1) / 2 ^ bits with hq
  set r := (w + 2 ^ bits - 1) % 2 ^ bits with hr
  have e : (w : ℚ) = 2 ^ bits * q + r + 1 - 2 ^ bits := by
    have : (w : Int) = 2 ^ bits * q + r + 1 - 2 ^ bits := by linarith
    exact_mod_cast this
  have h2q : (0 : ℚ) ≤ r := by exact_mod_cast h2
  have h3q : (r : ℚ) + 1 ≤ 2 ^ bits := by exact_mod_cast h3
  constructor
  · rw [lt_div_iff₀ hdq]
    nlinarith
  · rw [div_le_iff₀ hdq]
    nlinarith

theorem runRows_cons (r : RowCopy) (rows : List RowCopy) (m : Mem) :
    runRows (r :: rows) m = runRows rows (r.apply m) := rfl

theorem runRows_append (rows₁ rows₂ : List RowCopy) (m : Mem) :
    runRows (rows₁ ++ rows₂) m = runRows rows₂ (runRows rows₁ m) := by
  simp [runRows, List.foldl_append]

/-- Row copies leave every byte outside their destination ranges alone. -/
theorem runRows_frame (rows : List RowCopy) (m : Mem) (a : Int)
    (h : ∀ r ∈ rows, ¬ (r.dst ≤ a ∧ a < r.dst + r.n)) : runRows rows m a = m a := by
  induction rows generalizing m with
  | nil => rfl
  | cons r rs ih =>
    rw [runRows_cons, ih _ (fun r' hr' => h r' (List.mem_cons_of_mem _ hr'))]
    have := h r (List.mem_cons_self _ _)
    simp only [RowCopy.apply, this, if_false]

/-- Row copies whose destination bytes are never source bytes, and whose overlapping
destinations copy from the same place, leave in every destination byte its source byte. -/
theorem runRows_copy (rows : List RowCopy) (m : Mem)
    (hsrc : ∀ r ∈ rows, ∀ r' ∈ rows, ∀ a, r.dst ≤ a → a < r.dst + r.n →
      ¬ (r'.src ≤ a ∧ a < r'.src + r'.n))
    (hdst : ∀ r ∈ rows, ∀ r' ∈ rows, ∀ a, r.dst ≤ a → a < r.dst + r.n →
      r'.dst ≤ a → a < r'.dst + r'.n → r.src - r.dst = r'.src - r'.dst) :
    ∀ r ∈ rows, ∀ a, r.dst ≤ a → a < r.dst + r.n →
      runRows rows m a = m (r.src + (a - r.dst)) := by
  induction rows generalizing m with
  | nil => intro r hr; cases hr
  | cons r0 rs ih =>
    intro r hr a ha1 ha2
    rw [runRows_cons]
    have hsrc' : ∀ r ∈ rs, ∀ r' ∈ rs, ∀ a, r.dst ≤ a → a < r.dst + r.n →
        ¬ (r'.src ≤ a ∧ a < r'.src + r'.n) :=
      fun r hr r' hr' => hsrc r (List.mem_cons_of_mem _ hr) r' (List.mem_cons_of_mem _ hr')
    have hdst' : ∀ r ∈ rs, ∀ r' ∈ rs, ∀ a, r.dst ≤ a → a < r.dst + r.n →
        r'.dst ≤ a → a < r'.dst + r'.n → r.src - r.dst = r'.src - r'.dst :=
      fun r hr r' hr' => hdst r (List.mem_cons_of_mem _ hr) r' (List.mem_cons_of_mem _ hr')
    by_cases hex : ∃ r' ∈ rs, r'.dst ≤ a ∧ a < r'.dst + r'.n
    · obtain ⟨r', hr', hb1, hb2⟩ := hex
      rw [ih (r0.apply m) hsrc' hdst' r' hr' a hb1 hb2]
      have hd := hdst r hr r' (List.mem_cons_of_mem _ hr') a ha1 ha2 hb1 hb2
      have hnot : ¬ (r0.dst ≤ r'.src + (a - r'.dst) ∧ r'.src + (a - r'.dst) < r0.dst + r0.n) := by
        intro hc
        exact hsrc r0 (List.mem_cons_self _ _) r' (List.mem_cons_of_mem _ hr') _ hc.1 hc.2
          ⟨by omega, by omega⟩
      simp only [RowCopy.apply, hnot, if_false]
      congr 1
      omega
    · have hfr : ∀ r' ∈ rs, ¬ (r'.dst ≤ a ∧ a < r'.dst + r'.n) :=
        fun r' hr' hc => hex ⟨r', hr', hc⟩
      rw [runRows_frame rs _ a hfr]
      rcases List.mem_cons.1 hr with rfl | hr
      · simp only [RowCopy.apply, ha1, ha2, and_self, if_true]
      · exact absurd ⟨ha1, ha2⟩ (hfr r hr)

theorem mem_rowList (p : PlaneCopy) (r : RowCopy) :
    r ∈ p.rowList ↔ ∃ y : Nat, y < p.rows.toNat ∧
      r = RowCopy.mk (p.dst + (y : Int) * p.dstpitch) (p.src + (y : Int) * p.srcpitch)
        p.bytes.toNat := by
  simp only [PlaneCopy.rowList, rectRows, List.mem_map, List.mem_range]
  constructor
  · rintro ⟨y, hy, rfl⟩; exact ⟨y, hy, rfl⟩
  · rintro ⟨y, hy, rfl⟩; exact ⟨y, hy, rfl⟩

/-- Row copies that are, in any order, the rows of separate planes copy every plane and
touch nothing else. -/
theorem runRows_planes (planes : List PlaneCopy) (rows : List RowCopy) (m : Mem)
    (hmem : ∀ r, r ∈ rows ↔ ∃ p ∈ planes, r ∈ p.rowList) (hsep : Separate planes) :
    (∀ p ∈ planes, ∀ y x : Int, 0 ≤ y → y < p.rows → 0 ≤ x → x < p.bytes →
        runRows rows m (p.dst + y * p.dstpitch + x) = m (p.src + y * p.srcpitch + x)) ∧
      (∀ a, ¬ InDst planes a → runRows rows m a = m a) := by
  have hsrc : ∀ r ∈ rows, ∀ r' ∈ rows, ∀ a, r.dst ≤ a → a < r.dst + r.n →
      ¬ (r'.src ≤ a ∧ a < r'.src + r'.n) := by
    intro r hr r' hr' a h1 h2 ⟨h3, h4⟩
    obtain ⟨p, hp, hrp⟩ := (hmem r).1 hr
    obtain ⟨q, hq, hrq⟩ := (hmem r').1 hr'
    obtain ⟨y, hy, rfl⟩ := (mem_rowList p r).1 hrp
    obtain ⟨y', hy', rfl⟩ := (mem_rowList q r').1 hrq
    simp only at h1 h2 h3 h4
    have := (hsep p hp q hq y (List.mem_range.2 hy) (a - (p.dst + y * p.dstpitch)).toNat
      (List.mem_range.2 (by omega)) y' (List.mem_range.2 hy')
      (a - (q.src + y' * q.srcpitch)).toNat (List.mem_range.2 (by omega))).1
    apply this
    rw [Int.toNat_of_nonneg (by omega), Int.toNat_of_nonneg (by omega)]
    omega
  have hdst : ∀ r ∈ rows, ∀ r' ∈ rows, ∀ a, r.dst ≤ a → a < r.dst + r.n →
      r'.dst ≤ a → a < r'.dst + r'.n → r.src - r.dst = r'.src - r'.dst := by
    intro r hr r' hr' a h1 h2 h3 h4
    obtain ⟨p, hp, hrp⟩ := (hmem r).1 hr
    obtain ⟨q, hq, hrq⟩ := (hmem r').1 hr'
    obtain ⟨y, hy, rfl⟩ := (mem_rowList p r).1 hrp
    obtain ⟨y', hy', rfl⟩ := (mem_rowList q r').1 hrq
    simp only at h1 h2 h3 h4
    have := (hsep p hp q hq y (List.mem_range.2 hy) (a - (p.dst + y * p.dstpitch)).toNat
      (List.mem_range.2 (by omega)) y' (List.mem_range.2 hy')
      (a - (q.dst + y' * q.dstpitch)).toNat (List.mem_range.2 (by omega))).2
    rw [Int.toNat_of_nonneg (by omega), Int.toNat_of_nonneg (by omega)] at this
    obtain ⟨rfl, rfl, -⟩ := this (by omega)
    rfl
  refine ⟨?_, ?_⟩
  · intro p hp y x hy0 hy hx0 hx
    have hr : RowCopy.mk (p.dst + (y.toNat : Int) * p.dstpitch)
        (p.src + (y.toNat : Int) * p.srcpitch) p.bytes.toNat ∈ rows :=
      (hmem _).2 ⟨p, hp, (mem_rowList p _).2 ⟨y.toNat, by omega, rfl⟩⟩
    have hyy : ((y.toNat : Nat) : Int) = y := Int.toNat_of_nonneg hy0
    have := runRows_copy rows m hsrc hdst _ hr (p.dst + y * p.dstpitch + x)
      (by simp only [hyy]; omega) (by simp only [hyy]; omega)
    rw [this]
    simp only [hyy]
    congr 1
    omega
  · intro a ha
    apply runRows_frame
    intro r hr ⟨h1, h2⟩
    obtain ⟨p, hp, hrp⟩ := (hmem r).1 hr
    obtain ⟨y, hy, rfl⟩ := (mem_rowList p r).1 hrp
    simp only at h1 h2
    exact ha ⟨p, hp, y, a - (p.dst + y * p.dstpitch), by omega, by omega, by omega, by omega,
      by omega⟩

/-! ## Direct Blit -/

theorem formatOutOfRange_of_valid (E : Env) (f : Int)
    (hf : 0 ≤ f ∧ f < E.fmt.kPixFormat_Max_Standard) : formatOutOfRange E f = false := by
  have hmax := E.fmt.maxFits
  have : f % 2 ^ 32 = f := Int.emod_eq_of_lt hf.1 (by omega)
  simp only [formatOutOfRange, this, decide_eq_false_iff_not, not_le]
  exact hf.2

/-- The effects of a Direct Blit between two buffers of one valid format. -/
theorem bltDirect_same_format (E : Env) (dst src : VDPixmap) (w h : Int)
    (hvalid : 0 ≤ src.format ∧ src.format < E.fmt.kPixFormat_Max_Standard)
    (hfmt : dst.format = src.format) :
    VDPixmapBltDirect E dst src w h =
      (true,
        let info := E.VDPixmapGetInfo src.format
        let case0 := [Event.memcpyRect dst.data dst.pitch src.data src.pitch
          (wrapInt32 (info.qsize * negShiftNeg w info.qwbits)) (negShiftNeg h info.qhbits)]
        let case1 := Event.memcpyRect dst.data2 dst.pitch2 src.data2 src.pitch2
          (negShiftNeg w info.auxwbits) (negShiftNeg h info.auxhbits) :: case0
        let case2 := Event.memcpyRect dst.data3 dst.pitch3 src.data3 src.pitch3
          (negShiftNeg w info.auxwbits) (negShiftNeg h info.auxhbits) :: case1
        if info.auxbufs = 2 then case2
        else if info.auxbufs = 1 then case1
        else if info.auxbufs = 0 then case0
        else []) := by
  rw [VDPixmapBltDirect]
  simp [formatOutOfRange_of_valid E src.format hvalid, hfmt]

theorem run_memcpyRect_cons (S : CellSem) (dst dstpitch src srcpitch w h : Int)
    (es : List Event) (m : Mem) :
    run S (Event.memcpyRect dst dstpitch src srcpitch w h :: es) m =
      run S es (runRows (rectRows dst dstpitch src srcpitch w h) m) := rfl

theorem run_nil (S : CellSem) (m : Mem) : run S [] m = m := rfl

/-- A value in the range of a 32-bit `int` is not changed by wrapping. -/
theorem wrapInt32_of_inRange (x : Int) (h1 : -2 ^ 31 ≤ x) (h2 : x < 2 ^ 31) :
    wrapInt32 x = x := by
  unfold wrapInt32
  rw [Int.emod_eq_of_lt (by omega) (by omega)]
  omega

/-- C1, as stated, fails: for width `2 ^ 30` and a format of four bytes per pixel the byte
width `qsize * qw = 2 ^ 32` wraps to 0 in the `int` product, so the one-row copy between two
separate buffers of that format copies no byte: Direct Blit returns true, but byte 5 of the
destination row, which lies in the quantized rectangle of the claim, keeps its value and does
not equal byte 5 of the source row. -/
theorem same_format_blit_overflow_counterexample :
    Separate (planesOf (exInfo 7) (exPixmap 0 1073741824 1 4294967296 7)
      (exPixmap 8589934592 1073741824 1 4294967296 7) 1073741824 1) ∧
    VDPixmapBltDirect (exEnv fun _ _ => none) (exPixmap 0 1073741824 1 4294967296 7)
        (exPixmap 8589934592 1073741824 1 4294967296 7) 1073741824 1 =
      (true, [Event.memcpyRect 0 4294967296 8589934592 4294967296 0 1]) ∧
    (5 : Int) < (exInfo 7).qsize * ceilShift 1073741824 (exInfo 7).qwbits ∧
    run exSem (VDPixmapBltDirect (exEnv fun _ _ => none) (exPixmap 0 1073741824 1 4294967296 7)
        (exPixmap 8589934592 1073741824 1 4294967296 7) 1073741824 1).2 exMem 5 = exMem 5 ∧
    exMem 5 ≠ exMem (8589934592 + 5) := by
  have hd := bltDirect_same_format (exEnv fun _ _ => none)
    (exPixmap 0 1073741824 1 4294967296 7) (exPixmap 8589934592 1073741824 1 4294967296 7)
    1073741824 1 (by decide) rfl
  have hd' : VDPixmapBltDirect (exEnv fun _ _ => none) (exPixmap 0 1073741824 1 4294967296 7)
      (exPixmap 8589934592 1073741824 1 4294967296 7) 1073741824 1 =
      (true, [Event.memcpyRect 0 4294967296 8589934592 4294967296 0 1]) := by
    rw [hd]; decide
  refine ⟨?_, hd', by decide, ?_, by decide⟩
  · have hb : (exInfo 7).qsize * ceilShift 1073741824 (exInfo 7).qwbits = 4294967296 := by
      decide
    have hr : ceilShift 1 (exInfo 7).qhbits = 1 := by decide
    have ha : ¬ (1 : Int) ≤ (exInfo 7).auxbufs := by decide
    have ha2 : ¬ (2 : Int) ≤ (exInfo 7).auxbufs := by decide
    simp only [planesOf, hb, hr, ha, ha2, if_false, List.append_nil, exPixmap]
    intro p hp q hq y hy x hx y2 hy2 x2 hx2
    simp only [List.mem_singleton] at hp hq
    subst hp
    subst hq
    simp only [List.mem_range, Int.toNat_one, Nat.lt_one_iff] at hy hy2 hx hx2
    subst hy
    subst hy2
    have hx4 : (x : Int) < 4294967296 := by
      have : x < 4294967296 := by simpa using hx
      exact_mod_cast this
    have hx5 : (x2 : Int) < 4294967296 := by
      have : x2 < 4294967296 := by simpa using hx2
      exact_mod_cast this
    refine ⟨by push_cast; omega, fun he => ⟨rfl, rfl, ?_⟩⟩
    push_cast at he
    omega
  · rw [hd']
    rfl

/-- C1, amended. Same-format Direct Blit (and with it Fast Blit, and `VDPixmapBlt(dst, src)`
for a nonzero common extent) between two buffers of a valid format, for `w ≥ 0` and `h ≥ 0`
whose primary byte width `qsize * ceil(w / 2^qwbits)` fits a 32-bit `int`,
returns true, performs raw rectangle copies only (no table read, no cell call, the same
effects for every blitter table), and leaves in
every destination plane the source bytes over the plane's quantized rectangle: the primary
plane over `qsize * ceil(w / 2^qwbits)` bytes by `ceil(h / 2^qhbits)` rows, each auxiliary
plane the format has over `ceil(w / 2^auxwbits)` bytes by `ceil(h / 2^auxhbits)` rows; every
byte outside these destination rectangles, so every plane the format does not have, keeps its
value.  The buffers are well formed: they describe separate memory (`Separate`). -/
theorem same_format_blit_copies_planes (E : Env) (S : CellSem) (dst src : VDPixmap)
    (w h : Int) (m : Mem)
    (hvalid : 0 ≤ src.format ∧ src.format < E.fmt.kPixFormat_Max_Standard)
    (hfmt : dst.format = src.format) (hw : 0 ≤ w) (hh : 0 ≤ h)
    (haux : 0 ≤ (E.VDPixmapGetInfo src.format).auxbufs ∧
      (E.VDPixmapGetInfo src.format).auxbufs ≤ 2)
    (hfit : -2 ^ 31 ≤ (E.VDPixmapGetInfo src.format).qsize *
        ceilShift w (E.VDPixmapGetInfo src.format).qwbits ∧
      (E.VDPixmapGetInfo src.format).qsize *
        ceilShift w (E.VDPixmapGetInfo src.format).qwbits < 2 ^ 31)
    (hsep : Separate (planesOf (E.VDPixmapGetInfo src.format) dst src w h)) :
    (VDPixmapBltDirect E dst src w h).1 = true ∧
    VDPixmapBltFast E dst src w h = VDPixmapBltDirect E dst src w h ∧
    (w = min src.w dst.w → h = min src.h dst.h → w ≠ 0 → h ≠ 0 →
      VDPixmapBlt E dst src = VDPixmapBltDirect E dst src w h) ∧
    (∀ e ∈ (VDPixmapBltDirect E dst src w h).2,
      e.isCellCall = false ∧ ∀ s d, e ≠ Event.tableRead s d) ∧
    (∀ table : Int → Int → Option Nat,
      VDPixmapBltDirect { E with VDPixmapGetBlitterTable := table } dst src w h =
        VDPixmapBltDirect E dst src w h) ∧
    (∀ y x : Int, 0 ≤ y → y < ceilShift h (E.VDPixmapGetInfo src.format).qhbits →
      0 ≤ x → x < (E.VDPixmapGetInfo src.format).qsize *
        ceilShift w (E.VDPixmapGetInfo src.format).qwbits →
      run S (VDPixmapBltDirect E dst src w h).2 m (dst.data + y * dst.pitch + x) =
        m (src.data + y * src.pitch + x)) ∧
    (1 ≤ (E.VDPixmapGetInfo src.format).auxbufs →
      ∀ y x : Int, 0 ≤ y → y < ceilShift h (E.VDPixmapGetInfo src.format).auxhbits →
        0 ≤ x → x < ceilShift w (E.VDPixmapGetInfo src.format).auxwbits →
        run S (VDPixmapBltDirect E dst src w h).2 m (dst.data2 + y * dst.pitch2 + x) =
          m (src.data2 + y * src.pitch2 + x)) ∧
    (2 ≤ (E.VDPixmapGetInfo src.format).auxbufs →
      ∀ y x : Int, 0 ≤ y → y < ceilShift h (E.VDPixmapGetInfo src.format).auxhbits →
        0 ≤ x → x < ceilShift w (E.VDPixmapGetInfo src.format).auxwbits →
        run S (VDPixmapBltDirect E dst src w h).2 m (dst.data3 + y * dst.pitch3 + x) =
          m (src.data3 + y * src.pitch3 + x)) ∧
    (∀ a, ¬ InDst (planesOf (E.VDPixmapGetInfo src.format) dst src w h) a →
      run S (VDPixmapBltDirect E dst src w h).2 m a = m a) := by
  have hd := bltDirect_same_format E dst src w h hvalid hfmt
  have hfast : VDPixmapBltFast E dst src w h = VDPixmapBltDirect E dst src w h := by
    simp only [VDPixmapBltFast, hd, if_true]
  set info := E.VDPixmapGetInfo src.format with hinfo
  have hwrap : wrapInt32 (info.qsize * ceilShift w info.qwbits) =
      info.qsize * ceilShift w info.qwbits := wrapInt32_of_inRange _ hfit.1 hfit.2
  -- the rows copied by the code are, in another order, the rows of the planes
  obtain ⟨rows, hrun, hcalls, hmem⟩ : ∃ rows : List RowCopy,
      (∀ m, run S (VDPixmapBltDirect E dst src w h).2 m = runRows rows m) ∧
      (∀ e ∈ (VDPixmapBltDirect E dst src w h).2,
        e.isCellCall = false ∧ ∀ s d, e ≠ Event.tableRead s d) ∧
      (∀ r, r ∈ rows ↔ ∃ p ∈ planesOf info dst src w h, r ∈ p.rowList) := by
    have haux' : info.auxbufs = 0 ∨ info.auxbufs = 1 ∨ info.auxbufs = 2 := by omega
    rcases haux' with h0 | h1 | h2
    · refine ⟨rectRows dst.data dst.pitch src.data src.pitch
        (info.qsize * ceilShift w info.qwbits) (ceilShift h info.qhbits), ?_, ?_, ?_⟩
      · intro m
        simp [hd, ← hinfo, h0, negShiftNeg_eq_ceilShift, hwrap, run_memcpyRect_cons, run_nil]
      · simp [hd, ← hinfo, h0, Event.isCellCall]
      · intro r
        simp [planesOf, h0, PlaneCopy.rowList]
    · refine ⟨rectRows dst.data2 dst.pitch2 src.data2 src.pitch2
          (ceilShift w info.auxwbits) (ceilShift h info.auxhbits) ++
        rectRows dst.data dst.pitch src.data src.pitch
          (info.qsize * ceilShift w info.qwbits) (ceilShift h info.qhbits), ?_, ?_, ?_⟩
      · intro m
        simp [hd, ← hinfo, h1, negShiftNeg_eq_ceilShift, hwrap, run_memcpyRect_cons, run_nil,
          runRows_append]
      · simp [hd, ← hinfo, h1, Event.isCellCall]
      · intro r
        simp [planesOf, h1, PlaneCopy.rowList, or_comm]
    · refine ⟨rectRows dst.data3 dst.pitch3 src.data3 src.pitch3
          (ceilShift w info.auxwbits) (ceilShift h info.auxhbits) ++
        (rectRows dst.data2 dst.pitch2 src.data2 src.pitch2
          (ceilShift w info.auxwbits) (ceilShift h info.auxhbits) ++
        rectRows dst.data dst.pitch src.data src.pitch
          (info.qsize * ceilShift w info.qwbits) (ceilShift h info.qhbits)), ?_, ?_, ?_⟩
      · intro m
        simp [hd, ← hinfo, h2, negShiftNeg_eq_ceilShift, hwrap, run_memcpyRect_cons, run_nil,
          runRows_append]
      · simp [hd, ← hinfo, h2, Event.isCellCall]
      · intro r
        simp [planesOf, h2, PlaneCopy.rowList]
        tauto
  obtain ⟨hcopy, hframe⟩ := runRows_planes _ rows m hmem hsep
  have hblt : w = min src.w dst.w → h = min src.h dst.h → w ≠ 0 → h ≠ 0 →
      VDPixmapBlt E dst src = VDPixmapBltDirect E dst src w h := by
    intro hw' hh' hw0 hh0
    rw [← hfast]
    simp only [VDPixmapBlt, ← hw', ← hh']
    rw [if_neg (by tauto)]
  have htab : ∀ table : Int → Int → Option Nat,
      VDPixmapBltDirect { E with VDPixmapGetBlitterTable := table } dst src w h =
        VDPixmapBltDirect E dst src w h := by
    intro table
    rw [hd]
    exact bltDirect_same_format { E with VDPixmapGetBlitterTable := table } dst src w h
      hvalid hfmt
  refine ⟨by rw [hd], hfast, hblt, hcalls, htab, ?_, ?_, ?_, ?_⟩
  · intro y x hy0 hy hx0 hx
    rw [hrun]
    exact hcopy ⟨dst.data, dst.pitch, src.data, src.pitch, info.qsize * ceilShift w info.qwbits,
      ceilShift h info.qhbits⟩ (by simp [planesOf]) y x hy0 hy hx0 hx
  · intro ha y x hy0 hy hx0 hx
    rw [hrun]
    exact hcopy ⟨dst.data2, dst.pitch2, src.data2, src.pitch2, ceilShift w info.auxwbits,
      ceilShift h info.auxhbits⟩ (by simp [planesOf, ha]) y x hy0 hy hx0 hx
  · intro ha y x hy0 hy hx0 hx
    rw [hrun]
    exact hcopy ⟨dst.data3, dst.pitch3, src.data3, src.pitch3, ceilShift w info.auxwbits,
      ceilShift h info.auxhbits⟩ (by simp [planesOf, ha]) y x hy0 hy hx0 hx
  · intro a ha
    rw [hrun]
    exact hframe a ha

/-- Witness for the amended C1: a 3 by 2 copy between two planar buffers (two half-resolution auxiliary
planes, the source bottom-up); byte 1 of the third plane arrives. -/
theorem same_format_blit_copies_planes_witness :
    Separate (planesOf (exInfo 13) (exPixmap 100 3 2 40 13) (exPixmap 4100 3 2 (-40) 13) 3 2) ∧
    (VDPixmapBltDirect (exEnv fun _ _ => none) (exPixmap 100 3 2 40 13)
      (exPixmap 4100 3 2 (-40) 13) 3 2).1 = true ∧
    run exSem (VDPixmapBltDirect (exEnv fun _ _ => none) (exPixmap 100 3 2 40 13)
      (exPixmap 4100 3 2 (-40) 13) 3 2).2 exMem 2101 = exMem 6101 :=
  have key := same_format_blit_copies_planes (exEnv fun _ _ => none) exSem
    (exPixmap 100 3 2 40 13) (exPixmap 4100 3 2 (-40) 13) 3 2 exMem
    (by decide) rfl (by decide) (by decide) (by decide) (by decide) (by decide)
  ⟨by decide, key.1, key.2.2.2.2.2.2.2.1 (by decide) 0 1 (by decide) (by decide) (by decide)
    (by decide)⟩

/-! ## Rectangle blit: clipping -/

/-- Horizontal clipping: the clipped origins are not negative and not left of the requested
ones, and the clipped width is capped by what each buffer has left. -/
theorem clipRect_bounds_x (dst : VDPixmap) (x1 y1 : Int) (src : VDPixmap) (x2 y2 w h : Int) :
    0 ≤ (clipRect dst x1 y1 src x2 y2 w h).x1 ∧ 0 ≤ (clipRect dst x1 y1 src x2 y2 w h).x2 ∧
    x1 ≤ (clipRect dst x1 y1 src x2 y2 w h).x1 ∧ x2 ≤ (clipRect dst x1 y1 src x2 y2 w h).x2 ∧
    (clipRect dst x1 y1 src x2 y2 w h).w ≤ dst.w - (clipRect dst x1 y1 src x2 y2 w h).x1 ∧
    (clipRect dst x1 y1 src x2 y2 w h).w ≤ src.w - (clipRect dst x1 y1 src x2 y2 w h).x2 := by
  simp only [clipRect]
  split_ifs <;> omega

/-- Vertical clipping: the same facts for the rows. -/
theorem clipRect_bounds_y (dst : VDPixmap) (x1 y1 : Int) (src : VDPixmap) (x2 y2 w h : Int) :
    0 ≤ (clipRect dst x1 y1 src x2 y2 w h).y1 ∧ 0 ≤ (clipRect dst x1 y1 src x2 y2 w h).y2 ∧
    y1 ≤ (clipRect dst x1 y1 src x2 y2 w h).y1 ∧ y2 ≤ (clipRect dst x1 y1 src x2 y2 w h).y2 ∧
    (clipRect dst x1 y1 src x2 y2 w h).h ≤ dst.h - (clipRect dst x1 y1 src x2 y2 w h).y1 ∧
    (clipRect dst x1 y1 src x2 y2 w h).h ≤ src.h - (clipRect dst x1 y1 src x2 y2 w h).y2 := by
  simp only [clipRect]
  split_ifs <;> omega

/-- C3. The eight-argument rectangle blit either returns true without any effect (clipped width
or height negative), or it invokes Fast Blit on the two views offset by the clipped origins
with the clipped extent and returns what that call returns; in the second case the clipped
values satisfy `0 ≤ x1', y1', x2', y2', w', h'`, `x1' + w' ≤ dst.w`, `y1' + h' ≤ dst.h`,
`x2' + w' ≤ src.w` and `y2' + h' ≤ src.h`. -/
theorem blt_rect_invokes_fast_within_bounds (E : Env) (dst : VDPixmap) (x1 y1 : Int)
    (src : VDPixmap) (x2 y2 w h : Int) :
    let c := clipRect dst x1 y1 src x2 y2 w h
    ((c.w < 0 ∨ c.h < 0) ∧ VDPixmapBlt_rect E dst x1 y1 src x2 y2 w h = (true, [])) ∨
    (VDPixmapBlt_rect E dst x1 y1 src x2 y2 w h =
        VDPixmapBltFast E (E.VDPixmapOffset dst c.x1 c.y1) (E.VDPixmapOffset src c.x2 c.y2)
          c.w c.h ∧
      0 ≤ c.x1 ∧ 0 ≤ c.y1 ∧ 0 ≤ c.x2 ∧ 0 ≤ c.y2 ∧ 0 ≤ c.w ∧ 0 ≤ c.h ∧
      c.x1 + c.w ≤ dst.w ∧ c.y1 + c.h ≤ dst.h ∧ c.x2 + c.w ≤ src.w ∧ c.y2 + c.h ≤ src.h) := by
  intro c
  have hx := clipRect_bounds_x dst x1 y1 src x2 y2 w h
  have hy := clipRect_bounds_y dst x1 y1 src x2 y2 w h
  by_cases hc : c.w ≥ 0 ∧ c.h ≥ 0
  · right
    refine ⟨by simp only [VDPixmapBlt_rect]; rw [if_pos hc], ?_⟩
    have h1 := hc.1
    have h2 := hc.2
    simp only [c] at h1 h2 ⊢
    omega
  · left
    refine ⟨by simp only [c] at hc ⊢; omega, by simp only [VDPixmapBlt_rect]; rw [if_neg hc]⟩

/-- C4, as stated, fails: on a 10 by 10 destination and a 10 by 10 source, the request with
destination origin `(0,0)`, source origin `(-3,-3)` and size `(10,10)` reaches Fast Blit with
extent 7 by 7 and source offset `(0,0)`, but with destination offset `(3,3)`, not `(0,0)`: the
copy starts at destination byte `100 + 3 * 40 + 4 * 3 = 232`. -/
theorem blt_rect_negative_source_origin_counterexample :
    clipRect (exPixmap 100 10 10 40 8) 0 0 (exPixmap 500 10 10 40 8) (-3) (-3) 10 10
      = { x1 := 3, y1 := 3, x2 := 0, y2 := 0, w := 7, h := 7 } ∧
    clipRect (exPixmap 100 10 10 40 8) 0 0 (exPixmap 500 10 10 40 8) (-3) (-3) 10 10
      ≠ { x1 := 0, y1 := 0, x2 := 0, y2 := 0, w := 7, h := 7 } ∧
    VDPixmapBlt_rect (exEnv fun _ _ => none) (exPixmap 100 10 10 40 8) 0 0
      (exPixmap 500 10 10 40 8) (-3) (-3) 10 10
      = (true, [Event.memcpyRect 232 40 500 40 28 7]) := by
  refine ⟨by decide, by decide, ?_⟩
  have hc : clipRect (exPixmap 100 10 10 40 8) 0 0 (exPixmap 500 10 10 40 8) (-3) (-3) 10 10
      = { x1 := 3, y1 := 3, x2 := 0, y2 := 0, w := 7, h := 7 } := by decide
  simp only [VDPixmapBlt_rect, hc]
  have hd := bltDirect_same_format (exEnv fun _ _ => none)
    (exOffset (exPixmap 100 10 10 40 8) 3 3) (exOffset (exPixmap 500 10 10 40 8) 0 0) 7 7
    (by decide) rfl
  simp only [exEnv, VDPixmapBltFast] at hd ⊢
  rw [hd]
  decide

/-- C4, amended. On a 10 by 10 destination and a source of at least 10 by 10, the request with
destination origin `(0,0)`, source origin `(-3,-3)` and size `(10,10)` invokes Fast Blit with
extent 7 by 7, the source view offset by `(0,0)` and the destination view offset by `(3,3)`. -/
theorem blt_rect_negative_source_origin (E : Env) (dst src : VDPixmap)
    (hdw : dst.w = 10) (hdh : dst.h = 10) (hsw : 10 ≤ src.w) (hsh : 10 ≤ src.h) :
    clipRect dst 0 0 src (-3) (-3) 10 10
      = { x1 := 3, y1 := 3, x2 := 0, y2 := 0, w := 7, h := 7 } ∧
    VDPixmapBlt_rect E dst 0 0 src (-3) (-3) 10 10 =
      VDPixmapBltFast E (E.VDPixmapOffset dst 3 3) (E.VDPixmapOffset src 0 0) 7 7 := by
  have hc : clipRect dst 0 0 src (-3) (-3) 10 10
      = { x1 := 3, y1 := 3, x2 := 0, y2 := 0, w := 7, h := 7 } := by
    simp only [clipRect, hdw, hdh]
    simp
    constructor <;> intro <;> omega
  refine ⟨hc, ?_⟩
  simp [VDPixmapBlt_rect, hc]

/-- Witness for the amended C4: a 12 by 11 source. -/
theorem blt_rect_negative_source_origin_witness :
    VDPixmapBlt_rect (exEnv fun _ _ => none) (exPixmap 100 10 10 40 8) 0 0
      (exPixmap 500 12 11 48 8) (-3) (-3) 10 10 =
      VDPixmapBltFast (exEnv fun _ _ => none)
        ((exEnv fun _ _ => none).VDPixmapOffset (exPixmap 100 10 10 40 8) 3 3)
        ((exEnv fun _ _ => none).VDPixmapOffset (exPixmap 500 12 11 48 8) 0 0) 7 7 :=
  (blt_rect_negative_source_origin (exEnv fun _ _ => none) (exPixmap 100 10 10 40 8)
    (exPixmap 500 12 11 48 8) rfl rfl (by decide) (by decide)).2

/-- C5 at a failing input: between two 100 by 100 buffers, the request with destination origin
`(-3, 0)`, source origin `(0, 0)` and size `(10, 10)` reaches Fast Blit with width 13, three
more than requested: `w -= x1` with a negative `x1` widens the rectangle.  The copy is 13
pixels (52 bytes) wide. -/
theorem blt_rect_negative_origin_widens :
    clipRect (exPixmap 100 100 100 400 8) (-3) 0 (exPixmap 50000 100 100 400 8) 0 0 10 10
      = { x1 := 0, y1 := 0, x2 := 3, y2 := 0, w := 13, h := 10 } ∧
    VDPixmapBlt_rect (exEnv fun _ _ => none) (exPixmap 100 100 100 400 8) (-3) 0
      (exPixmap 50000 100 100 400 8) 0 0 10 10
      = (true, [Event.memcpyRect 100 400 50012 400 52 10]) := by
  have hc : clipRect (exPixmap 100 100 100 400 8) (-3) 0 (exPixmap 50000 100 100 400 8) 0 0 10 10
      = { x1 := 0, y1 := 0, x2 := 3, y2 := 0, w := 13, h := 10 } := by decide
  refine ⟨hc, ?_⟩
  simp only [VDPixmapBlt_rect, hc]
  have hd := bltDirect_same_format (exEnv fun _ _ => none)
    (exOffset (exPixmap 100 100 100 400 8) 0 0) (exOffset (exPixmap 50000 100 100 400 8) 3 0)
    13 10 (by decide) rfl
  simp only [exEnv, VDPixmapBltFast] at hd ⊢
  rw [hd]
  decide

/-- A wrapped value under a condition that keeps it in range is the exact value. -/
theorem wrap_ite (c : Prop) [Decidable c] (a b : Int) (h : c → InInt32 a) :
    (if c then wrapInt32 a else b) = if c then a else b := by
  by_cases hc : c
  · rw [if_pos hc, if_pos hc, wrapInt32_of_inRange a (h hc).1 (h hc).2]
  · rw [if_neg hc, if_neg hc]

/-- Without overflow the 32-bit clipping computes the exact values. -/
theorem clipRect32_eq (dst : VDPixmap) (x1 y1 : Int) (src : VDPixmap) (x2 y2 w h : Int)
    (hno : ClipNoOverflow dst x1 y1 src x2 y2 w h) :
    clipRect32 dst x1 y1 src x2 y2 w h = clipRect dst x1 y1 src x2 y2 w h := by
  simp only [ClipNoOverflow] at hno
  obtain ⟨h1, h2, h3, h4, h5, h6, h7, h8⟩ := hno
  simp only [clipRect32, clipRect]
  rw [wrap_ite _ _ _ (fun hc => (h1 hc).1), wrap_ite _ _ _ (fun hc => (h1 hc).2),
    wrap_ite _ _ _ (fun hc => (h2 hc).1), wrap_ite _ _ _ (fun hc => (h2 hc).2)]
  rw [wrap_ite _ _ _ (fun hc => (h3 hc).1), wrap_ite _ _ _ (fun hc => (h3 hc).2),
    wrap_ite _ _ _ (fun hc => (h4 hc).1), wrap_ite _ _ _ (fun hc => (h4 hc).2)]
  rw [wrapInt32_of_inRange _ h5.1 h5.2, wrapInt32_of_inRange _ h6.1 h6.2,
    wrapInt32_of_inRange _ h7.1 h7.2, wrapInt32_of_inRange _ h8.1 h8.2]

/-- In exact arithmetic, a rectangle that starts beyond a buffer on some axis, or whose clipped
width or height is negative, fails the test `w>=0 && h >= 0` and the rectangle blit returns
true with no effect. -/
theorem blt_rect_outside_exact (E : Env) (S : CellSem) (dst : VDPixmap) (x1 y1 : Int)
    (src : VDPixmap) (x2 y2 w h : Int) (m : Mem)
    (hout : x1 > dst.w ∨ y1 > dst.h ∨ x2 > src.w ∨ y2 > src.h ∨
      (clipRect dst x1 y1 src x2 y2 w h).w < 0 ∨ (clipRect dst x1 y1 src x2 y2 w h).h < 0) :
    ¬ ((clipRect dst x1 y1 src x2 y2 w h).w ≥ 0 ∧ (clipRect dst x1 y1 src x2 y2 w h).h ≥ 0) ∧
    VDPixmapBlt_rect E dst x1 y1 src x2 y2 w h = (true, []) ∧
    run S (VDPixmapBlt_rect E dst x1 y1 src x2 y2 w h).2 m = m := by
  have hx := clipRect_bounds_x dst x1 y1 src x2 y2 w h
  have hy := clipRect_bounds_y dst x1 y1 src x2 y2 w h
  have hneg : ¬ ((clipRect dst x1 y1 src x2 y2 w h).w ≥ 0 ∧
      (clipRect dst x1 y1 src x2 y2 w h).h ≥ 0) := by omega
  have hr : VDPixmapBlt_rect E dst x1 y1 src x2 y2 w h = (true, []) := by
    simp only [VDPixmapBlt_rect]; rw [if_neg hneg]
  exact ⟨hneg, hr, by rw [hr]; rfl⟩

/-- C6, as stated, fails where the clipping arithmetic overflows: with `x1 = INT_MIN`,
`x2 = 2147483628` and `w = INT_MAX` on a 30 by 30 destination and a 10 by 10 source of the
same format, the source origin lies beyond the source (`x2 > src.w`), yet `x2 -= x1` wraps to
`-20` and `w -= x1` to `-1`, the clipped rectangle is 10 by 5 at destination column 20, Fast
Blit is invoked and destination bytes are written (byte 180 receives source byte 5000). -/
theorem blt_rect_outside_overflow_counterexample :
    (2147483628 : Int) > (exPixmap 5000 10 10 40 8).w ∧
    InInt32 (-2147483648) ∧ InInt32 2147483628 ∧ InInt32 2147483647 ∧
    clipRect32 (exPixmap 100 30 30 120 8) (-2147483648) 0 (exPixmap 5000 10 10 40 8)
        2147483628 0 2147483647 5 =
      { x1 := 20, y1 := 0, x2 := 0, y2 := 0, w := 10, h := 5 } ∧
    VDPixmapBlt_rect32 (exEnv fun _ _ => none) (exPixmap 100 30 30 120 8) (-2147483648) 0
        (exPixmap 5000 10 10 40 8) 2147483628 0 2147483647 5 =
      (true, [Event.memcpyRect 180 120 5000 40 40 5]) ∧
    run exSem [Event.memcpyRect 180 120 5000 40 40 5] exMem 180 = exMem 5000 ∧
    exMem 5000 ≠ exMem 180 := by
  have hc : clipRect32 (exPixmap 100 30 30 120 8) (-2147483648) 0 (exPixmap 5000 10 10 40 8)
      2147483628 0 2147483647 5 = { x1 := 20, y1 := 0, x2 := 0, y2 := 0, w := 10, h := 5 } := by
    decide
  refine ⟨by decide, by decide, by decide, by decide, hc, ?_, by decide, by decide⟩
  simp only [VDPixmapBlt_rect32, hc]
  have hd := bltDirect_same_format (exEnv fun _ _ => none)
    (exOffset (exPixmap 100 30 30 120 8) 20 0) (exOffset (exPixmap 5000 10 10 40 8) 0 0) 10 5
    (by decide) rfl
  simp only [exEnv, VDPixmapBltFast] at hd ⊢
  rw [hd]
  decide

/-- C6, amended. A rectangle blit whose rectangle starts beyond a buffer on some axis
(`x1 > dst.w`, `y1 > dst.h`, `x2 > src.w` or `y2 > src.h`) in a call whose clipping
subtractions do not overflow a 32-bit `int`, or whose clipped width or height is negative,
fails the test `w>=0 && h >= 0` that guards the call of Fast Blit, and returns true with no
effect at all: the table is not read, no cell runs, and memory is unchanged, whatever the
formats and the table are. -/
theorem blt_rect_outside_is_noop (E : Env) (S : CellSem) (dst : VDPixmap) (x1 y1 : Int)
    (src : VDPixmap) (x2 y2 w h : Int) (m : Mem)
    (hout : ((x1 > dst.w ∨ y1 > dst.h ∨ x2 > src.w ∨ y2 > src.h) ∧
        ClipNoOverflow dst x1 y1 src x2 y2 w h) ∨
      (clipRect32 dst x1 y1 src x2 y2 w h).w < 0 ∨ (clipRect32 dst x1 y1 src x2 y2 w h).h < 0) :
    ¬ ((clipRect32 dst x1 y1 src x2 y2 w h).w ≥ 0 ∧
      (clipRect32 dst x1 y1 src x2 y2 w h).h ≥ 0) ∧
    VDPixmapBlt_rect32 E dst x1 y1 src x2 y2 w h = (true, []) ∧
    run S (VDPixmapBlt_rect32 E dst x1 y1 src x2 y2 w h).2 m = m := by
  have hneg : ¬ ((clipRect32 dst x1 y1 src x2 y2 w h).w ≥ 0 ∧
      (clipRect32 dst x1 y1 src x2 y2 w h).h ≥ 0) := by
    rcases hout with ⟨ho, hno⟩ | hn
    · rw [clipRect32_eq dst x1 y1 src x2 y2 w h hno]
      have hx := clipRect_bounds_x dst x1 y1 src x2 y2 w h
      have hy := clipRect_bounds_y dst x1 y1 src x2 y2 w h
      omega
    · omega
  have hr : VDPixmapBlt_rect32 E dst x1 y1 src x2 y2 w h = (true, []) := by
    simp only [VDPixmapBlt_rect32]; rw [if_neg hneg]
  exact ⟨hneg, hr, by rw [hr]; rfl⟩

/-- Witness for the amended C6: source origin `x2 = src.w + 100` on a table that converts
everything; no subtraction overflows. -/
theorem blt_rect_outside_is_noop_witness :
    ClipNoOverflow (exPixmap 100 10 10 40 8) 0 0 (exPixmap 500 10 10 40 5) 110 0 4 4 ∧
    VDPixmapBlt_rect32 (exEnv fun _ _ => some 1) (exPixmap 100 10 10 40 8) 0 0
      (exPixmap 500 10 10 40 5) 110 0 4 4 = (true, []) :=
  ⟨by decide,
    (blt_rect_outside_is_noop (exEnv fun _ _ => some 1) exSem (exPixmap 100 10 10 40 8) 0 0
      (exPixmap 500 10 10 40 5) 110 0 4 4 exMem (Or.inl ⟨by decide, by decide⟩)).2.1⟩

/-! ## Direct Blit between different formats -/

theorem formatOutOfRange_iff (E : Env) (f : Int) (hf : -2 ^ 31 ≤ f ∧ f < 2 ^ 31) :
    formatOutOfRange E f = true ↔ f < 0 ∨ E.fmt.kPixFormat_Max_Standard ≤ f := by
  have hmax := E.fmt.maxFits
  simp only [formatOutOfRange, decide_eq_true_eq, ge_iff_le]
  rcases lt_or_le f 0 with hneg | hpos
  · have : f % 2 ^ 32 = f + 2 ^ 32 := by
      rw [← Int.add_emod_self]
      exact Int.emod_eq_of_lt (by omega) (by omega)
    rw [this]
    constructor
    · intro _; exact Or.inl hneg
    · intro _; omega
  · have : f % 2 ^ 32 = f := Int.emod_eq_of_lt hpos (by omega)
    rw [this]
    constructor
    · intro h; exact Or.inr h
    · rintro (h | h)
      · omega
      · exact h

/-- The body of Direct Blit once both ids are valid and different. -/
theorem bltDirect_diff_format (E : Env) (dst src : VDPixmap) (w h : Int)
    (hs : formatOutOfRange E src.format = false) (hd : formatOutOfRange E dst.format = false)
    (hne : src.format ≠ dst.format) :
    VDPixmapBltDirect E dst src w h =
      match E.VDPixmapGetBlitterTable src.format dst.format with
      | none => (false, [Event.tableRead src.format dst.format])
      | some pBlitter =>
        if (E.VDPixmapGetInfo src.format).auxbufs > 0 ∨
            (E.VDPixmapGetInfo dst.format).auxbufs > 0 then
          (true, [Event.tableRead src.format dst.format, Event.planar pBlitter dst src])
        else if isPalFormat E src.format = true then
          if dst.format = E.fmt.kPixFormat_XRGB8888 then
            (true, [Event.tableRead src.format dst.format,
              Event.paletted pBlitter dst.data dst.pitch src.data src.pitch w h src.palette])
          else
            (true, Event.tableRead src.format dst.format ::
              VDPixmapBltDirectPalettedConversion E dst src w h pBlitter)
        else
          (true, [Event.tableRead src.format dst.format,
            Event.chunky pBlitter dst.data dst.pitch src.data src.pitch w h]) := by
  rw [VDPixmapBltDirect]
  simp only [hs, hd, hne, if_false, Bool.false_eq_true]
  split <;> simp_all

theorem run_tableRead_cons (S : CellSem) (s d : Int) (es : List Event) (m : Mem) :
    run S (Event.tableRead s d :: es) m = run S es m := rfl

/-- C8. For format ids that are C `int`s, Direct Blit returns false exactly when the source id
is outside `[0, kPixFormat_Max_Standard)` (negative ids included), or the destination id is,
or both are valid, differ, and `table[src][dst]` is empty, and true in every other case.  When
it returns false it has invoked no cell and performed no copy, every table index it used is a
valid id, and memory is unchanged. -/
theorem bltDirect_false_iff (E : Env) (S : CellSem) (dst src : VDPixmap) (w h : Int) (m : Mem)
    (hsr : -2 ^ 31 ≤ src.format ∧ src.format < 2 ^ 31)
    (hdr : -2 ^ 31 ≤ dst.format ∧ dst.format < 2 ^ 31) :
    ((VDPixmapBltDirect E dst src w h).1 = false ↔
      (src.format < 0 ∨ E.fmt.kPixFormat_Max_Standard ≤ src.format) ∨
      (dst.format < 0 ∨ E.fmt.kPixFormat_Max_Standard ≤ dst.format) ∨
      ((0 ≤ src.format ∧ src.format < E.fmt.kPixFormat_Max_Standard) ∧
        (0 ≤ dst.format ∧ dst.format < E.fmt.kPixFormat_Max_Standard) ∧
        src.format ≠ dst.format ∧ E.VDPixmapGetBlitterTable src.format dst.format = none)) ∧
    ((VDPixmapBltDirect E dst src w h).1 ≠ false → (VDPixmapBltDirect E dst src w h).1 = true) ∧
    ((VDPixmapBltDirect E dst src w h).1 = false →
      (∀ e ∈ (VDPixmapBltDirect E dst src w h).2, e.isWrite = false) ∧
      (∀ s d, Event.tableRead s d ∈ (VDPixmapBltDirect E dst src w h).2 →
        (0 ≤ s ∧ s < E.fmt.kPixFormat_Max_Standard) ∧
        (0 ≤ d ∧ d < E.fmt.kPixFormat_Max_Standard)) ∧
      run S (VDPixmapBltDirect E dst src w h).2 m = m) := by
  have hso := formatOutOfRange_iff E src.format hsr
  have hdo := formatOutOfRange_iff E dst.format hdr
  refine ⟨?_, by simp, ?_⟩
  · by_cases h1 : formatOutOfRange E src.format = true
    · have : VDPixmapBltDirect E dst src w h = (false, []) := by
        rw [VDPixmapBltDirect]; simp [h1]
      simp only [this, true_iff]
      exact Or.inl (hso.1 h1)
    by_cases h2 : formatOutOfRange E dst.format = true
    · have : VDPixmapBltDirect E dst src w h = (false, []) := by
        rw [VDPixmapBltDirect]; simp [h1, h2]
      simp only [this, true_iff]
      exact Or.inr (Or.inl (hdo.1 h2))
    have hs : ¬ (src.format < 0 ∨ E.fmt.kPixFormat_Max_Standard ≤ src.format) :=
      fun hc => h1 (hso.2 hc)
    have hd : ¬ (dst.format < 0 ∨ E.fmt.kPixFormat_Max_Standard ≤ dst.format) :=
      fun hc => h2 (hdo.2 hc)
    simp only [Bool.not_eq_true] at h1 h2
    by_cases hne : src.format = dst.format
    · have hv : 0 ≤ src.format ∧ src.format < E.fmt.kPixFormat_Max_Standard := by omega
      rw [bltDirect_same_format E dst src w h hv hne.symm]
      simp [hs, hd, hne]
    · rw [bltDirect_diff_format E dst src w h h1 h2 hne]
      have hv : (0 ≤ src.format ∧ src.format < E.fmt.kPixFormat_Max_Standard) ∧
          (0 ≤ dst.format ∧ dst.format < E.fmt.kPixFormat_Max_Standard) := by omega
      cases hT : E.VDPixmapGetBlitterTable src.format dst.format with
      | none => simp [hs, hd, hne, hv]
      | some p =>
        simp only [hs, hd, hne, false_or, not_false_eq_true, true_and, and_false,
          iff_false, reduceCtorEq]
        split_ifs <;> simp
  · intro hfalse
    by_cases h1 : formatOutOfRange E src.format = true
    · have : VDPixmapBltDirect E dst src w h = (false, []) := by
        rw [VDPixmapBltDirect]; simp [h1]
      simp [this, run_nil]
    by_cases h2 : formatOutOfRange E dst.format = true
    · have : VDPixmapBltDirect E dst src w h = (false, []) := by
        rw [VDPixmapBltDirect]; simp [h1, h2]
      simp [this, run_nil]
    have hs : ¬ (src.format < 0 ∨ E.fmt.kPixFormat_Max_Standard ≤ src.format) :=
      fun hc => h1 (hso.2 hc)
    have hd : ¬ (dst.format < 0 ∨ E.fmt.kPixFormat_Max_Standard ≤ dst.format) :=
      fun hc => h2 (hdo.2 hc)
    simp only [Bool.not_eq_true] at h1 h2
    by_cases hne : src.format = dst.format
    · have hv : 0 ≤ src.format ∧ src.format < E.fmt.kPixFormat_Max_Standard := by omega
      rw [bltDirect_same_format E dst src w h hv hne.symm] at hfalse
      simp at hfalse
    · rw [bltDirect_diff_format E dst src w h h1 h2 hne] at hfalse ⊢
      cases hT : E.VDPixmapGetBlitterTable src.format dst.format with
      | none =>
        refine ⟨by simp [Event.isWrite], ?_, by simp [run_tableRead_cons, run_nil]⟩
        intro s d hmem
        simp only [List.mem_singleton, Event.tableRead.injEq] at hmem
        obtain ⟨rfl, rfl⟩ := hmem
        omega
      | some p =>
        rw [hT] at hfalse
        simp only at hfalse
        split_ifs at hfalse

/-- Witness for C8: a negative source id. -/
theorem bltDirect_false_iff_witness :
    (VDPixmapBltDirect (exEnv fun _ _ => some 1) (exPixmap 100 4 4 16 8)
      (exPixmap 500 4 4 16 (-1)) 4 4).1 = false :=
  ((bltDirect_false_iff (exEnv fun _ _ => some 1) exSem (exPixmap 100 4 4 16 8)
    (exPixmap 500 4 4 16 (-1)) 4 4 exMem (by decide) (by decide)).1).2 (Or.inl (Or.inl (by decide)))

/-- The palette conversion helper: the nested Direct Blit from the native palette (as a one-row
`XRGB8888` image) into `palbytes` (as a one-row image of the destination format), followed by
the paletted cell reading `palbytes`. -/
theorem paletted_conversion_eq (E : Env) (dst src : VDPixmap) (w h : Int) (pBlitter : Nat) :
    VDPixmapBltDirectPalettedConversion E dst src w h pBlitter =
      (VDPixmapBltDirect E
        { data := E.palbytes, palette := 0, w := palsizeOf E src.format, h := 1, pitch := 0,
          format := dst.format, data2 := 0, pitch2 := 0, data3 := 0, pitch3 := 0 }
        { data := src.palette, palette := 0, w := palsizeOf E src.format, h := 1, pitch := 0,
          format := E.fmt.kPixFormat_XRGB8888, data2 := 0, pitch2 := 0, data3 := 0,
          pitch3 := 0 }
        (palsizeOf E src.format) 1).2 ++
      [Event.paletted pBlitter dst.data dst.pitch src.data src.pitch w h E.palbytes] := by
  rw [VDPixmapBltDirectPalettedConversion]

/-- The dispatch of Direct Blit.  For two different valid formats with a populated cell
`table[src][dst] = p`, Direct
Blit returns true and invokes `p` once, under the calling convention chosen in this order:
planar, `p(dst, src)`, if the source or the destination format has an auxiliary plane (also
when the source is paletted); otherwise paletted if the source format is `Pal1`, `Pal2`, `Pal4`
or `Pal8`, with the source's own palette when the destination is `XRGB8888`, and otherwise
with the conversion buffer `palbytes` after the effects of the nested Direct Blit, whatever
that call returned; otherwise chunky, `p(dst.data, dst.pitch, src.data, src.pitch, w, h)`. -/
theorem bltDirect_dispatch (E : Env) (dst src : VDPixmap) (w h : Int) (p : Nat)
    (hs : 0 ≤ src.format ∧ src.format < E.fmt.kPixFormat_Max_Standard)
    (hd : 0 ≤ dst.format ∧ dst.format < E.fmt.kPixFormat_Max_Standard)
    (hne : src.format ≠ dst.format)
    (hcell : E.VDPixmapGetBlitterTable src.format dst.format = some p) :
    ((E.VDPixmapGetInfo src.format).auxbufs ≥ 1 ∨ (E.VDPixmapGetInfo dst.format).auxbufs ≥ 1 →
      VDPixmapBltDirect E dst src w h =
        (true, [Event.tableRead src.format dst.format, Event.planar p dst src])) ∧
    (¬ ((E.VDPixmapGetInfo src.format).auxbufs ≥ 1 ∨
        (E.VDPixmapGetInfo dst.format).auxbufs ≥ 1) →
      (src.format = E.fmt.kPixFormat_Pal1 ∨ src.format = E.fmt.kPixFormat_Pal2 ∨
        src.format = E.fmt.kPixFormat_Pal4 ∨ src.format = E.fmt.kPixFormat_Pal8) →
      dst.format = E.fmt.kPixFormat_XRGB8888 →
      VDPixmapBltDirect E dst src w h =
        (true, [Event.tableRead src.format dst.format,
          Event.paletted p dst.data dst.pitch src.data src.pitch w h src.palette])) ∧
    (¬ ((E.VDPixmapGetInfo src.format).auxbufs ≥ 1 ∨
        (E.VDPixmapGetInfo dst.format).auxbufs ≥ 1) →
      (src.format = E.fmt.kPixFormat_Pal1 ∨ src.format = E.fmt.kPixFormat_Pal2 ∨
        src.format = E.fmt.kPixFormat_Pal4 ∨ src.format = E.fmt.kPixFormat_Pal8) →
      dst.format ≠ E.fmt.kPixFormat_XRGB8888 →
      VDPixmapBltDirect E dst src w h =
        (true, Event.tableRead src.format dst.format ::
          ((VDPixmapBltDirect E
            { data := E.palbytes, palette := 0, w := palsizeOf E src.format, h := 1, pitch := 0,
              format := dst.format, data2 := 0, pitch2 := 0, data3 := 0, pitch3 := 0 }
            { data := src.palette, palette := 0, w := palsizeOf E src.format, h := 1,
              pitch := 0, format := E.fmt.kPixFormat_XRGB8888, data2 := 0, pitch2 := 0,
              data3 := 0, pitch3 := 0 }
            (palsizeOf E src.format) 1).2 ++
          [Event.paletted p dst.data dst.pitch src.data src.pitch w h E.palbytes]))) ∧
    (¬ ((E.VDPixmapGetInfo src.format).auxbufs ≥ 1 ∨
        (E.VDPixmapGetInfo dst.format).auxbufs ≥ 1) →
      ¬ (src.format = E.fmt.kPixFormat_Pal1 ∨ src.format = E.fmt.kPixFormat_Pal2 ∨
        src.format = E.fmt.kPixFormat_Pal4 ∨ src.format = E.fmt.kPixFormat_Pal8) →
      VDPixmapBltDirect E dst src w h =
        (true, [Event.tableRead src.format dst.format,
          Event.chunky p dst.data dst.pitch src.data src.pitch w h])) := by
  have hb := bltDirect_diff_format E dst src w h (formatOutOfRange_of_valid E _ hs)
    (formatOutOfRange_of_valid E _ hd) hne
  rw [hcell] at hb
  simp only at hb
  have hpal : isPalFormat E src.format = true ↔
      (src.format = E.fmt.kPixFormat_Pal1 ∨ src.format = E.fmt.kPixFormat_Pal2 ∨
        src.format = E.fmt.kPixFormat_Pal4 ∨ src.format = E.fmt.kPixFormat_Pal8) := by
    simp [isPalFormat, or_assoc]
  have hpl : ((E.VDPixmapGetInfo src.format).auxbufs > 0 ∨
      (E.VDPixmapGetInfo dst.format).auxbufs > 0) ↔
      ((E.VDPixmapGetInfo src.format).auxbufs ≥ 1 ∨
        (E.VDPixmapGetInfo dst.format).auxbufs ≥ 1) := by
    constructor <;> intro h <;> omega
  rw [hb]
  refine ⟨?_, ?_, ?_, ?_⟩
  · intro h1
    rw [if_pos (hpl.2 h1)]
  · intro h1 h2 h3
    rw [if_neg (fun hc => h1 (hpl.1 hc)), if_pos (hpal.2 h2), if_pos h3]
  · intro h1 h2 h3
    rw [if_neg (fun hc => h1 (hpl.1 hc)), if_pos (hpal.2 h2), if_neg h3,
      paletted_conversion_eq]
  · intro h1 h2
    rw [if_neg (fun hc => h1 (hpl.1 hc)), if_neg (fun hc => h2 (hpal.1 hc))]

/-- The dispatch at an example: `Pal8` (id 4) to a three-byte chunky format (id 7), every
cell populated with handle 5; the palette is converted by the `XRGB8888` row cell, then the
paletted cell runs. -/
theorem bltDirect_dispatch_witness :
    VDPixmapBltDirect (exEnv fun _ _ => some 5) (exPixmap 100 10 10 40 7)
      (exPixmap 500 10 10 40 4) 3 2 =
      (true, [Event.tableRead 4 7, Event.tableRead 8 7, Event.chunky 5 9000 0 7000 0 256 1,
        Event.paletted 5 100 40 500 40 3 2 9000]) := by
  have key := (bltDirect_dispatch (exEnv fun _ _ => some 5) (exPixmap 100 10 10 40 7)
    (exPixmap 500 10 10 40 4) 3 2 5 (by decide) (by decide) (by decide) rfl).2.2.1
    (by decide) (by decide) (by decide)
  rw [key]
  have hn := (bltDirect_dispatch (exEnv fun _ _ => some 5)
    { data := 9000, palette := 0, w := 256, h := 1, pitch := 0, format := 7, data2 := 0,
      pitch2 := 0, data3 := 0, pitch3 := 0 }
    { data := 7000, palette := 0, w := 256, h := 1, pitch := 0, format := 8, data2 := 0,
      pitch2 := 0, data3 := 0, pitch3 := 0 } 256 1 5 (by decide) (by decide) (by decide) rfl).2.2.2
    (by decide) (by decide)
  have hp : palsizeOf (exEnv fun _ _ => some 5) (exPixmap 500 10 10 40 4).format = 256 := by
    decide
  simp only [hp]
  simp only [exEnv, exFormats, exPixmap] at hn ⊢
  rw [hn]
  rfl

/-- C9 at a failing input: `table[Pal8][7]` is populated (cell 1), neither format has an
auxiliary plane, the destination is not `XRGB8888`, and `table[XRGB8888][7]` is empty.
Direct Blit invokes cell 1 once as a paletted cell and returns true, but the palette it passes
is not a converted palette: the only effects before the cell call are two table reads, which
leave memory, and with it the buffer `palbytes`, as it was for every cell behaviour. -/
theorem bltDirect_passes_unconverted_palette :
    (exEnv exTableNoPalConv).VDPixmapGetBlitterTable 4 7 = some 1 ∧
    (exEnv exTableNoPalConv).VDPixmapGetBlitterTable 8 7 = none ∧
    VDPixmapBltDirect (exEnv exTableNoPalConv) (exPixmap 100 5 4 40 7) (exPixmap 500 5 4 40 4)
        5 4 =
      (true, [Event.tableRead 4 7, Event.tableRead 8 7,
        Event.paletted 1 100 40 500 40 5 4 9000]) ∧
    (∀ (S : CellSem) (m : Mem), run S [Event.tableRead 4 7, Event.tableRead 8 7] m = m) := by
  refine ⟨rfl, rfl, ?_, fun S m => rfl⟩
  have hn := bltDirect_diff_format (exEnv exTableNoPalConv)
    { data := 9000, palette := 0, w := 256, h := 1, pitch := 0, format := 7, data2 := 0,
      pitch2 := 0, data3 := 0, pitch3 := 0 }
    { data := 7000, palette := 0, w := 256, h := 1, pitch := 0, format := 8, data2 := 0,
      pitch2 := 0, data3 := 0, pitch3 := 0 } 256 1 (by decide) (by decide) (by decide)
  have hn2 : VDPixmapBltDirect (exEnv exTableNoPalConv)
      { data := 9000, palette := 0, w := 256, h := 1, pitch := 0, format := 7, data2 := 0,
        pitch2 := 0, data3 := 0, pitch3 := 0 }
      { data := 7000, palette := 0, w := 256, h := 1, pitch := 0, format := 8, data2 := 0,
        pitch2 := 0, data3 := 0, pitch3 := 0 } 256 1 = (false, [Event.tableRead 8 7]) := by
    rw [hn]; rfl
  have ho := bltDirect_diff_format (exEnv exTableNoPalConv) (exPixmap 100 5 4 40 7)
    (exPixmap 500 5 4 40 4) 5 4 (by decide) (by decide) (by decide)
  have ht : (exEnv exTableNoPalConv).VDPixmapGetBlitterTable (exPixmap 500 5 4 40 4).format
      (exPixmap 100 5 4 40 7).format = some 1 := rfl
  rw [ht] at ho
  simp only at ho
  rw [if_neg (by decide), if_pos (by decide), if_neg (by decide), paletted_conversion_eq] at ho
  have hp : palsizeOf (exEnv exTableNoPalConv) (exPixmap 500 5 4 40 4).format = 256 := by
    decide
  rw [ho, hp]
  simp only [exEnv, exFormats, exPixmap] at hn2 ⊢
  rw [hn2]
  rfl

/-! ## Fast Blit and the capability probe -/

theorem rowLoop_succ (pb1 pb2 : Nat) (tempBuf w srcpitch dstpitch : Int) (n : Nat)
    (srcp dstp : Int) :
    rowLoop pb1 pb2 tempBuf w srcpitch dstpitch (n + 1) srcp dstp =
      Event.chunky pb1 tempBuf 0 srcp 0 w 1 :: Event.chunky pb2 dstp 0 tempBuf 0 w 1 ::
        rowLoop pb1 pb2 tempBuf w srcpitch dstpitch n (srcp + srcpitch) (dstp + dstpitch) := rfl

/-- Every iteration of the row loop calls two cells. -/
theorem rowLoop_cellCalls (pb1 pb2 : Nat) (tempBuf w srcpitch dstpitch : Int) (n : Nat)
    (srcp dstp : Int) :
    ((rowLoop pb1 pb2 tempBuf w srcpitch dstpitch n srcp dstp).filter Event.isCellCall).length
      = 2 * n := by
  induction n generalizing srcp dstp with
  | zero => rfl
  | succ k ih =>
    simp only [rowLoop, List.filter_cons, Event.isCellCall, if_true, List.length_cons, ih]
    omega

/-- C2 at a failing input: with the cells `Pal8 → XRGB8888` and `XRGB8888 → G` populated and
`Pal8 → G` empty, for a planar format `G` (two auxiliary planes), the capability probe answers
true, yet Fast Blit from a `Pal8` buffer to a `G` buffer returns false for every width and
height, after the single failed read of `table[Pal8][G]`. -/
theorem isBltPossible_true_but_bltFast_fails :
    VDPixmapIsBltPossible (exEnv exTableTwoHop) 13 4 = true ∧
    ∀ (dst src : VDPixmap) (w h : Int), dst.format = 13 → src.format = 4 →
      VDPixmapBltFast (exEnv exTableTwoHop) dst src w h = (false, [Event.tableRead 4 13]) := by
  refine ⟨by decide, ?_⟩
  intro dst src w h hd hs
  have hb := bltDirect_diff_format (exEnv exTableTwoHop) dst src w h
    (by rw [hs]; decide) (by rw [hd]; decide) (by rw [hs, hd]; decide)
  have ht : (exEnv exTableTwoHop).VDPixmapGetBlitterTable src.format dst.format = none := by
    rw [hs, hd]; decide
  rw [ht] at hb
  simp only at hb
  have hi : ((exEnv exTableTwoHop).VDPixmapGetInfo dst.format).auxbufs > 0 := by
    rw [hd]; decide
  simp only [VDPixmapBltFast, hb, hs, hd, Bool.false_eq_true, if_false]
  rw [hd] at hi
  simp only [hi, or_true, if_true]

/-- C7 at two failing inputs, both between a chunky source of format 5 and a chunky
destination of format 8 or 7, 10 by 10 each.  With an empty table, the request with
`x2 = src.w` (clipped width 0) reaches Fast Blit and returns false.  With the two-stage route
through `XRGB8888` and a requested height of 0 (clipped height 0), Fast Blit enters its
`do ... while(--h)` loop with `h = 0`: the call returns true after `2 * 2^32` cell calls, the
first of them writing the destination row at `dst.data`. -/
theorem blt_rect_zero_extent_not_noop :
    (clipRect (exPixmap 100 10 10 40 8) 0 0 (exPixmap 500 10 10 40 5) 10 0 5 5).w = 0 ∧
    (VDPixmapBlt_rect (exEnv fun _ _ => none) (exPixmap 100 10 10 40 8) 0 0
      (exPixmap 500 10 10 40 5) 10 0 5 5).1 = false ∧
    (clipRect (exPixmap 100 10 10 40 7) 0 0 (exPixmap 500 10 10 40 5) 0 0 5 0).h = 0 ∧
    (VDPixmapBlt_rect (exEnv exTableViaRgb) (exPixmap 100 10 10 40 7) 0 0
      (exPixmap 500 10 10 40 5) 0 0 5 0).1 = true ∧
    (((VDPixmapBlt_rect (exEnv exTableViaRgb) (exPixmap 100 10 10 40 7) 0 0
      (exPixmap 500 10 10 40 5) 0 0 5 0).2).filter Event.isCellCall).length = 2 * 2 ^ 32 ∧
    Event.chunky 5 100 0 8000 0 5 1 ∈
      (VDPixmapBlt_rect (exEnv exTableViaRgb) (exPixmap 100 10 10 40 7) 0 0
        (exPixmap 500 10 10 40 5) 0 0 5 0).2 := by
  have hc1 : clipRect (exPixmap 100 10 10 40 8) 0 0 (exPixmap 500 10 10 40 5) 10 0 5 5
      = { x1 := 0, y1 := 0, x2 := 10, y2 := 0, w := 0, h := 5 } := by decide
  have hc2 : clipRect (exPixmap 100 10 10 40 7) 0 0 (exPixmap 500 10 10 40 5) 0 0 5 0
      = { x1 := 0, y1 := 0, x2 := 0, y2 := 0, w := 5, h := 0 } := by decide
  have hd1 := bltDirect_diff_format (exEnv fun _ _ => none)
    (exOffset (exPixmap 100 10 10 40 8) 0 0) (exOffset (exPixmap 500 10 10 40 5) 10 0) 0 5
    (by decide) (by decide) (by decide)
  have hd2 := bltDirect_diff_format (exEnv exTableViaRgb)
    (exOffset (exPixmap 100 10 10 40 7) 0 0) (exOffset (exPixmap 500 10 10 40 5) 0 0) 5 0
    (by decide) (by decide) (by decide)
  have hn : doWhileCount 0 = 4294967295 + 1 := by decide
  have hfast2 : VDPixmapBlt_rect (exEnv exTableViaRgb) (exPixmap 100 10 10 40 7) 0 0
      (exPixmap 500 10 10 40 5) 0 0 5 0 =
      (true, [Event.tableRead 5 7, Event.tableRead 5 12, Event.tableRead 12 7,
        Event.tableRead 5 8, Event.tableRead 8 7] ++
        rowLoop 5 5 8000 5 40 40 (4294967295 + 1) 500 100) := by
    simp only [VDPixmapBlt_rect, hc2]
    simp only [exEnv, VDPixmapBltFast] at hd2 ⊢
    rw [hd2, hn]
    rfl
  refine ⟨by rw [hc1], ?_, by rw [hc2], by rw [hfast2], ?_, ?_⟩
  · simp only [VDPixmapBlt_rect, hc1]
    simp only [exEnv, VDPixmapBltFast] at hd1 ⊢
    rw [hd1]
    rfl
  · rw [hfast2]
    simp only [List.filter_append, List.length_append, rowLoop_cellCalls]
    rfl
  · rw [hfast2, rowLoop_succ]
    simp

/-! ## The palette conversion path -/

/-- Rows whose pitch is at least their length do not overlap. -/
theorem rows_disjoint (dp : Int) (n : Nat) (y y' : Nat) (off off' : Int)
    (h0 : 0 ≤ off) (h1 : off < n) (h0' : 0 ≤ off') (h1' : off' < n)
    (heq : (y : Int) * dp + off = (y' : Int) * dp + off') (hn : (n : Int) ≤ |dp|) : y = y' := by
  by_contra hne
  have hd : ((y : Int) - y') * dp = off' - off := by linarith
  have habs : |((y : Int) - y') * dp| = |(y : Int) - y'| * |dp| := abs_mul _ _
  have h1le : 1 ≤ |(y : Int) - y'| :=
    Int.one_le_abs (sub_ne_zero.2 (by exact_mod_cast hne))
  have hlt : |off' - off| < (n : Int) := abs_lt.2 ⟨by omega, by omega⟩
  rw [hd] at habs
  nlinarith [abs_nonneg dp]

/-- The byte a routine leaves at offset `off` of row `y` of its destination rectangle. -/
theorem writeRect_at (dst dp : Int) (n rows : Nat) (val : Nat → Nat → Nat) (m : Mem) (a : Int)
    (y off : Nat) (hy : y < rows) (hoff : off < n) (ha : a = dst + (y : Int) * dp + (off : Int))
    (hrows : (n : Int) ≤ |dp| ∨ rows ≤ 1) :
    writeRect dst dp n rows val m a = val y off := by
  unfold writeRect
  cases hfind : (List.range rows).find? fun (y : Nat) =>
      decide (dst + (y : Int) * dp ≤ a ∧ a < dst + (y : Int) * dp + (n : Int)) with
  | none =>
    have := List.find?_eq_none.1 hfind y (List.mem_range.2 hy)
    simp only [decide_eq_true_eq] at this
    exact absurd ⟨by omega, by omega⟩ this
  | some y' =>
    have hp := List.find?_some hfind
    have hy' : y' < rows := List.mem_range.1 (List.mem_of_find?_eq_some hfind)
    simp only [decide_eq_true_eq] at hp
    have hyy : y = y' := by
      rcases hrows with hn | h1
      · exact rows_disjoint dp n y y' off (a - (dst + (y' : Int) * dp)) (by omega) (by omega)
          (by omega) (by omega) (by omega) hn
      · omega
    subst hyy
    simp only
    congr 1
    omega

/-- A routine leaves every byte outside its destination rows alone. -/
theorem writeRect_frame (dst dp : Int) (n rows : Nat) (val : Nat → Nat → Nat) (m : Mem)
    (a : Int)
    (ha : ∀ y : Nat, y < rows → ¬ (dst + (y : Int) * dp ≤ a ∧ a < dst + (y : Int) * dp + (n : Int))) :
    writeRect dst dp n rows val m a = m a := by
  unfold writeRect
  cases hfind : (List.range rows).find? fun (y : Nat) =>
      decide (dst + (y : Int) * dp ≤ a ∧ a < dst + (y : Int) * dp + (n : Int)) with
  | none => rfl
  | some y' =>
    have hp := List.find?_some hfind
    have hy' : y' < rows := List.mem_range.1 (List.mem_of_find?_eq_some hfind)
    simp only [decide_eq_true_eq] at hp
    exact absurd hp (ha y' hy')

theorem palIndex_lt (bits : Nat) (m : Mem) (row : Int) (x : Nat) :
    palIndex bits m row x < 2 ^ bits :=
  Nat.mod_lt _ (by positivity)

/-- The `switch` of the palette conversion picks `2 ^ bitdepth` entries. -/
theorem palsizeOf_eq (E : Env) (f : Int) (bits : Nat) (hb : palBits E f = some bits) :
    palsizeOf E f = 2 ^ bits ∧ isPalFormat E f = true ∧
      (bits = 1 ∨ bits = 2 ∨ bits = 4 ∨ bits = 8) := by
  unfold palBits at hb
  unfold palsizeOf isPalFormat
  split_ifs at hb with h1 h2 h3 h4 <;> simp_all <;> subst hb <;> norm_num

theorem isPalFormat_xrgb (E : Env) : isPalFormat E E.fmt.kPixFormat_XRGB8888 = false := by
  have h := bltDepth_xrgb E
  unfold bltDepth at h
  split_ifs at h with hp
  simpa using hp

theorem valid_of_palBits (E : Env) (f : Int) (bits : Nat) (hb : palBits E f = some bits) :
    (0 ≤ f ∧ f < E.fmt.kPixFormat_Max_Standard) ∧ f ≠ E.fmt.kPixFormat_XRGB8888 := by
  have hr := E.fmt.inRange
  have hx := isPalFormat_xrgb E
  have hpal := (palsizeOf_eq E f bits hb).2.1
  refine ⟨?_, fun hc => by rw [hc, hx] at hpal; cases hpal⟩
  unfold palBits at hb
  split_ifs at hb with h1 h2 h3 h4
  · exact h1 ▸ hr _ (by simp)
  · exact h2 ▸ hr _ (by simp)
  · exact h3 ▸ hr _ (by simp)
  · exact h4 ▸ hr _ (by simp)

theorem mul_add_div_mod (k i j : Nat) (hj : j < k) :
    (k * i + j) / k = i ∧ (k * i + j) % k = j := by
  have hk : 0 < k := by omega
  constructor
  · rw [Nat.mul_add_div hk, Nat.div_eq_of_lt hj, Nat.add_zero]
  · rw [Nat.mul_add_mod, Nat.mod_eq_of_lt hj]

/-- The converted palette: after the row cell has run over the first `n` native entries,
entry `i` of the buffer at `pb` is the conversion of native entry `i`. -/
theorem convertRect_palette (conv : Nat → Nat → Nat → Nat → Nat → Nat) (k n : Nat)
    (pb pal : Int) (m : Mem) :
    (∀ i j : Nat, i < n → j < k →
      convertRect conv k pb 0 pal 0 (n : Int) 1 m (pb + (k : Int) * (i : Int) + (j : Int)) =
        conv (m (pal + 4 * (i : Int))) (m (pal + 4 * (i : Int) + 1))
          (m (pal + 4 * (i : Int) + 2)) (m (pal + 4 * (i : Int) + 3)) j) ∧
    (∀ a : Int, (a < pb ∨ pb + (k : Int) * (n : Int) ≤ a) →
      convertRect conv k pb 0 pal 0 (n : Int) 1 m a = m a) := by
  constructor
  · intro i j hi hj
    have hoff : k * i + j < k * (n : Int).toNat := by
      simp only [Int.toNat_natCast]
      calc k * i + j < k * i + k := by omega
        _ = k * (i + 1) := by ring
        _ ≤ k * n := Nat.mul_le_mul_left _ hi
    have := writeRect_at pb 0 (k * (n : Int).toNat) (1 : Int).toNat
      (fun y off =>
        let px := pal + (y : Int) * 0 + 4 * ((off / k : Nat) : Int)
        conv (m px) (m (px + 1)) (m (px + 2)) (m (px + 3)) (off % k)) m
      (pb + (k : Int) * (i : Int) + (j : Int)) 0 (k * i + j) (by decide) hoff
      (by push_cast; ring) (Or.inr (by decide))
    unfold convertRect
    rw [this]
    simp only [(mul_add_div_mod k i j hj).1, (mul_add_div_mod k i j hj).2]
    simp
  · intro a ha
    unfold convertRect
    apply writeRect_frame
    intro y hy
    have hy0 : y = 0 := by
      have : (1 : Int).toNat = 1 := by decide
      omega
    subst hy0
    simp only [Int.toNat_natCast]
    push_cast
    omega

theorem rect_offset_lt (k x j : Nat) (y : Nat) (w h : Int) (hy : (y : Int) < h)
    (hx : (x : Int) < w) (hj : j < k) : y < h.toNat ∧ k * x + j < k * w.toNat := by
  have hx' : x < w.toNat := by omega
  refine ⟨by omega, ?_⟩
  calc k * x + j < k * x + k := by omega
    _ = k * (x + 1) := by ring
    _ ≤ k * w.toNat := Nat.mul_le_mul_left _ hx'

theorem rect_pitch_cast (k : Nat) (w dp : Int) (hw : 0 ≤ w) (hp : (k : Int) * w ≤ |dp|) :
    ((k * w.toNat : Nat) : Int) ≤ |dp| := by
  push_cast
  rw [Int.toNat_of_nonneg hw]
  exact hp

/-- An index-lookup cell leaves in byte `j` of pixel `(x, y)` byte `j` of the palette entry
selected by the pixel's index. -/
theorem lookupRect_at (bits k : Nat) (dst dp src sp w h pal : Int) (m : Mem) (y x j : Nat)
    (hw : 0 ≤ w) (hy : (y : Int) < h) (hx : (x : Int) < w) (hj : j < k)
    (hp : (k : Int) * w ≤ |dp|) :
    lookupRect bits k dst dp src sp w h pal m
        (dst + (y : Int) * dp + (k : Int) * (x : Int) + (j : Int)) =
      m (pal + (k : Int) * (palIndex bits m (src + (y : Int) * sp) x : Int) + (j : Int)) := by
  obtain ⟨hy', hoff⟩ := rect_offset_lt k x j y w h hy hx hj
  unfold lookupRect
  rw [writeRect_at dst dp (k * w.toNat) h.toNat _ m _ y (k * x + j) hy' hoff
    (by push_cast; ring) (Or.inl (rect_pitch_cast k w dp hw hp))]
  simp only [(mul_add_div_mod k x j hj).1, (mul_add_div_mod k x j hj).2]

/-- A pixelwise conversion cell leaves in byte `j` of pixel `(x, y)` byte `j` of the conversion
of source pixel `(x, y)`. -/
theorem convertRect_at (conv : Nat → Nat → Nat → Nat → Nat → Nat) (k : Nat)
    (dst dp src sp w h : Int) (m : Mem) (y x j : Nat)
    (hw : 0 ≤ w) (hy : (y : Int) < h) (hx : (x : Int) < w) (hj : j < k)
    (hp : (k : Int) * w ≤ |dp|) :
    convertRect conv k dst dp src sp w h m
        (dst + (y : Int) * dp + (k : Int) * (x : Int) + (j : Int)) =
      conv (m (src + (y : Int) * sp + 4 * (x : Int)))
        (m (src + (y : Int) * sp + 4 * (x : Int) + 1))
        (m (src + (y : Int) * sp + 4 * (x : Int) + 2))
        (m (src + (y : Int) * sp + 4 * (x : Int) + 3)) j := by
  obtain ⟨hy', hoff⟩ := rect_offset_lt k x j y w h hy hx hj
  unfold convertRect
  rw [writeRect_at dst dp (k * w.toNat) h.toNat _ m _ y (k * x + j) hy' hoff
    (by push_cast; ring) (Or.inl (rect_pitch_cast k w dp hw hp))]
  simp only [(mul_add_div_mod k x j hj).1, (mul_add_div_mod k x j hj).2]

/-- The effects of Direct Blit on the palette conversion path. -/
theorem bltDirect_palette_path (E : Env) (dst src : VDPixmap) (w h : Int) (bits p c : Nat)
    (hbits : palBits E src.format = some bits)
    (hd : 0 ≤ dst.format ∧ dst.format < E.fmt.kPixFormat_Max_Standard)
    (hdx : dst.format ≠ E.fmt.kPixFormat_XRGB8888) (hds : dst.format ≠ src.format)
    (hdinfo : (E.VDPixmapGetInfo dst.format).auxbufs ≤ 0)
    (hsinfo : (E.VDPixmapGetInfo src.format).auxbufs ≤ 0)
    (hxinfo : (E.VDPixmapGetInfo E.fmt.kPixFormat_XRGB8888).auxbufs ≤ 0)
    (hp : E.VDPixmapGetBlitterTable src.format dst.format = some p)
    (hc : E.VDPixmapGetBlitterTable E.fmt.kPixFormat_XRGB8888 dst.format = some c) :
    VDPixmapBltDirect E dst src w h =
      (true, [Event.tableRead src.format dst.format,
        Event.tableRead E.fmt.kPixFormat_XRGB8888 dst.format,
        Event.chunky c E.palbytes 0 src.palette 0 (2 ^ bits) 1,
        Event.paletted p dst.data dst.pitch src.data src.pitch w h E.palbytes]) := by
  obtain ⟨hsv, hsx⟩ := valid_of_palBits E src.format bits hbits
  obtain ⟨hsize, hpal, -⟩ := palsizeOf_eq E src.format bits hbits
  have hxv : 0 ≤ E.fmt.kPixFormat_XRGB8888 ∧
      E.fmt.kPixFormat_XRGB8888 < E.fmt.kPixFormat_Max_Standard := E.fmt.inRange _ (by simp)
  have houter := bltDirect_diff_format E dst src w h (formatOutOfRange_of_valid E _ hsv)
    (formatOutOfRange_of_valid E _ hd) (Ne.symm hds)
  rw [hp] at houter
  simp only at houter
  rw [if_neg (by omega), if_pos hpal, if_neg hdx, paletted_conversion_eq] at houter
  have hnested := bltDirect_diff_format E
    { data := E.palbytes, palette := 0, w := palsizeOf E src.format, h := 1, pitch := 0,
      format := dst.format, data2 := 0, pitch2 := 0, data3 := 0, pitch3 := 0 }
    { data := src.palette, palette := 0, w := palsizeOf E src.format, h := 1, pitch := 0,
      format := E.fmt.kPixFormat_XRGB8888, data2 := 0, pitch2 := 0, data3 := 0, pitch3 := 0 }
    (palsizeOf E src.format) 1 (formatOutOfRange_of_valid E _ hxv)
    (formatOutOfRange_of_valid E _ hd) (Ne.symm hdx)
  simp only [hc] at hnested
  rw [if_neg (by omega), if_neg (by simp [isPalFormat_xrgb])] at hnested
  rw [houter, hnested, hsize]
  rfl

/-- C10, as stated, fails where the converted palette does not fit the conversion buffer:
for a `Pal8` source and a destination of four bytes per pixel (cells that look up and convert
four-byte entries), the conversion of the 256 palette entries takes `4 * 256 = 1024` bytes,
more than the `256 * 3` bytes of `palbytes`; the chunky cell that Direct Blit runs on
`palbytes` writes the byte at offset 1023, which lies behind the end of the array. -/
theorem palette_path_overruns_palbytes_counterexample :
    palBits (exEnv exTablePal) (exPixmap 500 3 2 40 4).format = some 8 ∧
    VDPixmapBltDirect (exEnv exTablePal) (exPixmap 100 3 2 40 7) (exPixmap 500 3 2 40 4) 3 2 =
      (true, [Event.tableRead 4 7, Event.tableRead 8 7, Event.chunky 2 9000 0 7000 0 256 1,
        Event.paletted 1 100 40 500 40 3 2 9000]) ∧
    ¬ ((4 : Int) * 2 ^ 8 ≤ palbytesSize) ∧
    (exEnv exTablePal).palbytes + palbytesSize ≤ 9000 + 1023 ∧
    run exSemPal4 [Event.chunky 2 9000 0 7000 0 256 1] exMem (9000 + 1023) ≠
      exMem (9000 + 1023) := by
  refine ⟨by decide, ?_, by decide, by decide, by decide⟩
  exact bltDirect_palette_path (exEnv exTablePal) (exPixmap 100 3 2 40 7)
    (exPixmap 500 3 2 40 4) 3 2 8 1 2 (by decide) (by decide) (by decide) (by decide)
    (by decide) (by decide) (by decide) rfl rfl

/-- C10, amended. For a paletted source of `bits` bits per pixel and a non-planar destination
format other than `XRGB8888` with populated cells `table[src][dst] = p` and
`table[XRGB8888][dst] = c`, Direct Blit reads the two cells, runs `c` as a chunky cell over one
row of exactly `2 ^ bits` native palette entries into `palbytes`, and then runs `p` as a
paletted cell with `palbytes` as its palette.  The converted palette of `2 ^ bits` entries of
`k` bytes fits the `256 * 3` bytes of `palbytes` (`k * 2 ^ bits ≤ palbytesSize`), and the
conversion writes no byte outside that array.  When `p` is an index lookup over `k`-byte
entries, `c` converts each pixel independently, and the expansion cell
`table[src][XRGB8888] = pX` is an index lookup over four-byte entries, every byte of every
destination pixel equals the one obtained by first blitting the source into an `XRGB8888`
buffer `tmp` and then blitting `tmp` to the destination (`expandThenConvert`).  In the
registry the paletted source format and `XRGB8888` have no auxiliary plane; rows of `dst` and
of `tmp` do not overlap, and `palbytes` does not overlap the source's index bytes. -/
theorem palette_path_matches_truecolor_route (E : Env) (S : CellSem) (dst tmp src : VDPixmap)
    (w h : Int) (m : Mem) (bits k p c pX : Nat) (conv : Nat → Nat → Nat → Nat → Nat → Nat)
    (hbits : palBits E src.format = some bits)
    (hd : 0 ≤ dst.format ∧ dst.format < E.fmt.kPixFormat_Max_Standard)
    (hdx : dst.format ≠ E.fmt.kPixFormat_XRGB8888) (hds : dst.format ≠ src.format)
    (hdinfo : (E.VDPixmapGetInfo dst.format).auxbufs ≤ 0)
    (hsinfo : (E.VDPixmapGetInfo src.format).auxbufs ≤ 0)
    (hxinfo : (E.VDPixmapGetInfo E.fmt.kPixFormat_XRGB8888).auxbufs ≤ 0)
    (htmp : tmp.format = E.fmt.kPixFormat_XRGB8888)
    (hp : E.VDPixmapGetBlitterTable src.format dst.format = some p)
    (hc : E.VDPixmapGetBlitterTable E.fmt.kPixFormat_XRGB8888 dst.format = some c)
    (hpX : E.VDPixmapGetBlitterTable src.format E.fmt.kPixFormat_XRGB8888 = some pX)
    (hSp : S.paletted p = lookupRect bits k) (hSpX : S.paletted pX = lookupRect bits 4)
    (hSc : S.chunky c = convertRect conv k)
    (hfit : (k : Int) * 2 ^ bits ≤ palbytesSize)
    (hw : 0 ≤ w) (hh : 0 ≤ h)
    (hdpitch : (k : Int) * w ≤ |dst.pitch|) (htpitch : 4 * w ≤ |tmp.pitch|)
    (hpalsep : ∀ y x : Nat, (y : Int) < h → (x : Int) < w →
      src.data + (y : Int) * src.pitch + ((x * bits / 8 : Nat) : Int) < E.palbytes ∨
      E.palbytes + (k : Int) * 2 ^ bits ≤
        src.data + (y : Int) * src.pitch + ((x * bits / 8 : Nat) : Int)) :
    VDPixmapBltDirect E dst src w h =
      (true, [Event.tableRead src.format dst.format,
        Event.tableRead E.fmt.kPixFormat_XRGB8888 dst.format,
        Event.chunky c E.palbytes 0 src.palette 0 (2 ^ bits) 1,
        Event.paletted p dst.data dst.pitch src.data src.pitch w h E.palbytes]) ∧
    (bits = 1 ∨ bits = 2 ∨ bits = 4 ∨ bits = 8) ∧
    (∀ a : Int, a < E.palbytes ∨ E.palbytes + palbytesSize ≤ a →
      run S [Event.chunky c E.palbytes 0 src.palette 0 (2 ^ bits) 1] m a = m a) ∧
    (∀ y x j : Nat, (y : Int) < h → (x : Int) < w → j < k →
      run S (VDPixmapBltDirect E dst src w h).2 m
          (dst.data + (y : Int) * dst.pitch + (k : Int) * (x : Int) + (j : Int)) =
        run S (expandThenConvert E dst tmp src w h) m
          (dst.data + (y : Int) * dst.pitch + (k : Int) * (x : Int) + (j : Int))) := by
  obtain ⟨hsv, hsx⟩ := valid_of_palBits E src.format bits hbits
  obtain ⟨hsize, hpal, hbv⟩ := palsizeOf_eq E src.format bits hbits
  have hxv : 0 ≤ E.fmt.kPixFormat_XRGB8888 ∧
      E.fmt.kPixFormat_XRGB8888 < E.fmt.kPixFormat_Max_Standard := E.fmt.inRange _ (by simp)
  have hcode := bltDirect_palette_path E dst src w h bits p c hbits hd hdx hds hdinfo hsinfo
    hxinfo hp hc
  -- the two Direct Blits of the two-step route
  have hexp : VDPixmapBltDirect E tmp src w h =
      (true, [Event.tableRead src.format E.fmt.kPixFormat_XRGB8888,
        Event.paletted pX tmp.data tmp.pitch src.data src.pitch w h src.palette]) := by
    have := bltDirect_diff_format E tmp src w h (formatOutOfRange_of_valid E _ hsv)
      (by rw [htmp]; exact formatOutOfRange_of_valid E _ hxv) (by rw [htmp]; exact hsx)
    rw [htmp, hpX] at this
    simp only at this
    rw [if_neg (by omega), if_pos hpal, if_pos trivial] at this
    exact this
  have hcnv : VDPixmapBltDirect E dst tmp w h =
      (true, [Event.tableRead E.fmt.kPixFormat_XRGB8888 dst.format,
        Event.chunky c dst.data dst.pitch tmp.data tmp.pitch w h]) := by
    have := bltDirect_diff_format E dst tmp w h
      (by rw [htmp]; exact formatOutOfRange_of_valid E _ hxv)
      (formatOutOfRange_of_valid E _ hd) (by rw [htmp]; exact Ne.symm hdx)
    rw [htmp, hc] at this
    simp only at this
    rw [if_neg (by omega), if_neg (by simp [isPalFormat_xrgb])] at this
    exact this
  have hpow : ((2 : Int) ^ bits) = ((2 ^ bits : Nat) : Int) := by push_cast; rfl
  obtain ⟨hA1, hA2⟩ := convertRect_palette conv k (2 ^ bits) E.palbytes src.palette m
  rw [← hpow] at hA1 hA2
  refine ⟨hcode, hbv, ?_, ?_⟩
  · intro a ha
    have hrun0 : run S [Event.chunky c E.palbytes 0 src.palette 0 (2 ^ bits) 1] m =
        convertRect conv k E.palbytes 0 src.palette 0 (2 ^ bits) 1 m := by
      simp only [run, List.foldl_cons, List.foldl_nil, Event.exec, hSc]
    rw [hrun0]
    exact hA2 a (by omega)
  intro y x j hy hx hj
  have hrun1 : run S (VDPixmapBltDirect E dst src w h).2 m =
      lookupRect bits k dst.data dst.pitch src.data src.pitch w h E.palbytes
        (convertRect conv k E.palbytes 0 src.palette 0 (2 ^ bits) 1 m) := by
    rw [hcode]
    simp only [run, List.foldl_cons, List.foldl_nil, Event.exec, id, hSp, hSc]
  have hrun2 : run S (expandThenConvert E dst tmp src w h) m =
      convertRect conv k dst.data dst.pitch tmp.data tmp.pitch w h
        (lookupRect bits 4 tmp.data tmp.pitch src.data src.pitch w h src.palette m) := by
    simp only [expandThenConvert, hexp, hcnv]
    simp only [run, List.cons_append, List.nil_append, List.foldl_cons, List.foldl_nil,
      Event.exec, id, hSpX, hSc]
  rw [hrun1, hrun2]
  -- the code path
  rw [lookupRect_at bits k dst.data dst.pitch src.data src.pitch w h E.palbytes _ y x j hw hy
    hx hj hdpitch]
  have hidx : palIndex bits (convertRect conv k E.palbytes 0 src.palette 0 (2 ^ bits) 1 m)
      (src.data + (y : Int) * src.pitch) x = palIndex bits m (src.data + (y : Int) * src.pitch) x := by
    unfold palIndex
    rw [hA2 _ (hpalsep y x hy hx)]
  rw [hidx, hA1 _ j (palIndex_lt bits m _ x) hj]
  -- the two-step route
  rw [convertRect_at conv k dst.data dst.pitch tmp.data tmp.pitch w h _ y x j hw hy hx hj
    hdpitch]
  have hB : ∀ t : Nat, t < 4 →
      lookupRect bits 4 tmp.data tmp.pitch src.data src.pitch w h src.palette m
          (tmp.data + (y : Int) * tmp.pitch + 4 * (x : Int) + (t : Int)) =
        m (src.palette + 4 * (palIndex bits m (src.data + (y : Int) * src.pitch) x : Int)
          + (t : Int)) := by
    intro t ht
    exact lookupRect_at bits 4 tmp.data tmp.pitch src.data src.pitch w h src.palette m y x t hw
      hy hx ht (by simpa using htpitch)
  have hB0 := hB 0 (by decide)
  have hB1 := hB 1 (by decide)
  have hB2 := hB 2 (by decide)
  have hB3 := hB 3 (by decide)
  simp only [Nat.cast_zero, add_zero, Nat.cast_one, Nat.cast_ofNat] at hB0 hB1 hB2 hB3
  rw [hB0, hB1, hB2, hB3]

/-- Witness for the amended C10: a 3 by 2 `Pal8` source at 500, a three-byte destination at 100, the
`XRGB8888` buffer at 3000; all 256 palette entries are converted, and byte 1 of pixel `(2, 1)`
agrees with the two-step route. -/
theorem palette_path_matches_truecolor_route_witness :
    VDPixmapBltDirect (exEnv exTablePal) (exPixmap 100 3 2 40 7) (exPixmap 500 3 2 40 4) 3 2 =
      (true, [Event.tableRead 4 7, Event.tableRead 8 7, Event.chunky 2 9000 0 7000 0 256 1,
        Event.paletted 1 100 40 500 40 3 2 9000]) ∧
    run exSemPal (VDPixmapBltDirect (exEnv exTablePal) (exPixmap 100 3 2 40 7)
        (exPixmap 500 3 2 40 4) 3 2).2 exMem 147 =
      run exSemPal (expandThenConvert (exEnv exTablePal) (exPixmap 100 3 2 40 7)
        (exPixmap 3000 3 2 12 8) (exPixmap 500 3 2 40 4) 3 2) exMem 147 :=
  have key := palette_path_matches_truecolor_route (exEnv exTablePal) exSemPal
    (exPixmap 100 3 2 40 7) (exPixmap 3000 3 2 12 8) (exPixmap 500 3 2 40 4) 3 2 exMem 8 3 1 2 3
    exConv (by decide) (by decide) (by decide) (by decide) (by decide) (by decide) (by decide)
    rfl rfl rfl rfl rfl rfl rfl (by decide) (by decide) (by decide) (by decide) (by decide)
    (by intro y x hy hx; simp only [exPixmap, exEnv]; omega)
  ⟨key.1, key.2.2.2 1 2 1 (by decide) (by decide) (by decide)⟩

/-! ## The capability probe and the failure paths of Fast Blit -/

/-- Effects that are table reads only leave memory as it is. -/
theorem run_of_no_write (S : CellSem) (es : List Event) (m : Mem)
    (h : ∀ e ∈ es, e.isWrite = false) : run S es m = m := by
  induction es generalizing m with
  | nil => rfl
  | cons e rest ih =>
    have he := h e (List.mem_cons_self _ _)
    have hrest : ∀ e ∈ rest, e.isWrite = false :=
      fun e' he' => h e' (List.mem_cons_of_mem _ he')
    cases e with
    | tableRead s d => rw [run_tableRead_cons]; exact ih m hrest
    | memcpyRect _ _ _ _ _ _ => simp [Event.isWrite] at he
    | planar _ _ _ => simp [Event.isWrite] at he
    | paletted _ _ _ _ _ _ _ _ => simp [Event.isWrite] at he
    | chunky _ _ _ _ _ _ _ => simp [Event.isWrite] at he

/-- A Direct Blit that returns false has done nothing, or has read the empty cell
`table[src][dst]` and nothing else. -/
theorem bltDirect_false_trace (E : Env) (dst src : VDPixmap) (w h : Int)
    (hf : (VDPixmapBltDirect E dst src w h).1 = false) :
    (VDPixmapBltDirect E dst src w h).2 = [] ∨
    (src.format ≠ dst.format ∧ E.VDPixmapGetBlitterTable src.format dst.format = none ∧
      (VDPixmapBltDirect E dst src w h).2 = [Event.tableRead src.format dst.format]) := by
  by_cases h1 : formatOutOfRange E src.format = true
  · left; rw [VDPixmapBltDirect]; simp [h1]
  by_cases h2 : formatOutOfRange E dst.format = true
  · left; rw [VDPixmapBltDirect]; simp [h1, h2]
  simp only [Bool.not_eq_true] at h1 h2
  by_cases hne : src.format = dst.format
  · rw [VDPixmapBltDirect] at hf
    simp [h1, h2, hne] at hf
  · right
    rw [bltDirect_diff_format E dst src w h h1 h2 hne] at hf ⊢
    cases hT : E.VDPixmapGetBlitterTable src.format dst.format with
    | none => exact ⟨hne, rfl, rfl⟩
    | some p =>
      rw [hT] at hf
      simp only at hf
      split_ifs at hf

/-- A Direct Blit that returns false has performed table reads only. -/
theorem bltDirect_false_no_write (E : Env) (dst src : VDPixmap) (w h : Int)
    (hf : (VDPixmapBltDirect E dst src w h).1 = false) :
    ∀ e ∈ (VDPixmapBltDirect E dst src w h).2, e.isWrite = false := by
  rcases bltDirect_false_trace E dst src w h hf with h0 | ⟨-, -, h1⟩
  · rw [h0]; simp
  · rw [h1]; simp [Event.isWrite]

/-- The fallback of Fast Blit once Direct Blit has failed and the two refusals are passed. -/
theorem bltFast_fallback (E : Env) (dst src : VDPixmap) (w h : Int)
    (hdirect : (VDPixmapBltDirect E dst src w h).1 = false)
    (haux : ¬ ((E.VDPixmapGetInfo src.format).auxbufs > 0 ∨
      (E.VDPixmapGetInfo dst.format).auxbufs > 0))
    (hqh : ¬ (E.VDPixmapGetInfo src.format).qh > 1) :
    VDPixmapBltFast E dst src w h =
      match E.VDPixmapGetBlitterTable src.format E.fmt.kPixFormat_YUV444_XVYU,
        E.VDPixmapGetBlitterTable E.fmt.kPixFormat_YUV444_XVYU dst.format with
      | some pb1, some pb2 =>
        (true, (VDPixmapBltDirect E dst src w h).2 ++
          [Event.tableRead src.format E.fmt.kPixFormat_YUV444_XVYU,
            Event.tableRead E.fmt.kPixFormat_YUV444_XVYU dst.format] ++
          rowLoop pb1 pb2 E.tempBuf w src.pitch dst.pitch (doWhileCount h) src.data dst.data)
      | _, _ =>
        match E.VDPixmapGetBlitterTable src.format E.fmt.kPixFormat_XRGB8888,
          E.VDPixmapGetBlitterTable E.fmt.kPixFormat_XRGB8888 dst.format with
        | some pb1, some pb2 =>
          (true, (VDPixmapBltDirect E dst src w h).2 ++
            [Event.tableRead src.format E.fmt.kPixFormat_YUV444_XVYU,
              Event.tableRead E.fmt.kPixFormat_YUV444_XVYU dst.format] ++
            [Event.tableRead src.format E.fmt.kPixFormat_XRGB8888,
              Event.tableRead E.fmt.kPixFormat_XRGB8888 dst.format] ++
            rowLoop pb1 pb2 E.tempBuf w src.pitch dst.pitch (doWhileCount h) src.data dst.data)
        | _, _ =>
          (false, (VDPixmapBltDirect E dst src w h).2 ++
            [Event.tableRead src.format E.fmt.kPixFormat_YUV444_XVYU,
              Event.tableRead E.fmt.kPixFormat_YUV444_XVYU dst.format] ++
            [Event.tableRead src.format E.fmt.kPixFormat_XRGB8888,
              Event.tableRead E.fmt.kPixFormat_XRGB8888 dst.format]) := by
  simp only [VDPixmapBltFast, hdirect, haux, hqh, if_false, Bool.false_eq_true]

/-- Every read of the capability probe is one of five cells. -/
theorem isBltPossible_reads_subset (E : Env) (dstFmt srcFmt : Int) (e : Event)
    (he : e ∈ VDPixmapIsBltPossible_reads E dstFmt srcFmt) :
    e = Event.tableRead srcFmt dstFmt ∨
    e = Event.tableRead srcFmt E.fmt.kPixFormat_YUV444_XVYU ∨
    e = Event.tableRead E.fmt.kPixFormat_YUV444_XVYU dstFmt ∨
    e = Event.tableRead srcFmt E.fmt.kPixFormat_XRGB8888 ∨
    e = Event.tableRead E.fmt.kPixFormat_XRGB8888 dstFmt := by
  simp only [VDPixmapIsBltPossible_reads] at he
  split_ifs at he <;> simp at he <;> tauto

/-- C11. For valid format ids the capability probe returns true exactly when the formats are
equal, or `table[src][dst]` is populated, or both `table[src][YUV444_XVYU]` and
`table[YUV444_XVYU][dst]` are, or both `table[src][XRGB8888]` and `table[XRGB8888][dst]` are.
It takes no buffer; what it does is read table cells, all at valid ids, so memory is
unchanged. -/
theorem isBltPossible_iff (E : Env) (S : CellSem) (dstFmt srcFmt : Int) (m : Mem)
    (hs : 0 ≤ srcFmt ∧ srcFmt < E.fmt.kPixFormat_Max_Standard)
    (hd : 0 ≤ dstFmt ∧ dstFmt < E.fmt.kPixFormat_Max_Standard) :
    (VDPixmapIsBltPossible E dstFmt srcFmt = true ↔
      srcFmt = dstFmt ∨
      (E.VDPixmapGetBlitterTable srcFmt dstFmt).isSome = true ∨
      ((E.VDPixmapGetBlitterTable srcFmt E.fmt.kPixFormat_YUV444_XVYU).isSome = true ∧
        (E.VDPixmapGetBlitterTable E.fmt.kPixFormat_YUV444_XVYU dstFmt).isSome = true) ∨
      ((E.VDPixmapGetBlitterTable srcFmt E.fmt.kPixFormat_XRGB8888).isSome = true ∧
        (E.VDPixmapGetBlitterTable E.fmt.kPixFormat_XRGB8888 dstFmt).isSome = true)) ∧
    (∀ e ∈ VDPixmapIsBltPossible_reads E dstFmt srcFmt, e.isWrite = false) ∧
    (∀ s d, Event.tableRead s d ∈ VDPixmapIsBltPossible_reads E dstFmt srcFmt →
      (0 ≤ s ∧ s < E.fmt.kPixFormat_Max_Standard) ∧
      (0 ≤ d ∧ d < E.fmt.kPixFormat_Max_Standard)) ∧
    run S (VDPixmapIsBltPossible_reads E dstFmt srcFmt) m = m := by
  have hyuv : 0 ≤ E.fmt.kPixFormat_YUV444_XVYU ∧
      E.fmt.kPixFormat_YUV444_XVYU < E.fmt.kPixFormat_Max_Standard := E.fmt.inRange _ (by simp)
  have hrgb : 0 ≤ E.fmt.kPixFormat_XRGB8888 ∧
      E.fmt.kPixFormat_XRGB8888 < E.fmt.kPixFormat_Max_Standard := E.fmt.inRange _ (by simp)
  have hnw : ∀ e ∈ VDPixmapIsBltPossible_reads E dstFmt srcFmt, e.isWrite = false := by
    intro e he
    rcases isBltPossible_reads_subset E dstFmt srcFmt e he with h | h | h | h | h <;>
      (rw [h]; rfl)
  refine ⟨?_, hnw, ?_, run_of_no_write S _ m hnw⟩
  · unfold VDPixmapIsBltPossible
    by_cases heq : srcFmt = dstFmt
    · simp [heq]
    · simp only [heq, if_false, false_or, Bool.or_eq_true, Bool.and_eq_true]
      tauto
  · intro s d hmem
    rcases isBltPossible_reads_subset E dstFmt srcFmt _ hmem with h | h | h | h | h <;>
      (simp only [Event.tableRead.injEq] at h; obtain ⟨rfl, rfl⟩ := h
       exact ⟨by assumption, by assumption⟩)

/-- Witness for C11: with only the route `Pal8 → XRGB8888 → 13` the probe answers true for
`(13, Pal8)`. -/
theorem isBltPossible_iff_witness :
    VDPixmapIsBltPossible (exEnv exTableTwoHop) 13 4 = true ∧
    run exSem (VDPixmapIsBltPossible_reads (exEnv exTableTwoHop) 13 4) exMem = exMem :=
  have key := isBltPossible_iff (exEnv exTableTwoHop) exSem 13 4 exMem (by decide) (by decide)
  ⟨key.1.2 (Or.inr (Or.inr (Or.inr ⟨by decide, by decide⟩))), key.2.2.2⟩

/-- C12. For valid formats and `h ≥ 1`, Fast Blit returns false exactly when Direct Blit
returns false and the source or the destination format has an auxiliary plane, or the
source's `qh` exceeds 1, or neither intermediate pair is complete (a cell of the
`YUV444_XVYU` pair is empty and a cell of the `XRGB8888` pair is empty); in every other case
it returns true. -/
theorem bltFast_false_iff (E : Env) (dst src : VDPixmap) (w h : Int)
    (hs : 0 ≤ src.format ∧ src.format < E.fmt.kPixFormat_Max_Standard)
    (hd : 0 ≤ dst.format ∧ dst.format < E.fmt.kPixFormat_Max_Standard) (hh : 1 ≤ h) :
    ((VDPixmapBltFast E dst src w h).1 = false ↔
      (VDPixmapBltDirect E dst src w h).1 = false ∧
      ((E.VDPixmapGetInfo src.format).auxbufs > 0 ∨
        (E.VDPixmapGetInfo dst.format).auxbufs > 0 ∨
        (E.VDPixmapGetInfo src.format).qh > 1 ∨
        ((E.VDPixmapGetBlitterTable src.format E.fmt.kPixFormat_YUV444_XVYU = none ∨
            E.VDPixmapGetBlitterTable E.fmt.kPixFormat_YUV444_XVYU dst.format = none) ∧
          (E.VDPixmapGetBlitterTable src.format E.fmt.kPixFormat_XRGB8888 = none ∨
            E.VDPixmapGetBlitterTable E.fmt.kPixFormat_XRGB8888 dst.format = none)))) ∧
    ((VDPixmapBltFast E dst src w h).1 ≠ false → (VDPixmapBltFast E dst src w h).1 = true) := by
  refine ⟨?_, by simp⟩
  by_cases hdirect : (VDPixmapBltDirect E dst src w h).1 = true
  · simp [VDPixmapBltFast, hdirect]
  simp only [Bool.not_eq_true] at hdirect
  by_cases haux : (E.VDPixmapGetInfo src.format).auxbufs > 0 ∨
      (E.VDPixmapGetInfo dst.format).auxbufs > 0
  · have : VDPixmapBltFast E dst src w h = (false, (VDPixmapBltDirect E dst src w h).2) := by
      simp only [VDPixmapBltFast, hdirect, haux, if_true, if_false, Bool.false_eq_true]
    rw [this]
    simp only [hdirect, true_and, true_iff]
    tauto
  by_cases hqh : (E.VDPixmapGetInfo src.format).qh > 1
  · have : VDPixmapBltFast E dst src w h = (false, (VDPixmapBltDirect E dst src w h).2) := by
      simp only [VDPixmapBltFast, hdirect, haux, hqh, if_true, if_false, Bool.false_eq_true]
    rw [this]
    simp only [hdirect, true_and, true_iff]
    tauto
  rw [bltFast_fallback E dst src w h hdirect haux hqh]
  have ha1 : ¬ (E.VDPixmapGetInfo src.format).auxbufs > 0 := fun hc => haux (Or.inl hc)
  have ha2 : ¬ (E.VDPixmapGetInfo dst.format).auxbufs > 0 := fun hc => haux (Or.inr hc)
  cases h1 : E.VDPixmapGetBlitterTable src.format E.fmt.kPixFormat_YUV444_XVYU <;>
    cases h2 : E.VDPixmapGetBlitterTable E.fmt.kPixFormat_YUV444_XVYU dst.format <;>
    cases h3 : E.VDPixmapGetBlitterTable src.format E.fmt.kPixFormat_XRGB8888 <;>
    cases h4 : E.VDPixmapGetBlitterTable E.fmt.kPixFormat_XRGB8888 dst.format <;>
    simp [hdirect, ha1, ha2, hqh]

/-- Witness for C12: from the chunky format 5 to the chunky format 7 with an empty table. -/
theorem bltFast_false_iff_witness :
    (VDPixmapBltFast (exEnv fun _ _ => none) (exPixmap 100 4 4 16 7)
      (exPixmap 500 4 4 16 5) 4 4).1 = false := by
  have key := (bltFast_false_iff (exEnv fun _ _ => none) (exPixmap 100 4 4 16 7)
    (exPixmap 500 4 4 16 5) 4 4 (by decide) (by decide) (by decide)).1
  have hd := bltDirect_diff_format (exEnv fun _ _ => none) (exPixmap 100 4 4 16 7)
    (exPixmap 500 4 4 16 5) 4 4 (by decide) (by decide) (by decide)
  exact key.2 ⟨by rw [hd]; rfl, Or.inr (Or.inr (Or.inr ⟨Or.inl rfl, Or.inl rfl⟩))⟩

/-- C13. Whenever Fast Blit returns false, and likewise whenever the two-argument or the
eight-argument `VDPixmapBlt` returns false, the effects performed are table reads only: no
cell has been invoked, no rectangle copied, and memory is unchanged. -/
theorem failed_blit_writes_nothing (E : Env) (S : CellSem) (dst src : VDPixmap)
    (x1 y1 x2 y2 w h : Int) (m : Mem) :
    ((VDPixmapBltFast E dst src w h).1 = false →
      (∀ e ∈ (VDPixmapBltFast E dst src w h).2, e.isWrite = false) ∧
      run S (VDPixmapBltFast E dst src w h).2 m = m) ∧
    ((VDPixmapBlt E dst src).1 = false →
      (∀ e ∈ (VDPixmapBlt E dst src).2, e.isWrite = false) ∧
      run S (VDPixmapBlt E dst src).2 m = m) ∧
    ((VDPixmapBlt_rect E dst x1 y1 src x2 y2 w h).1 = false →
      (∀ e ∈ (VDPixmapBlt_rect E dst x1 y1 src x2 y2 w h).2, e.isWrite = false) ∧
      run S (VDPixmapBlt_rect E dst x1 y1 src x2 y2 w h).2 m = m) := by
  have hfast : ∀ (dst src : VDPixmap) (w h : Int), (VDPixmapBltFast E dst src w h).1 = false →
      ∀ e ∈ (VDPixmapBltFast E dst src w h).2, e.isWrite = false := by
    intro dst src w h hf
    by_cases hdirect : (VDPixmapBltDirect E dst src w h).1 = true
    · simp [VDPixmapBltFast, hdirect] at hf
    simp only [Bool.not_eq_true] at hdirect
    have hnw := bltDirect_false_no_write E dst src w h hdirect
    by_cases haux : (E.VDPixmapGetInfo src.format).auxbufs > 0 ∨
        (E.VDPixmapGetInfo dst.format).auxbufs > 0
    · have : VDPixmapBltFast E dst src w h = (false, (VDPixmapBltDirect E dst src w h).2) := by
        simp only [VDPixmapBltFast, hdirect, haux, if_true, if_false, Bool.false_eq_true]
      rw [this]; exact hnw
    by_cases hqh : (E.VDPixmapGetInfo src.format).qh > 1
    · have : VDPixmapBltFast E dst src w h = (false, (VDPixmapBltDirect E dst src w h).2) := by
        simp only [VDPixmapBltFast, hdirect, haux, hqh, if_true, if_false, Bool.false_eq_true]
      rw [this]; exact hnw
    rw [bltFast_fallback E dst src w h hdirect haux hqh] at hf ⊢
    cases h1 : E.VDPixmapGetBlitterTable src.format E.fmt.kPixFormat_YUV444_XVYU <;>
      cases h2 : E.VDPixmapGetBlitterTable E.fmt.kPixFormat_YUV444_XVYU dst.format <;>
      cases h3 : E.VDPixmapGetBlitterTable src.format E.fmt.kPixFormat_XRGB8888 <;>
      cases h4 : E.VDPixmapGetBlitterTable E.fmt.kPixFormat_XRGB8888 dst.format <;>
      simp only [h1, h2, h3, h4] at hf ⊢ <;>
      first
        | (exfalso; exact Bool.noConfusion hf)
        | (intro e he
           simp only [List.mem_append, List.mem_cons, List.mem_singleton, List.not_mem_nil,
             or_false] at he
           rcases he with (he | he | he) | he | he
           · exact hnw e he
           all_goals (rw [he]; rfl))
  refine ⟨fun hf => ⟨hfast dst src w h hf, run_of_no_write S _ m (hfast dst src w h hf)⟩,
    ?_, ?_⟩
  · intro hf
    by_cases hz : min src.w dst.w = 0 ∨ min src.h dst.h = 0
    · simp [VDPixmapBlt, hz] at hf
    · have : VDPixmapBlt E dst src =
          VDPixmapBltFast E dst src (min src.w dst.w) (min src.h dst.h) := by
        simp only [VDPixmapBlt]; rw [if_neg hz]
      rw [this] at hf ⊢
      exact ⟨hfast _ _ _ _ hf, run_of_no_write S _ m (hfast _ _ _ _ hf)⟩
  · intro hf
    by_cases hc : (clipRect dst x1 y1 src x2 y2 w h).w ≥ 0 ∧
        (clipRect dst x1 y1 src x2 y2 w h).h ≥ 0
    · have : VDPixmapBlt_rect E dst x1 y1 src x2 y2 w h =
          VDPixmapBltFast E
            (E.VDPixmapOffset dst (clipRect dst x1 y1 src x2 y2 w h).x1
              (clipRect dst x1 y1 src x2 y2 w h).y1)
            (E.VDPixmapOffset src (clipRect dst x1 y1 src x2 y2 w h).x2
              (clipRect dst x1 y1 src x2 y2 w h).y2)
            (clipRect dst x1 y1 src x2 y2 w h).w (clipRect dst x1 y1 src x2 y2 w h).h := by
        simp only [VDPixmapBlt_rect]; rw [if_pos hc]
      rw [this] at hf ⊢
      exact ⟨hfast _ _ _ _ hf, run_of_no_write S _ m (hfast _ _ _ _ hf)⟩
    · have : VDPixmapBlt_rect E dst x1 y1 src x2 y2 w h = (true, []) := by
        simp only [VDPixmapBlt_rect]; rw [if_neg hc]
      rw [this] at hf
      simp at hf

/-- Fast Blit between the chunky formats 5 and 7 with an empty table: five table reads, then
failure. -/
theorem exFast_empty_table :
    VDPixmapBltFast (exEnv fun _ _ => none) (exPixmap 100 4 4 16 7) (exPixmap 500 4 4 16 5) 4 4 =
      (false, [Event.tableRead 5 7, Event.tableRead 5 12, Event.tableRead 12 7,
        Event.tableRead 5 8, Event.tableRead 8 7]) := by
  have hd := bltDirect_diff_format (exEnv fun _ _ => none) (exPixmap 100 4 4 16 7)
    (exPixmap 500 4 4 16 5) 4 4 (by decide) (by decide) (by decide)
  simp only [exEnv] at hd
  rw [bltFast_fallback _ _ _ _ _ (by simp only [exEnv]; rw [hd]) (by decide) (by decide)]
  simp only [exEnv]
  rw [hd]
  rfl

/-- Witness for C13: the failed Fast Blit of `exFast_empty_table` leaves memory unchanged. -/
theorem failed_blit_writes_nothing_witness :
    run exSem (VDPixmapBltFast (exEnv fun _ _ => none) (exPixmap 100 4 4 16 7)
      (exPixmap 500 4 4 16 5) 4 4).2 exMem = exMem :=
  ((failed_blit_writes_nothing (exEnv fun _ _ => none) exSem (exPixmap 100 4 4 16 7)
    (exPixmap 500 4 4 16 5) 0 0 0 0 4 4 exMem).1 (by rw [exFast_empty_table])).2

/-- C14. In the fallback of Fast Blit (Direct Blit failed, no auxiliary plane on either side,
source `qh` at most 1) the row loop runs with the cells `table[src][YUV444_XVYU]` and
`table[YUV444_XVYU][dst]` whenever both are populated, whatever the `XRGB8888` cells are; it
runs with `table[src][XRGB8888]` and `table[XRGB8888][dst]` only when a cell of the
`YUV444_XVYU` pair is empty and both of these are populated; otherwise Fast Blit fails.  The
two cells of the loop are always the two cells of one intermediate. -/
theorem bltFast_intermediate_choice (E : Env) (dst src : VDPixmap) (w h : Int)
    (hdirect : (VDPixmapBltDirect E dst src w h).1 = false)
    (haux : ¬ ((E.VDPixmapGetInfo src.format).auxbufs > 0 ∨
      (E.VDPixmapGetInfo dst.format).auxbufs > 0))
    (hqh : ¬ (E.VDPixmapGetInfo src.format).qh > 1) :
    (∀ a b : Nat,
      E.VDPixmapGetBlitterTable src.format E.fmt.kPixFormat_YUV444_XVYU = some a →
      E.VDPixmapGetBlitterTable E.fmt.kPixFormat_YUV444_XVYU dst.format = some b →
      VDPixmapBltFast E dst src w h =
        (true, (VDPixmapBltDirect E dst src w h).2 ++
          [Event.tableRead src.format E.fmt.kPixFormat_YUV444_XVYU,
            Event.tableRead E.fmt.kPixFormat_YUV444_XVYU dst.format] ++
          rowLoop a b E.tempBuf w src.pitch dst.pitch (doWhileCount h) src.data dst.data)) ∧
    ((E.VDPixmapGetBlitterTable src.format E.fmt.kPixFormat_YUV444_XVYU = none ∨
        E.VDPixmapGetBlitterTable E.fmt.kPixFormat_YUV444_XVYU dst.format = none) →
      ∀ a b : Nat,
      E.VDPixmapGetBlitterTable src.format E.fmt.kPixFormat_XRGB8888 = some a →
      E.VDPixmapGetBlitterTable E.fmt.kPixFormat_XRGB8888 dst.format = some b →
      VDPixmapBltFast E dst src w h =
        (true, (VDPixmapBltDirect E dst src w h).2 ++
          [Event.tableRead src.format E.fmt.kPixFormat_YUV444_XVYU,
            Event.tableRead E.fmt.kPixFormat_YUV444_XVYU dst.format] ++
          [Event.tableRead src.format E.fmt.kPixFormat_XRGB8888,
            Event.tableRead E.fmt.kPixFormat_XRGB8888 dst.format] ++
          rowLoop a b E.tempBuf w src.pitch dst.pitch (doWhileCount h) src.data dst.data)) ∧
    ((E.VDPixmapGetBlitterTable src.format E.fmt.kPixFormat_YUV444_XVYU = none ∨
        E.VDPixmapGetBlitterTable E.fmt.kPixFormat_YUV444_XVYU dst.format = none) →
      (E.VDPixmapGetBlitterTable src.format E.fmt.kPixFormat_XRGB8888 = none ∨
        E.VDPixmapGetBlitterTable E.fmt.kPixFormat_XRGB8888 dst.format = none) →
      VDPixmapBltFast E dst src w h =
        (false, (VDPixmapBltDirect E dst src w h).2 ++
          [Event.tableRead src.format E.fmt.kPixFormat_YUV444_XVYU,
            Event.tableRead E.fmt.kPixFormat_YUV444_XVYU dst.format] ++
          [Event.tableRead src.format E.fmt.kPixFormat_XRGB8888,
            Event.tableRead E.fmt.kPixFormat_XRGB8888 dst.format])) := by
  rw [bltFast_fallback E dst src w h hdirect haux hqh]
  refine ⟨?_, ?_, ?_⟩
  · intro a b ha hb
    rw [ha, hb]
  · intro hy a b ha hb
    rw [ha, hb]
    rcases hy with hy | hy
    · rw [hy]
    · rw [hy]
      cases E.VDPixmapGetBlitterTable src.format E.fmt.kPixFormat_YUV444_XVYU <;> rfl
  · intro hy hx
    rcases hy with hy | hy <;> rcases hx with hx | hx <;> rw [hy, hx] <;>
      first
        | rfl
        | (cases E.VDPixmapGetBlitterTable src.format E.fmt.kPixFormat_YUV444_XVYU <;>
            cases E.VDPixmapGetBlitterTable src.format E.fmt.kPixFormat_XRGB8888 <;> rfl)

/-- Witness for C14: from format 5 to format 7 both pairs are complete, and the loop runs
with the `YUV444_XVYU` cells 1 and 2. -/
theorem bltFast_intermediate_choice_witness :
    VDPixmapBltFast (exEnv exTableBothPairs) (exPixmap 100 4 4 16 7) (exPixmap 500 4 4 16 5) 3 1 =
      (true, [Event.tableRead 5 7, Event.tableRead 5 12, Event.tableRead 12 7,
        Event.chunky 1 8000 0 500 0 3 1, Event.chunky 2 100 0 8000 0 3 1]) := by
  have hd := bltDirect_diff_format (exEnv exTableBothPairs) (exPixmap 100 4 4 16 7)
    (exPixmap 500 4 4 16 5) 3 1 (by decide) (by decide) (by decide)
  have hd' : VDPixmapBltDirect (exEnv exTableBothPairs) (exPixmap 100 4 4 16 7)
      (exPixmap 500 4 4 16 5) 3 1 = (false, [Event.tableRead 5 7]) := by
    rw [hd]; rfl
  have key := (bltFast_intermediate_choice (exEnv exTableBothPairs) (exPixmap 100 4 4 16 7)
    (exPixmap 500 4 4 16 5) 3 1 (by rw [hd']) (by decide) (by decide)).1 1 2 rfl rfl
  rw [key, hd']
  rfl

/-! ## The row loop -/

/-- For `1 ≤ h < 2 ^ 32` the body of `do { ... } while(--h);` runs `h` times. -/
theorem doWhileCount_of_pos (h : Int) (h1 : 1 ≤ h) (h2 : h < 2 ^ 32) :
    doWhileCount h = h.toNat := by
  unfold doWhileCount
  rw [Int.emod_eq_of_lt (by omega) (by omega)]
  omega

/-- For `h = 0` the decrement wraps and the body runs `2 ^ 32` times. -/
theorem doWhileCount_zero : doWhileCount 0 = 4294967295 + 1 := by decide

/-- The effects of the row loop, iteration by iteration: iteration `i` converts the row at
`srcp + i * srcpitch` into the scratch row and the scratch row into the row at
`dstp + i * dstpitch`. -/
theorem rowLoop_eq_flatMap (pb1 pb2 : Nat) (tempBuf w srcpitch dstpitch : Int) (n : Nat)
    (srcp dstp : Int) :
    rowLoop pb1 pb2 tempBuf w srcpitch dstpitch n srcp dstp =
      (List.range n).flatMap fun (i : Nat) =>
        [Event.chunky pb1 tempBuf 0 (srcp + (i : Int) * srcpitch) 0 w 1,
          Event.chunky pb2 (dstp + (i : Int) * dstpitch) 0 tempBuf 0 w 1] := by
  induction n generalizing srcp dstp with
  | zero => rfl
  | succ k ih =>
    rw [rowLoop_succ, ih, List.range_succ_eq_map, List.flatMap_cons, List.flatMap_map]
    simp only [Nat.cast_zero, zero_mul, add_zero, List.cons_append, List.nil_append,
      List.cons.injEq, true_and]
    congr 1
    funext i
    have e1 : srcp + srcpitch + (i : Int) * srcpitch = srcp + ((i : Int) + 1) * srcpitch := by
      ring
    have e2 : dstp + dstpitch + (i : Int) * dstpitch = dstp + ((i : Int) + 1) * dstpitch := by
      ring
    simp only [Function.comp, Nat.cast_succ, e1, e2]

/-- C15 at a failing input: Fast Blit from the chunky format 5 to the chunky format 7 through
`XRGB8888`, width 5 and height 0.  The pre-flight checks pass and the `do ... while(--h)` loop
runs its body before the first test: the call returns true after `2 * 2 ^ 32` cell calls
(`2 ^ 32` iterations), the first converting the source row at `src.data` and writing the
destination row at `dst.data`, where the claim has no iteration at all. -/
theorem bltFast_zero_height_runs_loop :
    VDPixmapBltFast (exEnv exTableViaRgb) (exPixmap 100 10 10 40 7) (exPixmap 500 10 10 40 5)
        5 0 =
      (true, [Event.tableRead 5 7, Event.tableRead 5 12, Event.tableRead 12 7,
        Event.tableRead 5 8, Event.tableRead 8 7] ++
        rowLoop 5 5 8000 5 40 40 (4294967295 + 1) 500 100) ∧
    (((VDPixmapBltFast (exEnv exTableViaRgb) (exPixmap 100 10 10 40 7)
      (exPixmap 500 10 10 40 5) 5 0).2).filter Event.isCellCall).length = 2 * 2 ^ 32 ∧
    Event.chunky 5 8000 0 500 0 5 1 ∈
      (VDPixmapBltFast (exEnv exTableViaRgb) (exPixmap 100 10 10 40 7)
        (exPixmap 500 10 10 40 5) 5 0).2 ∧
    Event.chunky 5 100 0 8000 0 5 1 ∈
      (VDPixmapBltFast (exEnv exTableViaRgb) (exPixmap 100 10 10 40 7)
        (exPixmap 500 10 10 40 5) 5 0).2 := by
  have hd := bltDirect_diff_format (exEnv exTableViaRgb) (exPixmap 100 10 10 40 7)
    (exPixmap 500 10 10 40 5) 5 0 (by decide) (by decide) (by decide)
  have hd' : VDPixmapBltDirect (exEnv exTableViaRgb) (exPixmap 100 10 10 40 7)
      (exPixmap 500 10 10 40 5) 5 0 = (false, [Event.tableRead 5 7]) := by
    rw [hd]; rfl
  have hfast : VDPixmapBltFast (exEnv exTableViaRgb) (exPixmap 100 10 10 40 7)
      (exPixmap 500 10 10 40 5) 5 0 =
      (true, [Event.tableRead 5 7, Event.tableRead 5 12, Event.tableRead 12 7,
        Event.tableRead 5 8, Event.tableRead 8 7] ++
        rowLoop 5 5 8000 5 40 40 (4294967295 + 1) 500 100) := by
    rw [bltFast_fallback _ _ _ _ _ (by rw [hd']) (by decide) (by decide), hd',
      doWhileCount_zero]
    rfl
  refine ⟨hfast, ?_, ?_, ?_⟩
  · rw [hfast]
    simp only [List.filter_append, List.length_append, rowLoop_cellCalls]
    rfl
  · rw [hfast, rowLoop_succ]
    simp
  · rw [hfast, rowLoop_succ]
    simp

/-! ## The two-argument blit -/

/-- C16. The two-argument `VDPixmapBlt(dst, src)` returns true with no effect, Fast Blit not
being called, when `min(dst.w, src.w) = 0` or `min(dst.h, src.h) = 0`; otherwise it returns
exactly what Fast Blit returns on the two buffers as they are (no offset) with the extent
`min(dst.w, src.w)` by `min(dst.h, src.h)`. -/
theorem blt_two_arg (E : Env) (S : CellSem) (dst src : VDPixmap) (m : Mem) :
    ((min dst.w src.w = 0 ∨ min dst.h src.h = 0) →
      VDPixmapBlt E dst src = (true, []) ∧ run S (VDPixmapBlt E dst src).2 m = m) ∧
    (¬ (min dst.w src.w = 0 ∨ min dst.h src.h = 0) →
      VDPixmapBlt E dst src =
        VDPixmapBltFast E dst src (min dst.w src.w) (min dst.h src.h)) := by
  rw [min_comm dst.w src.w, min_comm dst.h src.h]
  constructor
  · intro hz
    have : VDPixmapBlt E dst src = (true, []) := by
      simp only [VDPixmapBlt]; rw [if_pos hz]
    exact ⟨this, by rw [this]; rfl⟩
  · intro hz
    simp only [VDPixmapBlt]; rw [if_neg hz]

/-- Witness for C16: a destination of width 0. -/
theorem blt_two_arg_witness :
    VDPixmapBlt (exEnv fun _ _ => some 1) (exPixmap 100 0 4 16 7) (exPixmap 500 4 4 16 5) =
      (true, []) :=
  ((blt_two_arg (exEnv fun _ _ => some 1) exSem (exPixmap 100 0 4 16 7)
    (exPixmap 500 4 4 16 5) exMem).1 (Or.inl (by decide))).1

/-! ## The quantization expression in 32-bit arithmetic -/

/-- The quotient `q = ceilShift w bits` is the integer with `(q - 1) * 2^bits < w ≤ q * 2^bits`,
and it is no larger in absolute value than `w`. -/
theorem ceilShift_bounds (w : Int) (bits : Nat) :
    (ceilShift w bits - 1) * 2 ^ bits < w ∧ w ≤ ceilShift w bits * 2 ^ bits ∧
    (0 ≤ w → 0 ≤ ceilShift w bits ∧ ceilShift w bits ≤ w) ∧
    (w ≤ 0 → w ≤ ceilShift w bits ∧ ceilShift w bits ≤ 0) := by
  unfold ceilShift
  have hd : (1 : Int) ≤ 2 ^ bits := one_le_pow₀ (by norm_num)
  generalize (2 : Int) ^ bits = d at hd
  have h1 := Int.emod_add_ediv (w + d - 1) d
  have h2 := Int.emod_nonneg (w + d - 1) (by omega : d ≠ 0)
  have h3 := Int.emod_lt_of_pos (w + d - 1) (by omega : 0 < d)
  set q := (w + d - 1) / d with hq
  set r := (w + d - 1) % d with hr
  have e : d * q = w + d - 1 - r := by linarith
  refine ⟨by nlinarith, by nlinarith, ?_, ?_⟩
  · intro hw
    have hq0 : 0 ≤ q := by
      by_contra hneg
      have : q ≤ -1 := by omega
      nlinarith
    refine ⟨hq0, ?_⟩
    by_contra hgt
    have : w + 1 ≤ q := by omega
    nlinarith
  · intro hw
    have hq0 : q ≤ 0 := by
      by_contra hpos
      have : 1 ≤ q := by omega
      nlinarith
    refine ⟨?_, hq0⟩
    by_contra hlt
    have : q ≤ w - 1 := by omega
    nlinarith

/-- C17. For a 32-bit `w > -2^31` and a shift `b < 31`, the expression `-((-w) >> b)` computed
on 32-bit `int`s overflows nowhere, so it is the exact value `negShiftNeg w b` used by Direct
Blit, and that value is `ceil(w / 2^b)`: it is 0 for `w = 0`, at least 1 for `w ≥ 1`, and it
satisfies `(result - 1) * 2^b < w ≤ result * 2^b`. -/
theorem negShiftNeg_is_ceil (w : Int) (b : Nat) (hw : -2 ^ 31 < w ∧ w < 2 ^ 31)
    (hb : b < 31) :
    negShiftNeg32 w b = negShiftNeg w b ∧
    negShiftNeg w b = ⌈(w : ℚ) / 2 ^ b⌉ ∧
    (w = 0 → negShiftNeg w b = 0) ∧
    (1 ≤ w → 1 ≤ negShiftNeg w b) ∧
    (negShiftNeg w b - 1) * 2 ^ b < w ∧ w ≤ negShiftNeg w b * 2 ^ b := by
  obtain ⟨hlo, hhi, hnn, hnp⟩ := ceilShift_bounds w b
  have hc := negShiftNeg_eq_ceilShift w b
  have h32 : negShiftNeg32 w b = negShiftNeg w b := by
    unfold negShiftNeg32
    rw [wrapInt32_of_inRange (-w) (by omega) (by omega)]
    have : -((-w) >>> b) = negShiftNeg w b := rfl
    rw [this, hc]
    rcases le_total 0 w with h0 | h0
    · have := hnn h0
      exact wrapInt32_of_inRange _ (by omega) (by omega)
    · have := hnp h0
      exact wrapInt32_of_inRange _ (by omega) (by omega)
  refine ⟨h32, by rw [hc, ceilShift_eq_ceil], ?_, ?_, by rw [hc]; exact hlo,
    by rw [hc]; exact hhi⟩
  · intro h0
    rw [hc]
    have := hnn (by omega)
    omega
  · intro h1
    rw [hc]
    by_contra hlt
    have hle : ceilShift w b ≤ 0 := by omega
    have hd : (0 : Int) < 2 ^ b := by positivity
    nlinarith

/-- Witness for C17: `w = 5`, `b = 1` gives 3. -/
theorem negShiftNeg_is_ceil_witness : negShiftNeg32 5 1 = negShiftNeg 5 1 ∧ 1 ≤ negShiftNeg 5 1 :=
  have key := negShiftNeg_is_ceil 5 1 (by decide) (by decide)
  ⟨key.1, key.2.2.2.1 (by decide)⟩

/-! ## Depth of the palette recursion -/

/-- A Direct Blit from a non-paletted source makes no nested call: one activation is enough
for it. -/
theorem bltDirect_fuel_nonpal (E : Env) (dst src : VDPixmap) (w h : Int) (n : Nat)
    (hnp : isPalFormat E src.format = false) :
    VDPixmapBltDirect_fuel E (n + 1) dst src w h = some (VDPixmapBltDirect E dst src w h) := by
  rw [VDPixmapBltDirect]
  simp only [VDPixmapBltDirect_fuel, hnp]
  cases E.VDPixmapGetBlitterTable src.format dst.format <;> split_ifs <;>
    first | (exfalso; assumption) | simp

/-- A Direct Blit to `XRGB8888` makes no nested call either. -/
theorem bltDirect_fuel_to_xrgb (E : Env) (dst src : VDPixmap) (w h : Int) (n : Nat)
    (hx : dst.format = E.fmt.kPixFormat_XRGB8888) :
    VDPixmapBltDirect_fuel E (n + 1) dst src w h = some (VDPixmapBltDirect E dst src w h) := by
  rw [VDPixmapBltDirect]
  simp only [VDPixmapBltDirect_fuel, hx]
  cases E.VDPixmapGetBlitterTable src.format E.fmt.kPixFormat_XRGB8888 <;> split_ifs <;> simp

/-- Any Direct Blit needs at most two activations: its own and the nested one of the palette
conversion. -/
theorem bltDirect_fuel_two (E : Env) (dst src : VDPixmap) (w h : Int) (n : Nat) :
    VDPixmapBltDirect_fuel E (n + 2) dst src w h = some (VDPixmapBltDirect E dst src w h) := by
  by_cases hp : isPalFormat E src.format = true
  · have hnested := bltDirect_fuel_nonpal E
      { data := E.palbytes, palette := 0, w := palsizeOf E src.format, h := 1, pitch := 0,
        format := dst.format, data2 := 0, pitch2 := 0, data3 := 0, pitch3 := 0 }
      { data := src.palette, palette := 0, w := palsizeOf E src.format, h := 1, pitch := 0,
        format := E.fmt.kPixFormat_XRGB8888, data2 := 0, pitch2 := 0, data3 := 0, pitch3 := 0 }
      (palsizeOf E src.format) 1 n (isPalFormat_xrgb E)
    rw [VDPixmapBltDirect]
    rw [VDPixmapBltDirect_fuel]
    simp only [hp, hnested, paletted_conversion_eq]
    cases E.VDPixmapGetBlitterTable src.format dst.format <;> split_ifs <;> simp
  · simp only [Bool.not_eq_true] at hp
    exact bltDirect_fuel_nonpal E dst src w h (n + 1) hp

/-- C18. The recursion between Direct Blit and the palette conversion helper has depth at
most one: for every table, registry and input, two activations of Direct Blit (the call and
one nested call) give its result, so it terminates; the nested call made for the palette has
the source format `XRGB8888`, which is none of `Pal1`, `Pal2`, `Pal4`, `Pal8`, and one
activation gives its result, so it does not enter the helper again. -/
theorem palette_recursion_depth_one (E : Env) (dst src : VDPixmap) (w h : Int) (fuel : Nat) :
    VDPixmapBltDirect_fuel E (fuel + 2) dst src w h = some (VDPixmapBltDirect E dst src w h) ∧
    isPalFormat E E.fmt.kPixFormat_XRGB8888 = false ∧
    VDPixmapBltDirect_fuel E (fuel + 1)
        { data := E.palbytes, palette := 0, w := palsizeOf E src.format, h := 1, pitch := 0,
          format := dst.format, data2 := 0, pitch2 := 0, data3 := 0, pitch3 := 0 }
        { data := src.palette, palette := 0, w := palsizeOf E src.format, h := 1, pitch := 0,
          format := E.fmt.kPixFormat_XRGB8888, data2 := 0, pitch2 := 0, data3 := 0,
          pitch3 := 0 }
        (palsizeOf E src.format) 1 =
      some (VDPixmapBltDirect E
        { data := E.palbytes, palette := 0, w := palsizeOf E src.format, h := 1, pitch := 0,
          format := dst.format, data2 := 0, pitch2 := 0, data3 := 0, pitch3 := 0 }
        { data := src.palette, palette := 0, w := palsizeOf E src.format, h := 1, pitch := 0,
          format := E.fmt.kPixFormat_XRGB8888, data2 := 0, pitch2 := 0, data3 := 0,
          pitch3 := 0 }
        (palsizeOf E src.format) 1) ∧
    (VDPixmapBltDirect_fuel E 1 dst src w h = none →
      isPalFormat E src.format = true ∧ dst.format ≠ E.fmt.kPixFormat_XRGB8888) :=
  ⟨bltDirect_fuel_two E dst src w h fuel, isPalFormat_xrgb E,
    bltDirect_fuel_nonpal E _ _ _ _ fuel (isPalFormat_xrgb E), by
      intro hnone
      by_cases hp : isPalFormat E src.format = true
      · refine ⟨hp, fun hx => ?_⟩
        rw [bltDirect_fuel_to_xrgb E dst src w h 0 hx] at hnone
        cases hnone
      · simp only [Bool.not_eq_true] at hp
        rw [bltDirect_fuel_nonpal E dst src w h 0 hp] at hnone
        cases hnone⟩

/-- Witness for C18: `Pal8` to the chunky format 7 needs the second activation, and two are
enough. -/
theorem palette_recursion_depth_one_witness :
    VDPixmapBltDirect_fuel (exEnv exTablePal) 1 (exPixmap 100 3 2 40 7) (exPixmap 500 3 2 40 4)
      3 2 = none ∧
    isPalFormat (exEnv exTablePal) (exPixmap 500 3 2 40 4).format = true ∧
    VDPixmapBltDirect_fuel (exEnv exTablePal) 2 (exPixmap 100 3 2 40 7) (exPixmap 500 3 2 40 4)
      3 2 = some (VDPixmapBltDirect (exEnv exTablePal) (exPixmap 100 3 2 40 7)
        (exPixmap 500 3 2 40 4) 3 2) :=
  have key := palette_recursion_depth_one (exEnv exTablePal) (exPixmap 100 3 2 40 7)
    (exPixmap 500 3 2 40 4) 3 2 0
  ⟨by decide, (key.2.2.2 (by decide)).1, key.1⟩

/-! ## Calling conventions in the fallback, and the discarded conversion result -/

/-- C19 at a failing input: `Pal8` (4) reaches the chunky format 7 only through `XRGB8888`
(cell 3 is `table[Pal8][XRGB8888]`, cell 2 is `table[XRGB8888][7]`).  Direct Blit from `Pal8`
to `XRGB8888` calls cell 3 as a paletted cell, with the palette; the fallback of Fast Blit
from `Pal8` to format 7 calls the same cell 3 through the chunky convention, without a
palette, once per row. -/
theorem bltFast_fallback_calls_paletted_cell_as_chunky :
    isPalFormat (exEnv exTablePalViaRgb) 4 = true ∧
    (exEnv exTablePalViaRgb).VDPixmapGetBlitterTable 4 8 = some 3 ∧
    VDPixmapBltDirect (exEnv exTablePalViaRgb) (exPixmap 3000 3 2 12 8) (exPixmap 500 3 2 40 4)
        3 2 =
      (true, [Event.tableRead 4 8, Event.paletted 3 3000 12 500 40 3 2 7000]) ∧
    VDPixmapBltFast (exEnv exTablePalViaRgb) (exPixmap 100 3 2 40 7) (exPixmap 500 3 2 40 4)
        3 2 =
      (true, [Event.tableRead 4 7, Event.tableRead 4 12, Event.tableRead 12 7,
        Event.tableRead 4 8, Event.tableRead 8 7,
        Event.chunky 3 8000 0 500 0 3 1, Event.chunky 2 100 0 8000 0 3 1,
        Event.chunky 3 8000 0 540 0 3 1, Event.chunky 2 140 0 8000 0 3 1]) := by
  have hd1 := bltDirect_diff_format (exEnv exTablePalViaRgb) (exPixmap 3000 3 2 12 8)
    (exPixmap 500 3 2 40 4) 3 2 (by decide) (by decide) (by decide)
  have hd2 := bltDirect_diff_format (exEnv exTablePalViaRgb) (exPixmap 100 3 2 40 7)
    (exPixmap 500 3 2 40 4) 3 2 (by decide) (by decide) (by decide)
  have hd2' : VDPixmapBltDirect (exEnv exTablePalViaRgb) (exPixmap 100 3 2 40 7)
      (exPixmap 500 3 2 40 4) 3 2 = (false, [Event.tableRead 4 7]) := by
    rw [hd2]; rfl
  refine ⟨by decide, rfl, ?_, ?_⟩
  · rw [hd1]
    have ht : (exEnv exTablePalViaRgb).VDPixmapGetBlitterTable (exPixmap 500 3 2 40 4).format
        (exPixmap 3000 3 2 12 8).format = some 3 := rfl
    rw [ht]
    simp only
    rw [if_neg (by decide), if_pos (by decide), if_pos (by decide)]
    rfl
  · rw [bltFast_fallback _ _ _ _ _ (by rw [hd2']) (by decide) (by decide), hd2']
    have hn : doWhileCount 2 = 1 + 1 := by decide
    rw [hn]
    rfl

/-- C20 at a failing input: `table[Pal8][7]` is populated (cell 1) and `table[XRGB8888][7]`
is empty.  The nested Direct Blit that should convert the palette returns false after reading
the empty cell; its result is discarded, the paletted cell is called all the same with the
unconverted buffer `palbytes`, and Direct Blit returns true. -/
theorem bltDirect_ignores_failed_palette_conversion :
    VDPixmapBltDirect (exEnv exTableNoPalConv)
        { data := 9000, palette := 0, w := 256, h := 1, pitch := 0, format := 7, data2 := 0,
          pitch2 := 0, data3 := 0, pitch3 := 0 }
        { data := 7000, palette := 0, w := 256, h := 1, pitch := 0, format := 8, data2 := 0,
          pitch2 := 0, data3 := 0, pitch3 := 0 } 256 1 =
      (false, [Event.tableRead 8 7]) ∧
    VDPixmapBltDirect (exEnv exTableNoPalConv) (exPixmap 100 3 2 40 7) (exPixmap 500 3 2 40 4)
        3 2 =
      (true, [Event.tableRead 4 7, Event.tableRead 8 7,
        Event.paletted 1 100 40 500 40 3 2 9000]) := by
  have hn := bltDirect_diff_format (exEnv exTableNoPalConv)
    { data := 9000, palette := 0, w := 256, h := 1, pitch := 0, format := 7, data2 := 0,
      pitch2 := 0, data3 := 0, pitch3 := 0 }
    { data := 7000, palette := 0, w := 256, h := 1, pitch := 0, format := 8, data2 := 0,
      pitch2 := 0, data3 := 0, pitch3 := 0 } 256 1 (by decide) (by decide) (by decide)
  have hn' : VDPixmapBltDirect (exEnv exTableNoPalConv)
      { data := 9000, palette := 0, w := 256, h := 1, pitch := 0, format := 7, data2 := 0,
        pitch2 := 0, data3 := 0, pitch3 := 0 }
      { data := 7000, palette := 0, w := 256, h := 1, pitch := 0, format := 8, data2 := 0,
        pitch2 := 0, data3 := 0, pitch3 := 0 } 256 1 = (false, [Event.tableRead 8 7]) := by
    rw [hn]; rfl
  refine ⟨hn', ?_⟩
  have ho := bltDirect_diff_format (exEnv exTableNoPalConv) (exPixmap 100 3 2 40 7)
    (exPixmap 500 3 2 40 4) 3 2 (by decide) (by decide) (by decide)
  have ht : (exEnv exTableNoPalConv).VDPixmapGetBlitterTable (exPixmap 500 3 2 40 4).format
      (exPixmap 100 3 2 40 7).format = some 1 := rfl
  rw [ht] at ho
  simp only at ho
  rw [if_neg (by decide), if_pos (by decide), if_neg (by decide), paletted_conversion_eq] at ho
  have hp : palsizeOf (exEnv exTableNoPalConv) (exPixmap 500 3 2 40 4).format = 256 := by
    decide
  rw [ho, hp]
  simp only [exEnv, exFormats, exPixmap] at hn' ⊢
  rw [hn']
  rfl

/-! ## Fast Blit against the capability probe, and the clipped origins -/

/-- A Direct Blit between valid ids returns true only for equal ids or a populated cell. -/
theorem bltDirect_true_cases (E : Env) (dst src : VDPixmap) (w h : Int)
    (hs : formatOutOfRange E src.format = false) (hd : formatOutOfRange E dst.format = false)
    (ht : (VDPixmapBltDirect E dst src w h).1 = true) :
    src.format = dst.format ∨
      (E.VDPixmapGetBlitterTable src.format dst.format).isSome = true := by
  by_cases hne : src.format = dst.format
  · exact Or.inl hne
  · right
    rw [bltDirect_diff_format E dst src w h hs hd hne] at ht
    cases hT : E.VDPixmapGetBlitterTable src.format dst.format with
    | none => rw [hT] at ht; exact Bool.noConfusion ht
    | some p => rfl

/-- C21. For valid format ids, every `w` and every `h ≥ 1`: if Fast Blit
(`VDPixmapBltFast`) returns true, then the capability probe
`VDPixmapIsBltPossible(dst.format, src.format)` returns true.  The probe never denies a
conversion that Fast Blit performs. -/
theorem bltFast_true_probe_true (E : Env) (dst src : VDPixmap) (w h : Int)
    (hsrc : 0 ≤ src.format ∧ src.format < E.fmt.kPixFormat_Max_Standard)
    (hdst : 0 ≤ dst.format ∧ dst.format < E.fmt.kPixFormat_Max_Standard)
    (hh : 1 ≤ h)
    (hfast : (VDPixmapBltFast E dst src w h).1 = true) :
    VDPixmapIsBltPossible E dst.format src.format = true := by
  have hs := formatOutOfRange_of_valid E src.format hsrc
  have hd := formatOutOfRange_of_valid E dst.format hdst
  by_cases hdir : (VDPixmapBltDirect E dst src w h).1 = true
  · rcases bltDirect_true_cases E dst src w h hs hd hdir with heq | hcell
    · simp [VDPixmapIsBltPossible, heq]
    · simp [VDPixmapIsBltPossible, hcell]
  · simp only [Bool.not_eq_true] at hdir
    by_cases haux : (E.VDPixmapGetInfo src.format).auxbufs > 0 ∨
        (E.VDPixmapGetInfo dst.format).auxbufs > 0
    · simp [VDPixmapBltFast, hdir, haux] at hfast
    by_cases hqh : (E.VDPixmapGetInfo src.format).qh > 1
    · simp [VDPixmapBltFast, hdir, haux, hqh] at hfast
    rw [bltFast_fallback E dst src w h hdir haux hqh] at hfast
    cases h1 : E.VDPixmapGetBlitterTable src.format E.fmt.kPixFormat_YUV444_XVYU <;>
    cases h2 : E.VDPixmapGetBlitterTable E.fmt.kPixFormat_YUV444_XVYU dst.format <;>
    cases h3 : E.VDPixmapGetBlitterTable src.format E.fmt.kPixFormat_XRGB8888 <;>
    cases h4 : E.VDPixmapGetBlitterTable E.fmt.kPixFormat_XRGB8888 dst.format <;>
    simp only [h1, h2, h3, h4] at hfast <;>
    first
      | (exfalso; exact Bool.noConfusion hfast)
      | simp [VDPixmapIsBltPossible, h1, h2, h3, h4]

/-- The Fast Blit from format 5 to format 7 over `exTableBothPairs` returns true. -/
theorem exFast_both_pairs_true :
    (VDPixmapBltFast (exEnv exTableBothPairs) (exPixmap 100 4 4 16 7)
      (exPixmap 500 4 4 16 5) 3 1).1 = true := by
  have hd := bltDirect_diff_format (exEnv exTableBothPairs) (exPixmap 100 4 4 16 7)
    (exPixmap 500 4 4 16 5) 3 1 (by decide) (by decide) (by decide)
  have hd' : VDPixmapBltDirect (exEnv exTableBothPairs) (exPixmap 100 4 4 16 7)
      (exPixmap 500 4 4 16 5) 3 1 = (false, [Event.tableRead 5 7]) := by
    rw [hd]; rfl
  rw [bltFast_fallback _ _ _ _ _ (by rw [hd']) (by decide) (by decide)]
  rfl

/-- Witness for C21: the Fast Blit from format 5 to format 7 over `exTableBothPairs` returns
true through the fallback, and the probe for that pair returns true. -/
theorem bltFast_true_probe_true_witness :
    (VDPixmapBltFast (exEnv exTableBothPairs) (exPixmap 100 4 4 16 7)
      (exPixmap 500 4 4 16 5) 3 1).1 = true ∧
    VDPixmapIsBltPossible (exEnv exTableBothPairs) 7 5 = true :=
  ⟨exFast_both_pairs_true,
    bltFast_true_probe_true (exEnv exTableBothPairs) (exPixmap 100 4 4 16 7)
      (exPixmap 500 4 4 16 5) 3 1 (by decide) (by decide) (by decide) exFast_both_pairs_true⟩

/-- C22. The clipping of the eight-argument `VDPixmapBlt` preserves the pixel correspondence:
the clipped origins satisfy `x1' - x2' = x1 - x2` and `y1' - y2' = y1 - y2`, so the source
pixel at offset `(i, j)` from the clipped source origin, which is copied to offset `(i, j)`
from the clipped destination origin, is the source pixel that the unclipped request maps to
that destination pixel.  Arithmetic is exact (no overflow). -/
theorem clipRect_preserves_correspondence (dst : VDPixmap) (x1 y1 : Int) (src : VDPixmap)
    (x2 y2 w h : Int) :
    (clipRect dst x1 y1 src x2 y2 w h).x1 - (clipRect dst x1 y1 src x2 y2 w h).x2 = x1 - x2 ∧
    (clipRect dst x1 y1 src x2 y2 w h).y1 - (clipRect dst x1 y1 src x2 y2 w h).y2 = y1 - y2 ∧
    ∀ i j : Int,
      x2 + (((clipRect dst x1 y1 src x2 y2 w h).x1 + i) - x1) =
        (clipRect dst x1 y1 src x2 y2 w h).x2 + i ∧
      y2 + (((clipRect dst x1 y1 src x2 y2 w h).y1 + j) - y1) =
        (clipRect dst x1 y1 src x2 y2 w h).y2 + j := by
  have hx : (clipRect dst x1 y1 src x2 y2 w h).x1 - (clipRect dst x1 y1 src x2 y2 w h).x2
      = x1 - x2 := by
    simp only [clipRect]; split_ifs <;> omega
  have hy : (clipRect dst x1 y1 src x2 y2 w h).y1 - (clipRect dst x1 y1 src x2 y2 w h).y2
      = y1 - y2 := by
    simp only [clipRect]; split_ifs <;> omega
  refine ⟨hx, hy, fun i j => ⟨by omega, by omega⟩⟩

end Kasumi

namespace VirtualDub

/-! ## The RLE row decoder of `DecodeTGA` -/

/-- Copying from the input appends the bytes the buffer holds. -/
theorem copyFromInput_holds (buf : Nat → Nat) (bytes : List Nat) (row : List Nat) (src : Nat)
    (h : BufferHolds buf src bytes) :
    copyFromInput buf row src bytes.length = row ++ bytes := by
  induction bytes generalizing row src with
  | nil => simp [copyFromInput]
  | cons b bs ih =>
    obtain ⟨h1, h2⟩ := h
    simp only [List.length_cons, copyFromInput]
    rw [ih _ _ h2, h1]
    simp

/-- The buffer holds a concatenation when it holds both parts, one behind the other. -/
theorem bufferHolds_append (buf : Nat → Nat) (a b : List Nat) (src : Nat) :
    BufferHolds buf src (a ++ b) ↔ BufferHolds buf src a ∧ BufferHolds buf (src + a.length) b := by
  induction a generalizing src with
  | nil => simp [BufferHolds]
  | cons x xs ih =>
    have e : src + 1 + xs.length = src + (xs.length + 1) := by omega
    show (_ ∧ BufferHolds buf (src + 1) (xs ++ b)) ↔
      (_ ∧ BufferHolds buf (src + 1) xs) ∧ BufferHolds buf (src + (xs.length + 1)) b
    rw [ih (src + 1), e, and_assoc]

/-- A copy within the row of `k1 + k2` bytes is a copy of `k1` bytes and then of `k2`. -/
theorem copyWithinRow_add (k1 k2 : Nat) (row : List Nat) (s : Nat) :
    copyWithinRow row s (k1 + k2) = copyWithinRow (copyWithinRow row s k1) (s + k1) k2 := by
  induction k1 generalizing row s with
  | zero => simp [copyWithinRow]
  | succ k ih =>
    have e : k + 1 + k2 = (k + k2) + 1 := by omega
    rw [e]
    simp only [copyWithinRow]
    rw [ih]
    have e2 : s + 1 + k = s + (k + 1) := by omega
    rw [e2]

/-- Copying the rest `todo` of the last pixel, once its part `done` has been copied. -/
theorem copyWithinRow_pixel_aux (a todo done : List Nat) :
    copyWithinRow (a ++ (done ++ todo) ++ done) (a.length + done.length) todo.length =
      a ++ (done ++ todo) ++ (done ++ todo) := by
  induction todo generalizing done with
  | nil => simp [copyWithinRow]
  | cons t ts ih =>
    simp only [List.length_cons, copyWithinRow]
    have hget : (a ++ (done ++ t :: ts) ++ done).getD (a.length + done.length) 0 = t := by
      have e : a ++ (done ++ t :: ts) ++ done = (a ++ done) ++ (t :: (ts ++ done)) := by simp
      rw [e, List.getD_append_right _ _ _ _ (by simp)]
      simp
    rw [hget]
    have := ih (done ++ [t])
    simp only [List.append_assoc, List.singleton_append, List.length_append,
      List.length_singleton, List.cons_append, List.nil_append] at this ⊢
    rw [← Nat.add_assoc] at this
    exact this

/-- Copying one pixel length from the start of the last pixel repeats that pixel. -/
theorem copyWithinRow_pixel (a px : List Nat) :
    copyWithinRow (a ++ px) a.length px.length = a ++ px ++ px := by
  have := copyWithinRow_pixel_aux a px []
  simpa using this

/-- The overlapping copy of a run: `n` pixel lengths copied from the start of the pixel just
written leave `n + 1` copies of it. -/
theorem copyWithinRow_run (n : Nat) (a px : List Nat) :
    copyWithinRow (a ++ px) a.length (n * px.length) = a ++ repeatPixel (n + 1) px := by
  induction n generalizing a with
  | zero => simp [copyWithinRow, repeatPixel]
  | succ n ih =>
    have e : (n + 1) * px.length = px.length + n * px.length := by ring
    rw [e, copyWithinRow_add, copyWithinRow_pixel]
    have := ih (a ++ px)
    rw [List.length_append] at this
    rw [this]
    simp [repeatPixel]

set_option maxRecDepth 100000 in
/-- A header byte without the bit `0x80` is its own count field. -/
theorem byte_literal_header : ∀ c < 256, c &&& 0x80 = 0 → c &&& 0x7f = c := by decide

/-- The `do ... while(--c)` loop runs `c` times for `1 ≤ c < 2 ^ 32`. -/
theorem doWhileCount_cast (k : Nat) (h1 : 1 ≤ k) (h2 : k < 2 ^ 32) :
    Kasumi.doWhileCount (k : Int) = k := by
  rw [Kasumi.doWhileCount_of_pos _ (by exact_mod_cast h1) (by exact_mod_cast h2)]
  simp

/-- The first pixel of a packet: two bytes, then `bpp - 2` more. -/
theorem first_pixel (buf : Nat → Nat) (row data : List Nat) (src bpp : Nat) (h2 : 2 ≤ bpp)
    (hlen : bpp ≤ data.length) (hb : BufferHolds buf src data) :
    copyFromInput buf (row ++ [buf src, buf (src + 1)]) (src + 2) (bpp - 2) =
      row ++ data.take bpp := by
  have hsplit : data = data.take bpp ++ data.drop bpp := (List.take_append_drop bpp data).symm
  rw [hsplit, bufferHolds_append] at hb
  obtain ⟨hb1, -⟩ := hb
  have hl : (data.take bpp).length = bpp := by simp [hlen]
  generalize data.take bpp = px at hb1 hl ⊢
  match px, hl, hb1 with
  | a :: b :: tl, hl, hb1 =>
    obtain ⟨ha, hb', htl⟩ := hb1
    have : bpp - 2 = tl.length := by simp at hl; omega
    rw [this, copyFromInput_holds buf tl _ _ htl, ha, hb']
    simp
  | [a], hl, _ => simp at hl; omega
  | [], hl, _ => simp at hl; omega

/-- One iteration of the loop on a well-formed packet that fits the row. -/
theorem tgaRowLoop_packet (bpp : Nat) (hbpp : bpp = 2 ∨ bpp = 3 ∨ bpp = 4) (buf : Nat → Nat)
    (srcLimit dstEnd fuel src : Nat) (row : List Nat) (p : RlePacket)
    (hwf : p.WellFormed bpp) (hbuf : BufferHolds buf src p.bytes) (hin : src < srcLimit)
    (hfit : row.length + (p.n + 1) * bpp ≤ dstEnd) :
    tgaRowLoop bpp buf srcLimit dstEnd (fuel + 1) src row =
      tgaRowLoop bpp buf srcLimit dstEnd fuel (src + p.bytes.length) (row ++ p.expand) := by
  obtain ⟨c, data⟩ := p
  obtain ⟨hc256, hlen⟩ := hwf
  obtain ⟨hc, hdata⟩ := hbuf
  simp only [RlePacket.n, RlePacket.isRun, RlePacket.bytes, RlePacket.expand,
    List.length_cons] at *
  have h2 : 2 ≤ bpp := by omega
  have hn127 : c &&& 0x7f ≤ 127 := Nat.and_le_right
  have hlt : row.length < dstEnd := by
    have : bpp ≤ ((c &&& 0x7f) + 1) * bpp := Nat.le_mul_of_pos_left _ (by omega)
    omega
  have hcnt : (c &&& 0x7f) * bpp % 2 ^ 32 = (c &&& 0x7f) * bpp := by
    apply Nat.mod_eq_of_lt
    have : (c &&& 0x7f) * bpp ≤ 127 * 4 := Nat.mul_le_mul hn127 (by omega)
    omega
  have hexp : row.length + ((c &&& 0x7f) + 1) * bpp =
      row.length + bpp + (c &&& 0x7f) * bpp := by ring
  rw [tgaRowLoop]
  simp only [hlt, if_true, ge_iff_le, not_le.mpr hin, if_false, hc, hcnt]
  by_cases hrun : c &&& 0x80 ≠ 0
  · have hlen' : data.length = bpp := by simpa [hrun] using hlen
    have hrow2 := first_pixel buf row data (src + 1) bpp h2 (by omega) hdata
    rw [List.take_of_length_le (by omega)] at hrow2
    simp only [hrun, ne_eq, not_false_eq_true, if_true, hrow2, bne_iff_ne, decide_True]
    have hsrc : src + 1 + 2 + (bpp - 2) = src + (data.length + 1) := by omega
    rw [hsrc]
    by_cases hn : c &&& 0x7f = 0
    · simp [hn, repeatPixel]
    · have hfit' : ¬ (row ++ data).length + (c &&& 0x7f) * bpp > dstEnd := by
        rw [List.length_append]; omega
      have hdo : Kasumi.doWhileCount (((c &&& 0x7f) * bpp : Nat) : Int) = (c &&& 0x7f) * bpp := by
        apply doWhileCount_cast
        · have : 1 ≤ c &&& 0x7f := by omega
          exact Nat.mul_pos this (by omega)
        · have : (c &&& 0x7f) * bpp ≤ 127 * 4 := Nat.mul_le_mul hn127 (by omega)
          omega
      have hidx : (row ++ data).length - bpp = row.length := by
        rw [List.length_append]; omega
      simp only [hn, not_false_eq_true, if_true, hfit', if_false, hdo, hidx]
      rw [← hlen', copyWithinRow_run]
  · have hz : c &&& 0x80 = 0 := by simpa using hrun
    have hnc : c &&& 0x7f = c := byte_literal_header c hc256 hz
    rw [hnc] at hlen hcnt hexp hfit
    have hlen' : data.length = (c + 1) * bpp := by simpa [hz] using hlen
    have hge : bpp ≤ data.length := by
      rw [hlen']; exact Nat.le_mul_of_pos_left _ (by omega)
    have hrow2 := first_pixel buf row data (src + 1) bpp h2 hge hdata
    have hsplit : data = data.take bpp ++ data.drop bpp := (List.take_append_drop bpp data).symm
    have hdrop : BufferHolds buf (src + 1 + bpp) (data.drop bpp) := by
      rw [hsplit, bufferHolds_append] at hdata
      have hl : (data.take bpp).length = bpp := by simp [hge]
      rw [hl] at hdata
      exact hdata.2
    have hdl : (data.drop bpp).length = c * bpp := by
      rw [List.length_drop, hlen']
      have : (c + 1) * bpp = c * bpp + bpp := by ring
      omega
    have hmul : bpp * c % 2 ^ 32 = c * bpp := by rw [Nat.mul_comm]; exact hcnt
    simp only [hz, ne_eq, not_true_eq_false, if_false, hrow2, hnc, hcnt, hmul,
      bne_self_eq_false, Bool.false_eq_true]
    have hsrc3 : src + 1 + 2 + (bpp - 2) = src + 1 + bpp := by omega
    have hsrc4 : src + 1 + bpp + c * bpp = src + (data.length + 1) := by
      rw [hlen']
      have : (c + 1) * bpp = c * bpp + bpp := by ring
      omega
    rw [hsrc3, hsrc4]
    by_cases hn : c = 0
    · subst hn
      have : data.take bpp = data := List.take_of_length_le (by omega)
      simp [this]
    · have hfit' : ¬ (row ++ data.take bpp).length + c * bpp > dstEnd := by
        rw [List.length_append, List.length_take, Nat.min_eq_left hge]; omega
      have hdo : Kasumi.doWhileCount ((c * bpp : Nat) : Int) = c * bpp := by
        apply doWhileCount_cast
        · have : 1 ≤ c := by omega
          exact Nat.mul_pos this (by omega)
        · have : c * bpp ≤ 255 * 4 := Nat.mul_le_mul (by omega) (by omega)
          omega
      simp only [hn, not_false_eq_true, if_true, hfit', if_false, hdo]
      rw [← hdl, copyFromInput_holds buf _ _ _ hdrop, List.append_assoc, ← hsplit]

/-- The length of `k` copies of a pixel. -/
theorem repeatPixel_length (k : Nat) (px : List Nat) :
    (repeatPixel k px).length = k * px.length := by
  induction k with
  | zero => simp [repeatPixel]
  | succ k ih => simp only [repeatPixel, List.length_append, ih]; ring

/-- A well-formed packet expands to `n + 1` pixels. -/
theorem expand_length (bpp : Nat) (p : RlePacket) (hwf : p.WellFormed bpp) :
    p.expand.length = (p.n + 1) * bpp := by
  obtain ⟨-, hlen⟩ := hwf
  unfold RlePacket.expand
  by_cases hr : p.isRun = true
  · simp only [hr, if_true] at hlen ⊢
    rw [repeatPixel_length, hlen]
  · simp only [hr, if_false] at hlen ⊢
    exact hlen

/-- A copy from the input of `k` bytes makes the row `k` bytes longer. -/
theorem copyFromInput_length (buf : Nat → Nat) (k : Nat) (row : List Nat) (src : Nat) :
    (copyFromInput buf row src k).length = row.length + k := by
  induction k generalizing row src with
  | zero => rfl
  | succ k ih => simp only [copyFromInput, ih, List.length_append, List.length_singleton]; omega

/-- The loop over a sequence of well-formed packets that fit the row. -/
theorem tgaRowLoop_packets (bpp : Nat) (hbpp : bpp = 2 ∨ bpp = 3 ∨ bpp = 4) (buf : Nat → Nat)
    (srcLimit dstEnd : Nat) (ps : List RlePacket) (fuel src : Nat) (row : List Nat)
    (hwf : ∀ p ∈ ps, p.WellFormed bpp)
    (hbuf : BufferHolds buf src (ps.flatMap RlePacket.bytes))
    (hin : src + (ps.flatMap RlePacket.bytes).length ≤ srcLimit)
    (hfit : row.length + rowPixels ps * bpp ≤ dstEnd) :
    tgaRowLoop bpp buf srcLimit dstEnd (fuel + ps.length) src row =
      tgaRowLoop bpp buf srcLimit dstEnd fuel (src + (ps.flatMap RlePacket.bytes).length)
        (row ++ ps.flatMap RlePacket.expand) := by
  induction ps generalizing src row with
  | nil => simp
  | cons p ps ih =>
    simp only [List.flatMap_cons, List.length_append, List.length_cons] at *
    rw [bufferHolds_append] at hbuf
    have hp := hwf p (List.mem_cons_self _ _)
    have hpl : 1 ≤ p.bytes.length := by simp [RlePacket.bytes]
    have hrp : rowPixels (p :: ps) = (p.n + 1) + rowPixels ps := by simp [rowPixels]
    have hmul : ((p.n + 1) + rowPixels ps) * bpp = (p.n + 1) * bpp + rowPixels ps * bpp := by
      ring
    rw [hrp, hmul] at hfit
    rw [← Nat.add_assoc, tgaRowLoop_packet bpp hbpp buf srcLimit dstEnd _ src row p hp hbuf.1
      (by omega) (by omega)]
    rw [ih (src + p.bytes.length) (row ++ p.expand) (fun q hq => hwf q (List.mem_cons_of_mem _ hq))
      hbuf.2 (by omega) (by rw [List.length_append, expand_length bpp p hp]; omega)]
    rw [List.append_assoc, Nat.add_assoc]

/-- One iteration of the loop on a packet that extends past the end of the row. -/
theorem tgaRowLoop_overlong (bpp : Nat) (hbpp : bpp = 2 ∨ bpp = 3 ∨ bpp = 4) (buf : Nat → Nat)
    (srcLimit dstEnd fuel src : Nat) (row : List Nat) (hin : src < srcLimit)
    (hroom : row.length + bpp ≤ dstEnd)
    (hover : row.length + ((buf src &&& 0x7f) + 1) * bpp > dstEnd) :
    tgaRowLoop bpp buf srcLimit dstEnd (fuel + 1) src row = RowResult.rleError := by
  have hn127 : buf src &&& 0x7f ≤ 127 := Nat.and_le_right
  have hcnt : (buf src &&& 0x7f) * bpp % 2 ^ 32 = (buf src &&& 0x7f) * bpp := by
    apply Nat.mod_eq_of_lt
    have : (buf src &&& 0x7f) * bpp ≤ 127 * 4 := Nat.mul_le_mul hn127 (by omega)
    omega
  have hexp : row.length + ((buf src &&& 0x7f) + 1) * bpp =
      row.length + bpp + (buf src &&& 0x7f) * bpp := by ring
  have hn : buf src &&& 0x7f ≠ 0 := by
    intro h0
    rw [h0] at hover
    omega
  have hbig : row.length + 2 + (bpp - 2) + (buf src &&& 0x7f) * bpp > dstEnd := by omega
  rw [tgaRowLoop]
  simp only [show row.length < dstEnd by omega, if_true, ge_iff_le, not_le.mpr hin, if_false,
    hcnt, hn, ne_eq, not_false_eq_true, copyFromInput_length, List.length_append,
    List.length_cons, List.length_nil, hbig]
  split_ifs <;> rfl

/-- The loop ends as soon as the row is full, whatever the budget. -/
theorem tgaRowLoop_done (bpp : Nat) (buf : Nat → Nat) (srcLimit dstEnd fuel src : Nat)
    (row : List Nat) (h : ¬ row.length < dstEnd) :
    tgaRowLoop bpp buf srcLimit dstEnd fuel src row = RowResult.ok row src := by
  cases fuel <;> rw [tgaRowLoop] <;> simp only [h, if_false]

/-- A copy within the row of `k` bytes makes the row `k` bytes longer. -/
theorem copyWithinRow_length (k : Nat) (row : List Nat) (s : Nat) :
    (copyWithinRow row s k).length = row.length + k := by
  induction k generalizing row s with
  | zero => rfl
  | succ k ih => simp only [copyWithinRow, ih, List.length_append, List.length_singleton]; omega

/-- The loop never exhausts a budget of at least the number of bytes still to be written. -/
theorem tgaRowLoop_budget (bpp : Nat) (buf : Nat → Nat) (srcLimit dstEnd : Nat) (fuel : Nat)
    (src : Nat) (row : List Nat) (hfuel : dstEnd - row.length ≤ fuel) :
    tgaRowLoop bpp buf srcLimit dstEnd fuel src row ≠ RowResult.outOfFuel := by
  induction fuel generalizing src row with
  | zero =>
    rw [tgaRowLoop, if_neg (by omega)]
    exact fun h => RowResult.noConfusion h
  | succ fuel ih =>
    rw [tgaRowLoop]
    simp only
    split_ifs <;>
    first
      | exact fun h => RowResult.noConfusion h
      | (apply ih
         simp only [copyFromInput_length, copyWithinRow_length, List.length_append,
           List.length_cons, List.length_nil]
         omega)

/-- The row decoder always ends with a row or with the decoding error. -/
theorem decodeTGA_row_total (bpp w : Nat) (buf : Nat → Nat) (srcLimit src : Nat) :
    DecodeTGA_row bpp w buf srcLimit src ≠ RowResult.outOfFuel :=
  tgaRowLoop_budget bpp buf srcLimit (bpp * w) (bpp * w) src [] (by simp)

/-- Every packet expands to at least one pixel. -/
theorem length_le_rowPixels (ps : List RlePacket) : ps.length ≤ rowPixels ps := by
  induction ps with
  | nil => simp [rowPixels]
  | cons p ps ih => simp only [rowPixels, List.map_cons, List.sum_cons, List.length_cons] at *; omega

/-- C23. In the RLE branch of `DecodeTGA`, for `bpp` in `{2, 3, 4}` and a sequence of
well-formed packets that lies inside the input buffer from `src` on: if the packets expand to
exactly `w` pixels, the row loop ends with the row buffer holding the concatenation of the
packet expansions (`n + 1` copies of the following pixel for a run, the `n + 1` following
pixels verbatim for a literal) and with `src` advanced by the packets' bytes (`1 + bpp` for a
run, `1 + (n+1)*bpp` for a literal); if the packets expand to fewer than `w` pixels and the
next header byte, inside the buffer, asks for more pixels than are left in the row, the loop
throws the "TARGA RLE decoding error". -/
theorem decodeTGA_rle_row (bpp w : Nat) (buf : Nat → Nat) (srcLimit src : Nat)
    (ps : List RlePacket) (hbpp : bpp = 2 ∨ bpp = 3 ∨ bpp = 4)
    (hwf : ∀ p ∈ ps, p.WellFormed bpp)
    (hbuf : BufferHolds buf src (ps.flatMap RlePacket.bytes))
    (hin : src + (ps.flatMap RlePacket.bytes).length ≤ srcLimit) :
    (rowPixels ps = w →
      DecodeTGA_row bpp w buf srcLimit src =
        RowResult.ok (ps.flatMap RlePacket.expand)
          (src + (ps.flatMap RlePacket.bytes).length)) ∧
    (rowPixels ps < w → src + (ps.flatMap RlePacket.bytes).length < srcLimit →
      w < rowPixels ps + ((buf (src + (ps.flatMap RlePacket.bytes).length) &&& 0x7f) + 1) →
      DecodeTGA_row bpp w buf srcLimit src = RowResult.rleError) := by
  have hlen := length_le_rowPixels ps
  have hexpl : ∀ qs : List RlePacket, (∀ p ∈ qs, p.WellFormed bpp) →
      (qs.flatMap RlePacket.expand).length = rowPixels qs * bpp := by
    intro qs
    induction qs with
    | nil => intro _; simp [rowPixels]
    | cons q qs ih =>
      intro h
      simp only [List.flatMap_cons, List.length_append, rowPixels, List.map_cons, List.sum_cons]
      rw [expand_length bpp q (h q (List.mem_cons_self _ _)),
        ih (fun p hp => h p (List.mem_cons_of_mem _ hp))]
      simp only [rowPixels]
      ring
  have hw : ∀ k : Nat, k ≤ bpp * k := fun k => Nat.le_mul_of_pos_left _ (by omega)
  constructor
  · intro hrow
    unfold DecodeTGA_row
    have hfuel : bpp * w - ps.length + ps.length = bpp * w := by
      have := hw w
      omega
    have hfit : ([] : List Nat).length + rowPixels ps * bpp ≤ bpp * w := by
      rw [hrow, Nat.mul_comm]; simp
    have key := tgaRowLoop_packets bpp hbpp buf srcLimit (bpp * w) ps (bpp * w - ps.length)
      src [] hwf hbuf hin hfit
    rw [hfuel] at key
    rw [key, tgaRowLoop_done, List.nil_append]
    rw [List.nil_append, hexpl ps hwf, hrow, Nat.mul_comm]
    omega
  · intro hlt hsrc hover
    unfold DecodeTGA_row
    have hmul : rowPixels ps * bpp + bpp ≤ bpp * w := by
      have : (rowPixels ps + 1) * bpp ≤ w * bpp := Nat.mul_le_mul_right _ (by omega)
      have e : (rowPixels ps + 1) * bpp = rowPixels ps * bpp + bpp := by ring
      rw [Nat.mul_comm bpp w]
      omega
    have hfuel : bpp * w = (bpp * w - ps.length - 1 + 1) + ps.length := by
      have := hw w
      omega
    have hfit : ([] : List Nat).length + rowPixels ps * bpp ≤ bpp * w := by
      simp only [List.length_nil]; omega
    have key := tgaRowLoop_packets bpp hbpp buf srcLimit (bpp * w) ps (bpp * w - ps.length - 1 + 1)
      src [] hwf hbuf hin hfit
    rw [← hfuel] at key
    rw [key]
    apply tgaRowLoop_overlong bpp hbpp buf srcLimit (bpp * w) _ _ _ hsrc
    · rw [List.nil_append, hexpl ps hwf]; exact hmul
    · rw [List.nil_append, hexpl ps hwf]
      have : (rowPixels ps + ((buf (src + (ps.flatMap RlePacket.bytes).length) &&& 0x7f) + 1)) * bpp
          ≥ (w + 1) * bpp := Nat.mul_le_mul_right _ (by omega)
      have e1 : (rowPixels ps + ((buf (src + (ps.flatMap RlePacket.bytes).length) &&& 0x7f) + 1)) * bpp
          = rowPixels ps * bpp +
            ((buf (src + (ps.flatMap RlePacket.bytes).length) &&& 0x7f) + 1) * bpp := by ring
      have e2 : (w + 1) * bpp = bpp * w + bpp := by ring
      omega

/-- Witness for C23: with two bytes per pixel the input `exRleInput` decodes to a row of five
pixels, and for a row of four pixels its second packet extends past the end of the row. -/
theorem decodeTGA_rle_row_witness :
    DecodeTGA_row 2 5 exRleInput 8 0 =
      RowResult.ok [10, 20, 10, 20, 10, 20, 1, 2, 3, 4] 8 ∧
    DecodeTGA_row 2 4 exRleInput 8 0 = RowResult.rleError :=
  ⟨(decodeTGA_rle_row 2 5 exRleInput 8 0
      [RlePacket.mk 0x82 [10, 20], RlePacket.mk 0x01 [1, 2, 3, 4]]
      (by decide) (by decide) (by decide) (by decide)).1 (by decide),
   (decodeTGA_rle_row 2 4 exRleInput 8 0 [RlePacket.mk 0x82 [10, 20]]
      (by decide) (by decide) (by decide) (by decide)).2 (by decide) (by decide) (by decide)⟩

/-! ## The 1555 expansion of `BitBltAlpha` -/

/-- Masking a number split at bit `k` masks the two parts separately. -/
theorem and_split (k hi lo m : Nat) (hlo : lo < 2 ^ k) :
    (2 ^ k * hi + lo) &&& m = 2 ^ k * (hi &&& (m >>> k)) + (lo &&& (m % 2 ^ k)) := by
  apply Nat.eq_of_testBit_eq
  intro j
  have hlo2 : lo &&& (m % 2 ^ k) < 2 ^ k := lt_of_le_of_lt Nat.and_le_left hlo
  rw [Nat.testBit_and, Nat.testBit_mul_pow_two_add _ hlo, Nat.testBit_mul_pow_two_add _ hlo2]
  by_cases hj : j < k
  · simp [hj]
  · have e : k + (j - k) = j := by omega
    simp [hj, e]

/-- The expansion of a 5-bit channel as a sum. -/
theorem channel_expand : ∀ c < 32, (c <<< 3) ||| (c >>> 2) = 8 * c + c / 4 := by decide

/-- The top three bits of an expanded channel byte. -/
theorem channel_top_bits : ∀ c < 32, (8 * c) &&& 0xe0 = 32 * (c / 4) := by decide

/-- The four fields of a 1555 pixel, by masking. -/
theorem pixel_fields (px : Nat) (hpx : px < 65536) :
    px &&& 0x7c00 = 1024 * (px / 1024 % 32) ∧ px &&& 0x03e0 = 32 * (px / 32 % 32) ∧
    px &&& 0x001f = px % 32 ∧ px &&& 0x8000 = 32768 * (px / 32768) := by
  have e10 : px = 2 ^ 10 * (px / 1024) + px % 1024 := by omega
  have e5 : px = 2 ^ 5 * (px / 32) + px % 32 := by omega
  have e15 : px = 2 ^ 15 * (px / 32768) + px % 32768 := by omega
  have m5 : ∀ x : Nat, x &&& 31 = x % 32 := fun x => Nat.and_pow_two_sub_one_eq_mod x 5
  have m1 : ∀ x : Nat, x &&& 1 = x % 2 := fun x => Nat.and_pow_two_sub_one_eq_mod x 1
  refine ⟨?_, ?_, m5 px, ?_⟩
  · have h := and_split 10 (px / 1024) (px % 1024) 0x7c00 (by omega)
    rw [← e10] at h
    rw [h, show (0x7c00 >>> 10) = 31 by decide, show (0x7c00 % 2 ^ 10) = 0 by decide, m5]
    simp
  · have h := and_split 5 (px / 32) (px % 32) 0x03e0 (by omega)
    rw [← e5] at h
    rw [h, show (0x03e0 >>> 5) = 31 by decide, show (0x03e0 % 2 ^ 5) = 0 by decide, m5]
    simp
  · have h := and_split 15 (px / 32768) (px % 32768) 0x8000 (by omega)
    rw [← e15] at h
    rw [h, show (0x8000 >>> 15) = 1 by decide, show (0x8000 % 2 ^ 15) = 0 by decide, m1]
    have : px / 32768 % 2 = px / 32768 := by omega
    simp [this]

/-- The top three bits of each colour byte of `px2`, by masking. -/
theorem px2_top_bits (r g b : Nat) (hr : r < 32) (hg : g < 32) (hb : b < 32) :
    (524288 * r + 2048 * g + 8 * b) &&& 0xe0e0e0 =
      2097152 * (r / 4) + 8192 * (g / 4) + 32 * (b / 4) := by
  have e : 524288 * r + 2048 * g + 8 * b = 2 ^ 16 * (8 * r) + (2 ^ 8 * (8 * g) + 8 * b) := by
    omega
  rw [e, and_split 16 _ _ _ (by omega), show (0xe0e0e0 >>> 16) = 0xe0 by decide,
    show (0xe0e0e0 % 2 ^ 16) = 0xe0e0 by decide, and_split 8 _ _ _ (by omega),
    show (0xe0e0 >>> 8) = 0xe0 by decide, show (0xe0e0 % 2 ^ 8) = 0xe0 by decide,
    channel_top_bits r hr, channel_top_bits g hg, channel_top_bits b hb]
  omega

/-- The bytes of the sum of the expanded channels and the alpha term. -/
theorem bytes_of_sum (r g b a : Nat) (hr : r < 32) (hg : g < 32) (hb : b < 32) (ha : a < 2) :
    (524288 * r + 2048 * g + 8 * b +
        (2097152 * (r / 4) + 8192 * (g / 4) + 32 * (b / 4)) / 2 ^ 5 + 4278190080 * a) % 2 ^ 32 =
      16777216 * (255 * a) + 65536 * (8 * r + r / 4) + 256 * (8 * g + g / 4) + (8 * b + b / 4) := by
  have e1 : (2097152 * (r / 4) + 8192 * (g / 4) + 32 * (b / 4)) / 2 ^ 5 =
      65536 * (r / 4) + 256 * (g / 4) + b / 4 := by omega
  rw [e1]
  have hr4 : r / 4 ≤ 7 := by omega
  have hg4 : g / 4 ≤ 7 := by omega
  have hb4 : b / 4 ≤ 7 := by omega
  generalize r / 4 = r4 at *
  generalize g / 4 = g4 at *
  generalize b / 4 = b4 at *
  rw [Nat.mod_eq_of_lt (by omega)]
  omega

/-- C24. For every 16-bit pixel `px`, the 1555-to-8888 expansion of `BitBltAlpha` is a 32-bit
value whose red, green and blue bytes (bits 16-23, 8-15, 0-7) are `(c << 3) | (c >> 2)` for
the 5-bit channel `c` in bits 10-14, 5-9 and 0-4 of `px`, so that no byte carries into its
neighbour, and whose alpha byte is `0xFF` when bit 15 of `px` is set and `0x00` otherwise;
channel 0 expands to 0 and channel 31 to 255. -/
theorem bitBltAlpha_expands_1555 (px : Nat) (hpx16 : px < 2 ^ 16) :
    BitBltAlpha_pixel px < 2 ^ 32 ∧
    (BitBltAlpha_pixel px >>> 16) &&& 0xff =
      (((px >>> 10) &&& 0x1f) <<< 3) ||| (((px >>> 10) &&& 0x1f) >>> 2) ∧
    (BitBltAlpha_pixel px >>> 8) &&& 0xff =
      (((px >>> 5) &&& 0x1f) <<< 3) ||| (((px >>> 5) &&& 0x1f) >>> 2) ∧
    BitBltAlpha_pixel px &&& 0xff = ((px &&& 0x1f) <<< 3) ||| ((px &&& 0x1f) >>> 2) ∧
    BitBltAlpha_pixel px >>> 24 = (if px &&& 0x8000 ≠ 0 then 0xff else 0x00) ∧
    ((0 <<< 3) ||| (0 >>> 2) = 0 ∧ (31 <<< 3) ||| (31 >>> 2) = 255) := by
  have hpx : px < 65536 := hpx16
  obtain ⟨hR, hG, hB, hA⟩ := pixel_fields px hpx
  have m5 : ∀ x : Nat, x &&& 31 = x % 32 := fun x => Nat.and_pow_two_sub_one_eq_mod x 5
  have m8 : ∀ x : Nat, x &&& 255 = x % 256 := fun x => Nat.and_pow_two_sub_one_eq_mod x 8
  have hr : px / 1024 % 32 < 32 := Nat.mod_lt _ (by decide)
  have hg : px / 32 % 32 < 32 := Nat.mod_lt _ (by decide)
  have hb : px % 32 < 32 := Nat.mod_lt _ (by decide)
  have ha : px / 32768 < 2 := by omega
  have hpx2 : ((px &&& 0x7c00) <<< 9) + ((px &&& 0x03e0) <<< 6) + ((px &&& 0x001f) <<< 3) =
      524288 * (px / 1024 % 32) + 2048 * (px / 32 % 32) + 8 * (px % 32) := by
    rw [hR, hG, hB]
    simp only [Nat.shiftLeft_eq]
    omega
  have hmod : (524288 * (px / 1024 % 32) + 2048 * (px / 32 % 32) + 8 * (px % 32)) % 2 ^ 32 =
      524288 * (px / 1024 % 32) + 2048 * (px / 32 % 32) + 8 * (px % 32) :=
    Nat.mod_eq_of_lt (by omega)
  have cR : (px >>> 10) &&& 0x1f = px / 1024 % 32 := by rw [m5, Nat.shiftRight_eq_div_pow]
  have cG : (px >>> 5) &&& 0x1f = px / 32 % 32 := by rw [m5, Nat.shiftRight_eq_div_pow]
  have halpha : (if px &&& 0x8000 ≠ 0 then 0xff000000 else 0) = 4278190080 * (px / 32768) := by
    rw [hA]
    rcases (show px / 32768 = 0 ∨ px / 32768 = 1 by omega) with h | h <;> simp [h]
  have halpha2 : (if px &&& 0x8000 ≠ 0 then 0xff else 0x00) = 255 * (px / 32768) := by
    rw [hA]
    rcases (show px / 32768 = 0 ∨ px / 32768 = 1 by omega) with h | h <;> simp [h]
  unfold BitBltAlpha_pixel
  simp only [hpx2]
  simp only [hmod, px2_top_bits _ _ _ hr hg hb, halpha, halpha2, cR, cG, hB]
  simp only [channel_expand _ hr, channel_expand _ hg, channel_expand _ hb]
  simp only [Nat.shiftRight_eq_div_pow, m8, bytes_of_sum _ _ _ _ hr hg hb ha]
  generalize px / 1024 % 32 = r at *
  generalize px / 32 % 32 = g at *
  generalize px % 32 = b at *
  generalize px / 32768 = a at *
  have hr4 : r / 4 ≤ 7 := by omega
  have hg4 : g / 4 ≤ 7 := by omega
  have hb4 : b / 4 ≤ 7 := by omega
  generalize r / 4 = r4 at *
  generalize g / 4 = g4 at *
  generalize b / 4 = b4 at *
  clear hR hG hB hA hpx2 hmod cR cG halpha halpha2 m5 m8
  refine ⟨by omega, by omega, by omega, by omega, by omega, by decide⟩

/-- Witness for C24: the pixel `0xfc1f` (alpha bit set, red 31, green 0, blue 31) expands to
`0xffff00ff`. -/
theorem bitBltAlpha_expands_1555_witness :
    BitBltAlpha_pixel 0xfc1f = 0xffff00ff ∧
    (BitBltAlpha_pixel 0xfc1f >>> 16) &&& 0xff = 255 ∧
    (BitBltAlpha_pixel 0xfc1f >>> 8) &&& 0xff = 0 ∧
    BitBltAlpha_pixel 0xfc1f &&& 0xff = 255 ∧
    BitBltAlpha_pixel 0xfc1f >>> 24 = 255 :=
  ⟨by decide, (bitBltAlpha_expands_1555 0xfc1f (by decide)).2.1,
    (bitBltAlpha_expands_1555 0xfc1f (by decide)).2.2.1,
    (bitBltAlpha_expands_1555 0xfc1f (by decide)).2.2.2.1,
    (bitBltAlpha_expands_1555 0xfc1f (by decide)).2.2.2.2.1⟩

/-! ## The BMP header check -/

/-- C25. `DecodeBMPHeader` returns true for images that are not inside the buffer.  With a
buffer of 100 bytes and the pixel data at offset 54: a 32-bit image of width `2 ^ 27` and
height 1 is accepted, because `biWidth * biBitCount` wraps to 0 in 32 bits, while its exact
end is at byte 536870966; and a 32-bit image of width 1 and height -1 is accepted, with the
negative height returned in `h`, because the negative product is added as an
`unsigned long`.  The check does refuse an image of 4 by 1000 pixels and accepts one of 2 by
2 pixels. -/
theorem decodeBMPHeader_accepts_image_outside_buffer :
    ((exBmpHeader 134217728 1).InRange ∧
      DecodeBMPHeader win32Defs 100 (exBmpHeader 134217728 1) =
        BmpHeaderResult.accepted 134217728 1 false ∧
      exactImageEnd (exBmpHeader 134217728 1) 134217728 1 = 536870966 ∧
      ¬ exactImageEnd (exBmpHeader 134217728 1) 134217728 1 ≤ 100) ∧
    ((exBmpHeader 1 (-1)).InRange ∧
      DecodeBMPHeader win32Defs 100 (exBmpHeader 1 (-1)) =
        BmpHeaderResult.accepted 1 (-1) false ∧
      ¬ (0 : Int) ≤ -1) ∧
    ((exBmpHeader 4 1000).InRange ∧
      DecodeBMPHeader win32Defs 100 (exBmpHeader 4 1000) = BmpHeaderResult.tooShort ∧
      DecodeBMPHeader win32Defs 100 (exBmpHeader 2 2) = BmpHeaderResult.accepted 2 2 false) := by
  decide

end VirtualDub
